import Mathlib

/-!
# HyperConverged cluster operator: data-import schedule, condition aggregation, upgrade gating, migration, reconciler shell

Shallow embedding of `pkg/controller/hyperconverged/dataimportschedule.go`
and, for the parts of the controller whose code is not in the source tree
(the aggregator, the upgrade controller, the operand handlers, the
tainted-configuration engine, the migration engine and the reconciler shell),
models that follow the specification text and the assertions of
`hyperconverged_controller_test.go`.

Pointers are embedded by state passing: `applyDataImportSchedule` receives the
process state and the request and returns both, updated.
-/

namespace Hyperconverged

/-! ## Data model -/

/-- Modelled from the spec: the status of a condition (section 3,
"Condition"): `True`, `False` or `Unknown`. The type is declared outside the
source tree. -/
inductive ConditionStatus where
  | ConditionTrue
  | ConditionFalse
  | ConditionUnknown
  deriving DecidableEq, Repr

/-- Modelled from the spec: one condition of an object status (section 3,
"Condition"): type, status, reason and message. The type is declared outside
the source tree. -/
structure Condition where
  CondType : String
  Status : ConditionStatus
  Reason : String
  Message : String
  deriving DecidableEq, Repr

/-- Modelled from the spec: a related object reference (section 3). The type
is declared outside the source tree. -/
structure ObjectReference where
  APIVersion : String
  Kind : String
  Namespace : String
  Name : String
  ResourceVersion : String
  deriving DecidableEq, Repr

/-- Modelled from the spec: the status of the HyperConverged resource, with
the fields of the "HC status surface" (section 6). The type is declared
outside the source tree. -/
structure HyperConvergedStatus where
  Conditions : List Condition
  Versions : List (String × String)
  RelatedObjects : List ObjectReference
  ObservedGeneration : Int
  DataImportSchedule : String
  deriving DecidableEq, Repr

/-- Modelled from the spec: the live-migration tuning of the HC spec
(`liveMigrationConfig`, section 6), which is also the content of the legacy
ConfigMap (section 4.6). A nil pointer is `none`. The type is declared outside
the source tree; the field types are those the tests give the values. -/
structure LiveMigrationConfigurations where
  ParallelMigrationsPerCluster : Option Nat
  ParallelOutboundMigrationsPerNode : Option Nat
  BandwidthPerMigration : Option String
  CompletionTimeoutPerGiB : Option Int
  ProgressTimeout : Option Int
  deriving DecidableEq, Repr

/-- Modelled from the spec: the spec of the HyperConverged resource (section
6, "HC spec surface"): the live-migration tuning, the scratch-space storage
class, the resource requirements of the storage workloads, and the other
recognised options as a list of names and values. The type is declared
outside the source tree. -/
structure HyperConvergedSpec where
  LiveMigrationConfig : LiveMigrationConfigurations
  ScratchSpaceStorageClass : Option String
  StorageWorkloads : Option String
  Options : List (String × String)
  deriving DecidableEq, Repr

/-- Modelled from the spec: the HyperConverged resource (section 3): metadata,
spec and status. The type is declared outside the source tree; the schedule
code never reads `Spec`. -/
structure HyperConverged where
  Name : String
  Namespace : String
  Annotations : List (String × String)
  Labels : List (String × String)
  Finalizers : List String
  Spec : HyperConvergedSpec
  Status : HyperConvergedStatus
  deriving DecidableEq, Repr

/-- Modelled from the spec: the request threaded through one reconcile
(`common.HcoRequest`, declared outside the source tree): the request key, the
HyperConverged instance and the flags of the pass. The schedule code reads and
writes `Instance.Status.DataImportSchedule` and `StatusDirty` only. -/
structure HcoRequest where
  Name : String
  Namespace : String
  Instance : HyperConverged
  UpgradeMode : Bool
  ComponentUpgradeInProgress : Bool
  Dirty : Bool
  StatusDirty : Bool
  HCOTriggered : Bool
  Upgradeable : Bool
  deriving DecidableEq, Repr

/-- The process-wide state read and written by the schedule code: the package
variable `dataImportSchedule` (initially `""`), and a ghost counter of the
calls of `generateSchedule` made so far by this process. -/
structure Process where
  dataImportSchedule : String
  generateCalls : Nat
  deriving DecidableEq, Repr

/-- A freshly started process: `dataImportSchedule = ""`, nothing generated. -/
def Process.fresh : Process := { dataImportSchedule := "", generateCalls := 0 }

/-! ## `generateSchedule` -/

/-- The value `r.Intn(n)` returns, given the draw `v` that the generator
accepted: `v % n`. -/
def Intn (v n : Nat) : Nat := v % n

/-- `fmt.Sprintf("%d */12 * * *", randMinute)` for a non-negative `randMinute`. -/
def sprintfSchedule (randMinute : Nat) : String :=
  Nat.repr randMinute ++ " */12 * * *"

/-- `generateSchedule`: `v` is the draw of the time-seeded random source. -/
def generateSchedule (v : Nat) : String :=
  let randMinute := Intn v 60
  sprintfSchedule randMinute

/-! ## `applyDataImportSchedule` -/

/-- Write `req.Instance.Status.DataImportSchedule`. -/
def HcoRequest.setDataImportSchedule (req : HcoRequest) (s : String) : HcoRequest :=
  { req with Instance := { req.Instance with Status := { req.Instance.Status with DataImportSchedule := s } } }

/-- `applyDataImportSchedule(req)`. `v` is the draw the random source yields
if `generateSchedule` is called; the result is the process state and the
request after the call. -/
def applyDataImportSchedule (v : Nat) (p : Process) (req : HcoRequest) : Process × HcoRequest :=
  if req.Instance.Status.DataImportSchedule = "" then
    let p1 : Process :=
      if p.dataImportSchedule = "" then
        { dataImportSchedule := generateSchedule v, generateCalls := p.generateCalls + 1 }
      else p
    let req1 := req.setDataImportSchedule p1.dataImportSchedule
    (p1, { req1 with StatusDirty := true })
  else if req.Instance.Status.DataImportSchedule ≠ p.dataImportSchedule then
    ({ p with dataImportSchedule := req.Instance.Status.DataImportSchedule }, req)
  else
    (p, req)

/-- A run of one process: each element is the draw available to the call and
the request presented to it. The list of the requests after each call is
returned together with the final process state. -/
def runCalls : Process → List (Nat × HcoRequest) → Process × List HcoRequest
  | p, [] => (p, [])
  | p, (v, req) :: rest =>
    let r := applyDataImportSchedule v p req
    let t := runCalls r.1 rest
    (t.1, r.2 :: t.2)

/-- A live-migration tuning with every pointer nil. -/
def LiveMigrationConfigurations.empty : LiveMigrationConfigurations :=
  { ParallelMigrationsPerCluster := none, ParallelOutboundMigrationsPerNode := none,
    BandwidthPerMigration := none, CompletionTimeoutPerGiB := none, ProgressTimeout := none }

/-- An HC spec with nothing set. -/
def HyperConvergedSpec.empty : HyperConvergedSpec :=
  { LiveMigrationConfig := LiveMigrationConfigurations.empty, ScratchSpaceStorageClass := none,
    StorageWorkloads := none, Options := [] }

/-- A request for the HC singleton whose status carries the schedule `h` and
whose `StatusDirty` flag is `dirty`; every other field is empty. -/
def requestWith (h : String) (dirty : Bool) : HcoRequest :=
  { Name := "kubevirt-hyperconverged"
    Namespace := "kubevirt-hyperconverged"
    Instance :=
      { Name := "kubevirt-hyperconverged"
        Namespace := "kubevirt-hyperconverged"
        Annotations := []
        Labels := []
        Finalizers := []
        Spec := HyperConvergedSpec.empty
        Status :=
          { Conditions := []
            Versions := []
            RelatedObjects := []
            ObservedGeneration := 0
            DataImportSchedule := h } }
    UpgradeMode := false
    ComponentUpgradeInProgress := false
    Dirty := false
    StatusDirty := dirty
    HCOTriggered := true
    Upgradeable := true }

/-! ## The schedule format

The regular expression of the specification and the notions used to state the
format of the generated text. These follow the specification, not the code. -/

/-- Regular expressions without repetition: enough for the schedule pattern. -/
inductive Pattern where
  | empty
  | lit (c : Char)
  | range (lo hi : Char)
  | seq (a b : Pattern)
  | alt (a b : Pattern)
  deriving Repr

/-- The texts left over after the pattern has matched a prefix of the input,
one for each way of matching. -/
def Pattern.residuals : Pattern → List Char → List (List Char)
  | .empty, s => [s]
  | .lit _, [] => []
  | .lit c, x :: xs => if x = c then [xs] else []
  | .range _ _, [] => []
  | .range lo hi, x :: xs => if lo.toNat ≤ x.toNat ∧ x.toNat ≤ hi.toNat then [xs] else []
  | .seq a b, s => (a.residuals s).flatMap (fun t => b.residuals t)
  | .alt a b, s => a.residuals s ++ b.residuals s

/-- Anchored match, `^pattern$`: some way of matching consumes the whole text. -/
def Pattern.fullMatch (r : Pattern) (s : String) : Bool :=
  decide ([] ∈ r.residuals s.data)

/-- The pattern that matches exactly the given characters. -/
def Pattern.literal : List Char → Pattern
  | [] => .empty
  | c :: cs => .seq (.lit c) (Pattern.literal cs)

/-- The class `\d`: an ASCII digit. -/
def Pattern.digit : Pattern := .range '0' '9'

/-- The pattern `(\d|[1-5]\d) \*/12 \* \* \*`, matched anchored by `fullMatch`. -/
def schedulePattern : Pattern :=
  .seq (.alt Pattern.digit (.seq (.range '1' '5') Pattern.digit))
    (Pattern.literal " */12 * * *".data)

/-- Split a text into its fields, separated by single spaces. -/
def fields : List Char → List (List Char)
  | [] => [[]]
  | c :: cs =>
    if c = ' ' then [] :: fields cs
    else
      match fields cs with
      | [] => [[c]]
      | f :: fs => (c :: f) :: fs

/-- The number written by a run of decimal digits. -/
def decimalValue (cs : List Char) : Nat :=
  cs.foldl (fun acc c => 10 * acc + (c.toNat - '0'.toNat)) 0

/-- The text `cs` is the plain decimal rendering of `m`: at least one
character, digits only (so no sign and no padding), no leading zero unless the
text is `0` itself, and its value is `m`. -/
def isDecimalOf (cs : List Char) (m : Nat) : Bool :=
  !cs.isEmpty && cs.all (fun c => '0'.toNat ≤ c.toNat && c.toNat ≤ '9'.toNat)
    && (cs.length == 1 || cs.head? != some '0') && decimalValue cs == m

/-! ## Condition aggregation and upgrade gating

The aggregator and the upgrade controller are exercised by the controller
tests, but their code is not part of the source tree; they are modelled from
sections 4.2 to 4.4 of the specification. Where an assertion of
`hyperconverged_controller_test.go` settles an outcome, the model agrees with
the test. -/

/-- Modelled from the spec: an operand CR as the aggregator and the upgrade
controller read it (section 3, "Operand CR"): its name as used in reasons, the
version its status reports, the version the process expects of it, and the
conditions of its status. The operand types themselves are not in the source. -/
structure Operand where
  Name : String
  ObservedVersion : String
  TargetVersion : String
  Conditions : List Condition
  deriving DecidableEq, Repr

/-- Modelled from the spec: one top-level condition of HC as the aggregator
derives it. `Message` is `none` where the specification fixes no text. -/
structure HcCondition where
  Status : ConditionStatus
  Reason : String
  Message : Option String
  deriving DecidableEq, Repr

/-- Modelled from the spec: the five top-level conditions of HC (section 4.3). -/
structure HcConditions where
  ReconcileComplete : HcCondition
  Available : HcCondition
  Progressing : HcCondition
  Degraded : HcCondition
  Upgradeable : HcCondition
  deriving DecidableEq, Repr

/-- Modelled from the spec: the reasons the specification names without giving
their text: `commonDegradedReason`, and the reason of a failed reconcile. The
constants are declared outside the source tree. -/
structure ReasonNames where
  commonDegradedReason : String
  reconcileFailedReason : String
  deriving DecidableEq, Repr

/-- Modelled from the spec: the reason `ReconcileCompleted` of section 4.3. -/
def reconcileCompleted : String := "ReconcileCompleted"

/-- Modelled from the spec: the negative findings collected while the operands
are walked in registry order (section 9, "Last-wins reason ordering"); each
field holds what the last operand that set it left there. -/
structure Negatives where
  notAvailable : Option (String × Option String)
  progressing : Option (String × Option String)
  degraded : Option String
  notUpgradeable : Option String
  deriving DecidableEq, Repr

/-- Modelled from the spec: nothing found yet. -/
def Negatives.none : Negatives :=
  { notAvailable := Option.none, progressing := Option.none, degraded := Option.none,
    notUpgradeable := Option.none }

/-- Modelled from the spec: the contribution of one condition of the operand
`name` (sections 4.2 and 4.3): `Available=False`, `Progressing=True`,
`Degraded=True` and `Upgradeable=False` overwrite the finding of their kind;
every other condition contributes nothing. -/
def contributeCondition (name : String) (acc : Negatives) (c : Condition) : Negatives :=
  if c.CondType = "Available" ∧ c.Status = ConditionStatus.ConditionFalse then
    { acc with notAvailable := some (name ++ "NotAvailable", Option.none) }
  else if c.CondType = "Progressing" ∧ c.Status = ConditionStatus.ConditionTrue then
    { acc with progressing := some (name ++ "Progressing", Option.none) }
  else if c.CondType = "Degraded" ∧ c.Status = ConditionStatus.ConditionTrue then
    { acc with degraded := some name }
  else if c.CondType = "Upgradeable" ∧ c.Status = ConditionStatus.ConditionFalse then
    { acc with notUpgradeable := some name }
  else acc

/-- Modelled from the spec: the operand carries a condition of the given type.
The aggregator looks for the `Available` condition of an operand (test "should
be not available when components with missing "Available" condition"). -/
def Operand.hasCondition (o : Operand) (condType : String) : Bool :=
  o.Conditions.any (fun c => c.CondType = condType)

/-- Modelled from the spec: the contribution of one operand (section 4.3): an
operand without conditions is treated as `Available=False` with reason
`<Kind>Conditions` and message `<Kind> resource has no conditions`; otherwise
its conditions contribute one after the other. The test "should find all
managed resources" expects the same reason and message on Progressing=True
and on Upgradeable=False, so such an operand also leaves them as the
`progressing` finding. An operand whose conditions hold no `Available`
condition counts as not available too (test "should be not available when
components with missing "Available" condition"); that test shows the status
of HC Available only, and the model gives such an operand the finding of an
operand that reports `Available=False`. -/
def contributeOperand (acc : Negatives) (o : Operand) : Negatives :=
  if o.Conditions = [] then
    { acc with
      notAvailable := some (o.Name ++ "Conditions", some (o.Name ++ " resource has no conditions"))
      progressing := some (o.Name ++ "Conditions", some (o.Name ++ " resource has no conditions")) }
  else
    let found := o.Conditions.foldl (contributeCondition o.Name) acc
    if o.hasCondition "Available" then found
    else { found with notAvailable := some (o.Name ++ "NotAvailable", Option.none) }

/-- Modelled from the spec: the walk over the operands in registry order. -/
def collectNegatives (ops : List Operand) : Negatives :=
  ops.foldl contributeOperand Negatives.none

/-- Modelled from the spec: the condition aggregator (section 4.3). `upgrading`
tells whether the upgrade controller is in upgrade mode, `err` is the error
raised by the reconcile pass, if any, and `ops` are the operands in registry
order. For Available, the specification lets Degraded=True win over an
`<Operand>NotAvailable` reason, while the test "should be degraded when a
component is degraded + !Available" expects the reason `CDINotAvailable`; the
model follows the test: a degraded operand makes Available False with
`commonDegradedReason` only when no operand left a not-available finding. The
Upgradeable reason under Progressing and under Degraded is the one the tests
of "Aggregate Negative Conditions" expect. -/
def aggregate (names : ReasonNames) (upgrading : Bool) (err : Option String)
    (ops : List Operand) : HcConditions :=
  let neg := collectNegatives ops
  { ReconcileComplete :=
      match err with
      | Option.none => { Status := .ConditionTrue, Reason := reconcileCompleted, Message := Option.none }
      | some e => { Status := .ConditionFalse, Reason := names.reconcileFailedReason, Message := some e }
    Degraded :=
      match neg.degraded with
      | some n => { Status := .ConditionTrue, Reason := n ++ "Degraded", Message := Option.none }
      | Option.none => { Status := .ConditionFalse, Reason := reconcileCompleted, Message := Option.none }
    Progressing :=
      match neg.progressing with
      | some (reason, message) => { Status := .ConditionTrue, Reason := reason, Message := message }
      | Option.none => { Status := .ConditionFalse, Reason := reconcileCompleted, Message := Option.none }
    Available :=
      match neg.notAvailable with
      | some (reason, message) => { Status := .ConditionFalse, Reason := reason, Message := message }
      | Option.none =>
        if neg.degraded.isSome then
          { Status := .ConditionFalse, Reason := names.commonDegradedReason,
            Message := some "HCO is not available due to degraded components" }
        else { Status := .ConditionTrue, Reason := reconcileCompleted, Message := Option.none }
    Upgradeable :=
      if upgrading then
        { Status := .ConditionFalse, Reason := "UpgradeableUpgrading", Message := Option.none }
      else
        match neg.notUpgradeable with
        | some n => { Status := .ConditionFalse, Reason := n ++ "NotUpgradeable", Message := Option.none }
        | Option.none =>
          match neg.progressing with
          | some (reason, message) => { Status := .ConditionFalse, Reason := reason, Message := message }
          | Option.none =>
            if neg.degraded.isSome then
              { Status := .ConditionFalse, Reason := names.commonDegradedReason, Message := Option.none }
            else
              { Status := .ConditionTrue, Reason := reconcileCompleted, Message := Option.none } }

/-- The operand reports a condition of the given type with the given status. -/
def Operand.reports (o : Operand) (condType : String) (status : ConditionStatus) : Bool :=
  o.Conditions.any (fun c => c.CondType = condType ∧ c.Status = status)

/-- The operands that report `Available=False`, in registry order. -/
def notAvailableOperands (ops : List Operand) : List Operand :=
  ops.filter (fun o => o.reports "Available" .ConditionFalse)

/-- The operand counts as not available for the aggregator: it reports
`Available=False`, or it carries no `Available` condition (as an operand
without conditions does). -/
def Operand.lacksAvailability (o : Operand) : Bool :=
  o.reports "Available" .ConditionFalse || !o.hasCondition "Available"

/-- The reason and message an operand that counts as not available leaves. -/
def Operand.notAvailableFinding (o : Operand) : String × Option String :=
  if o.Conditions = [] then
    (o.Name ++ "Conditions", some (o.Name ++ " resource has no conditions"))
  else (o.Name ++ "NotAvailable", Option.none)

/-- The operand counts as progressing for the aggregator: it carries no
conditions, or it reports `Progressing=True`. -/
def Operand.countsAsProgressing (o : Operand) : Bool :=
  decide (o.Conditions = []) || o.reports "Progressing" .ConditionTrue

/-- The reason and message an operand that counts as progressing leaves. -/
def Operand.progressingFinding (o : Operand) : String × Option String :=
  if o.Conditions = [] then
    (o.Name ++ "Conditions", some (o.Name ++ " resource has no conditions"))
  else (o.Name ++ "Progressing", Option.none)

/-- Modelled from the spec: `GetVersion` on the version map of HC status. -/
def getVersion : List (String × String) → String → Option String
  | [], _ => Option.none
  | (k, x) :: rest, name => if k = name then some x else getVersion rest name

/-- Modelled from the spec: `UpdateVersion` on the version map of HC status:
the entry of that name is replaced, or added when there is none. -/
def updateVersion : List (String × String) → String → String → List (String × String)
  | [], name, v => [(name, v)]
  | (k, x) :: rest, name, v =>
    if k = name then (k, v) :: rest else (k, x) :: updateVersion rest name v

/-- Modelled from the spec: upgrade mode (section 4.4): the persisted own
version is absent or differs from the target version of the process. -/
def inUpgradeMode (versions : List (String × String)) (own target : String) : Bool :=
  getVersion versions own != some target

/-- Modelled from the spec: the observed version of the operand is its target. -/
def Operand.versionReached (o : Operand) : Bool := o.ObservedVersion = o.TargetVersion

/-- Modelled from the spec: the gate of the version bump (sections 4.2 and
4.4): every operand has reached its target version and the aggregated
conditions are `Available=True`, `Progressing=False`, `Degraded=False`. -/
def upgradeDone (names : ReasonNames) (err : Option String) (ops : List Operand) : Bool :=
  ops.all Operand.versionReached
    && (aggregate names true err ops).Available.Status = .ConditionTrue
    && (aggregate names true err ops).Progressing.Status = .ConditionFalse
    && (aggregate names true err ops).Degraded.Status = .ConditionFalse

/-- Modelled from the spec: the upgrade controller's step on the version map
(section 4.4): in upgrade mode the own version is bumped to the target when
the gate is open and left alone otherwise; outside upgrade mode nothing is
written. The test "detect upgrade existing HCO Version" shows reconciles in
upgrade mode, all operands healthy and at their target version, of which one
returns requeue=True and keeps the old version, and the next one returns
requeue=False and writes the new version: the first still had something to
write to the HC object. What that is, neither the specification nor the tests
tell; `pendingWrite` tells whether the reconcile is of the first kind, and the
version is bumped only when it is not. -/
def upgradeStep (names : ReasonNames) (own target : String) (err : Option String)
    (ops : List Operand) (pendingWrite : Bool) (versions : List (String × String)) :
    List (String × String) :=
  if inUpgradeMode versions own target then
    if upgradeDone names err ops && !pendingWrite then updateVersion versions own target
    else versions
  else versions

/-- Sample texts for the reasons the specification leaves unnamed. -/
def sampleNames : ReasonNames :=
  { commonDegradedReason := "HCODegraded", reconcileFailedReason := "ReconcileFailed" }

/-- A condition with the reason and message the controller tests give it. -/
def testCondition (condType : String) (status : ConditionStatus) : Condition :=
  { CondType := condType, Status := status, Reason := "AvailableError",
    Message := "Test Error message" }

/-- An operand at version 1.6.3 with the given conditions. -/
def operandWith (name : String) (conds : List Condition) : Operand :=
  { Name := name, ObservedVersion := "1.6.3", TargetVersion := "1.6.3", Conditions := conds }

/-- The conditions of an operand status: one each for Available, Progressing
and Degraded, with the given statuses. -/
def operandConditions (available progressing degraded : ConditionStatus) : List Condition :=
  [ testCondition "Available" available,
    testCondition "Progressing" progressing,
    testCondition "Degraded" degraded ]

/-- The healthy conditions of an operand. -/
def completedConditions : List Condition :=
  operandConditions .ConditionTrue .ConditionFalse .ConditionFalse

/-- The conditions of an operand that is not available and otherwise healthy. -/
def notAvailableConditions : List Condition :=
  operandConditions .ConditionFalse .ConditionFalse .ConditionFalse

/-- The four operands in registry order, CDI and NetworkAddonsConfig carrying
the given conditions and SSP the given ones, KubeVirt healthy. -/
def registryWith (cdi cna ssp : List Condition) : List Operand :=
  [ operandWith "KubeVirt" completedConditions,
    operandWith "CDI" cdi,
    operandWith "NetworkAddonsConfig" cna,
    operandWith "SSP" ssp ]

/-- The scenario "last faulty component": CDI and NetworkAddonsConfig both
report `Available=False`, nothing else is wrong. -/
def lastFaultyScenario : List Operand :=
  registryWith notAvailableConditions notAvailableConditions completedConditions

/-! ## The cluster and the collaborators

The reconciler, the operand handlers, the tainted-configuration engine and the
migration engine are not part of the source tree. They are modelled from
sections 4.1, 4.2, 4.5 and 4.6 of the specification, in agreement with the
assertions of `hyperconverged_controller_test.go`. The API client is modelled
as a store whose calls succeed: the failures that the tests inject into the
client are outside the model, so the error a call returns is always nil. -/

/-- Modelled from the spec: a ConfigMap as the API client stores it. -/
structure ConfigMap where
  Name : String
  Namespace : String
  Labels : List (String × String)
  Data : List (String × String)
  deriving DecidableEq, Repr

/-- Modelled from the spec: an event given to the event sink (section 6):
`emit(type, reason, message)`; the fields are those of `MockEvent` in the
tests. -/
structure Event where
  EventType : String
  Reason : String
  Msg : String
  deriving DecidableEq, Repr

/-- Modelled from the spec: an operand CR as the API client stores it (section
3, "Operand CR"): kind and name, the managed fields derived from HC, the
fields outside the managed scope, and the status (observed version and
conditions). -/
structure OperandCR where
  Kind : String
  Name : String
  Namespace : String
  Spec : List (String × String)
  Unmanaged : List (String × String)
  ObservedVersion : String
  Conditions : List Condition
  deriving DecidableEq, Repr

/-- Modelled from the spec: what the collaborators hold (section 6): the
objects of the API client, the events given to the event sink, and the two
counters of the metrics collaborator. -/
structure Cluster where
  HyperConvergeds : List HyperConverged
  Operands : List OperandCR
  ConfigMaps : List ConfigMap
  Events : List Event
  OverwrittenModifications : List ((String × String) × Nat)
  UnsafeModifications : List (String × Nat)
  deriving DecidableEq, Repr

/-- Modelled from the spec: the key of a reconcile request (section 4.1). -/
structure Request where
  Name : String
  Namespace : String
  deriving DecidableEq, Repr

/-- Modelled from the spec: the result of a reconcile: the requeue hint. -/
structure Result where
  Requeue : Bool
  deriving DecidableEq, Repr

/-- Modelled from the spec: one operation of a JSON Patch document. -/
structure JsonPatchOperation where
  Op : String
  Path : String
  Value : String
  deriving DecidableEq, Repr

/-- Modelled from the spec: the `migrations` payload of the legacy ConfigMap
as the YAML decoder reads it (section 4.6): the tunables among the five known
keys that are present, and the other keys. -/
structure LegacyMigrations where
  Config : LiveMigrationConfigurations
  UnknownKeys : List (String × String)
  deriving DecidableEq, Repr

/-- Modelled from the spec: an operand handler of the registry (section 4.2):
the kind and name of its CR, the version the process expects of the operand,
the annotation that may carry a JSON patch for it, and `desired(hc)`, the pure
projection of the HC spec onto the managed fields of the CR. -/
structure Handler where
  Kind : String
  Name : String
  TargetVersion : String
  PatchAnnotationName : Option String
  desired : HyperConvergedSpec → List (String × String)

/-- Modelled from the spec: the configuration of the process and its library
collaborators: the environment (section 6), the texts of constants that are
declared outside the source tree, the operand registry in its fixed order, the
JSON Patch decoder and applier, and the YAML decoder of the legacy payload
(`none` for a document that does not parse). -/
structure Env where
  OperatorNamespace : String
  OwnVersionName : String
  OwnVersion : String
  SecondaryCRPlaceholder : Request
  AppLabel : String
  Names : ReasonNames
  InvalidRequestReason : String
  InvalidRequestMessage : String → String → String
  ReconcileInitMessage : String
  TaintedConfigurationReason : String
  TaintedConfigurationMessage : String
  Operands : List Handler
  decodePatch : String → Option (List JsonPatchOperation)
  applyPatch : List JsonPatchOperation → List (String × String) → Option (List (String × String))
  decodeMigrations : String → Option LegacyMigrations

/-- Modelled from the spec: the name of the legacy ConfigMap (section 4.6);
the constant `kvCmName` that the tests use is declared outside the source tree. -/
def kvCmName : String := "kubevirt-config"

/-- Modelled from the spec: the name of the backup of the legacy ConfigMap
(section 4.6); the constant `backupKvCmName` that the tests use is declared
outside the source tree. -/
def backupKvCmName : String := "kubevirt-config-backup"

/-- Modelled from the spec: the key of the live-migration payload in the
legacy ConfigMap (section 4.6); the constant `liveMigrationKey` that the tests
use is declared outside the source tree. -/
def liveMigrationKey : String := "migrations"

/-- The event of the backup creation, as `createBackupEvent` in the tests of
`migrateBeforeUpgrade`. -/
def createBackupEvent : Event :=
  { EventType := "Normal", Reason := "Created", Msg := "Created ConfigMap kubevirt-config-backup" }

/-- The event of the removal of the legacy ConfigMap, as `rmCmEvent` in the
tests of `migrateBeforeUpgrade`. -/
def rmCmEvent : Event :=
  { EventType := "Normal", Reason := "Killing", Msg := "Removed ConfigMap kubevirt-config" }

/-- Modelled from the spec: API client, get a ConfigMap by name and namespace. -/
def Cluster.getConfigMap (cl : Cluster) (name ns : String) : Option ConfigMap :=
  cl.ConfigMaps.find? (fun c => c.Name = name ∧ c.Namespace = ns)

/-- Modelled from the spec: API client, create a ConfigMap. -/
def Cluster.createConfigMap (cl : Cluster) (cm : ConfigMap) : Cluster :=
  { cl with ConfigMaps := cl.ConfigMaps ++ [cm] }

/-- Modelled from the spec: API client, delete the ConfigMap of that name and
namespace. -/
def Cluster.deleteConfigMap (cl : Cluster) (name ns : String) : Cluster :=
  { cl with ConfigMaps := cl.ConfigMaps.filter (fun c => ¬ (c.Name = name ∧ c.Namespace = ns)) }

/-- Modelled from the spec: event sink, `emit(type, reason, message)`. -/
def Cluster.emit (cl : Cluster) (e : Event) : Cluster :=
  { cl with Events := cl.Events ++ [e] }

/-- Modelled from the spec: the value of a key in a map, here a list of pairs;
the maps of annotations, of ConfigMap data and of CR fields are read with it. -/
def lookupKey {β : Type} : List (String × β) → String → Option β
  | [], _ => none
  | (k, v) :: rest, key => if k = key then some v else lookupKey rest key

/-! ## The migration engine (specification §4.6) -/

/-- Modelled from the spec: the adoption of one field (section 4.6): a key
that is missing from the ConfigMap leaves the HC pointer alone; a value equal
to the one of HC changes nothing; otherwise, HC pointer nil or different, HC
takes the value of the ConfigMap. The flag tells whether HC changed. -/
def adoptField {α : Type} [DecidableEq α] (hc cm : Option α) : Option α × Bool :=
  match cm with
  | none => (hc, false)
  | some v => if hc = some v then (hc, false) else (some v, true)

/-- Modelled from the spec: the adoption of the five live-migration fields of
the legacy ConfigMap into the HC spec, field by field (section 4.6). -/
def adoptOldKvConfigs (hc cm : LiveMigrationConfigurations) :
    LiveMigrationConfigurations × Bool :=
  let pc := adoptField hc.ParallelMigrationsPerCluster cm.ParallelMigrationsPerCluster
  let po := adoptField hc.ParallelOutboundMigrationsPerNode cm.ParallelOutboundMigrationsPerNode
  let bw := adoptField hc.BandwidthPerMigration cm.BandwidthPerMigration
  let ct := adoptField hc.CompletionTimeoutPerGiB cm.CompletionTimeoutPerGiB
  let pt := adoptField hc.ProgressTimeout cm.ProgressTimeout
  ({ ParallelMigrationsPerCluster := pc.1, ParallelOutboundMigrationsPerNode := po.1,
     BandwidthPerMigration := bw.1, CompletionTimeoutPerGiB := ct.1, ProgressTimeout := pt.1 },
   pc.2 || po.2 || bw.2 || ct.2 || pt.2)

/-- Modelled from the spec: what the legacy ConfigMap makes of the
live-migration tuning of HC: without the `migrations` key, or with a payload
that does not parse, nothing is adopted (section 4.6). -/
def adoptFromConfigMap (env : Env) (hc : LiveMigrationConfigurations) (cm : ConfigMap) :
    LiveMigrationConfigurations × Bool :=
  match lookupKey cm.Data liveMigrationKey with
  | none => (hc, false)
  | some text =>
    match env.decodeMigrations text with
    | none => (hc, false)
    | some payload => adoptOldKvConfigs hc payload.Config

/-- Modelled from the spec: the write of `req.Instance.Spec.LiveMigrationConfig`. -/
def HcoRequest.setLiveMigrationConfig (req : HcoRequest) (c : LiveMigrationConfigurations) :
    HcoRequest :=
  { req with Instance := { req.Instance with Spec := { req.Instance.Spec with LiveMigrationConfig := c } } }

/-- Modelled from the spec: the references to the ConfigMap of that name are
pruned from `req.Instance.Status.RelatedObjects` (section 4.6). -/
def HcoRequest.pruneConfigMapReference (req : HcoRequest) (name : String) : HcoRequest :=
  { req with
    Instance := { req.Instance with
      Status := { req.Instance.Status with
        RelatedObjects := req.Instance.Status.RelatedObjects.filter
          (fun r => ¬ (r.Kind = "ConfigMap" ∧ r.Name = name)) } } }

/-- Modelled from the spec: the backup of the legacy ConfigMap: the same data,
labelled under HC (section 4.6). -/
def backupOf (env : Env) (req : HcoRequest) (cm : ConfigMap) : ConfigMap :=
  { Name := backupKvCmName, Namespace := cm.Namespace,
    Labels := [(env.AppLabel, req.Instance.Name)], Data := cm.Data }

/-- Modelled from the spec: the backup step of the legacy migration (section
4.6): unless the backup exists, it is created and the event "Created ConfigMap
kubevirt-config-backup" is emitted. -/
def afterBackup (env : Env) (req : HcoRequest) (cl : Cluster) (cm : ConfigMap) : Cluster :=
  match cl.getConfigMap backupKvCmName req.Namespace with
  | some _ => cl
  | none => (cl.createConfigMap (backupOf env req cm)).emit createBackupEvent

/-- Modelled from the spec: the migration of the legacy ConfigMap (section
4.6). Without the ConfigMap nothing happens. Otherwise its values are adopted
into the HC spec; the backup is created, with its event, unless it exists; and
the legacy ConfigMap is deleted, with its event, and pruned from the related
objects. In a run that changed the HC spec the legacy ConfigMap is left in
place, and it is the next run that deletes it (scenario 5 of section 8, test
"Should adopt KV configuration from the configMap, if missing in HCO"). The
result is the `modified` flag, the request and the cluster. -/
def migrateKvConfigurations (env : Env) (req : HcoRequest) (cl : Cluster) :
    Bool × HcoRequest × Cluster :=
  match cl.getConfigMap kvCmName req.Namespace with
  | none => (false, req, cl)
  | some cm =>
    let adopted := adoptFromConfigMap env req.Instance.Spec.LiveMigrationConfig cm
    let cl1 := afterBackup env req cl cm
    if adopted.2 then
      (true, req.setLiveMigrationConfig adopted.1, cl1)
    else
      (false, req.pruneConfigMapReference kvCmName,
        (cl1.deleteConfigMap kvCmName req.Namespace).emit rmCmEvent)

/-- Modelled from the spec: the adoption of one CDI value (section 4.6): a
value present in HC is left untouched; a nil pointer takes the value of the
CDI operand, if it has one. -/
def adoptIfMissing {α : Type} (hc cdi : Option α) : Option α × Bool :=
  match hc, cdi with
  | none, some v => (some v, true)
  | _, _ => (hc, false)

/-- Modelled from the spec: API client, get the operand CR of that kind. -/
def Cluster.getOperand (cl : Cluster) (kind : String) : Option OperandCR :=
  cl.Operands.find? (fun o => o.Kind = kind)

/-- Modelled from the spec: the adoption of `scratchSpaceStorageClass` and of
the pod resource requirements of the CDI operand into the HC spec (section
4.6, "CDI adoption"). -/
def migrateCdiConfigurations (req : HcoRequest) (cl : Cluster) : Bool × HcoRequest :=
  match cl.getOperand "CDI" with
  | none => (false, req)
  | some cdi =>
    let sc := adoptIfMissing req.Instance.Spec.ScratchSpaceStorageClass
      (lookupKey cdi.Spec "config.scratchSpaceStorageClass")
    let rr := adoptIfMissing req.Instance.Spec.StorageWorkloads
      (lookupKey cdi.Spec "config.podResourceRequirements")
    (sc.2 || rr.2,
      { req with
        Instance := { req.Instance with
          Spec := { req.Instance.Spec with
            ScratchSpaceStorageClass := sc.1, StorageWorkloads := rr.1 } } })

/-- Modelled from the spec: the outcome of `migrateBeforeUpgrade`: the
`modified` flag and the error, with the request and the cluster after the run. -/
structure MigrationOutcome where
  modified : Bool
  err : Option String
  req : HcoRequest
  cluster : Cluster
  deriving DecidableEq, Repr

/-- Modelled from the spec: `migrateBeforeUpgrade` (section 4.6): the
migration of the legacy ConfigMap, then the CDI adoption; `modified` tells
whether the HC spec was changed. -/
def migrateBeforeUpgrade (env : Env) (req : HcoRequest) (cl : Cluster) : MigrationOutcome :=
  let kv := migrateKvConfigurations env req cl
  let cdi := migrateCdiConfigurations kv.2.1 kv.2.2
  { modified := kv.1 || cdi.1, err := none, req := cdi.2, cluster := kv.2.2 }

/-- Modelled from the spec: the next run of `migrateBeforeUpgrade`, on the
request and the cluster that a first run left. -/
def migrateAgain (env : Env) (req : HcoRequest) (cl : Cluster) : MigrationOutcome :=
  migrateBeforeUpgrade env (migrateBeforeUpgrade env req cl).req
    (migrateBeforeUpgrade env req cl).cluster

/-! ## Operand handlers and the tainted-configuration engine (specification §4.2, §4.5) -/

/-- Modelled from the spec: the source of the trigger of a reconcile (section
9, "Drift counter semantics"): a change of HC, or a change of a secondary CR. -/
inductive TriggerSource where
  | Primary
  | Secondary
  deriving DecidableEq, Repr

/-- Modelled from the spec: the key of the HC singleton (section 3): the name
`kubevirt-hyperconverged` in the operator namespace. -/
def singletonKey (env : Env) : Request :=
  { Name := "kubevirt-hyperconverged", Namespace := env.OperatorNamespace }

/-- Modelled from the spec: the trigger of a request (section 4.2): a request
for the registered secondary placeholder is component-initiated, any other
one is operator-initiated. -/
def triggerOf (env : Env) (r : Request) : TriggerSource :=
  if r = env.SecondaryCRPlaceholder then .Secondary else .Primary

/-- Modelled from the spec: the key a request stands for: the placeholder
stands for the HC singleton. -/
def resolveRequest (env : Env) (r : Request) : Request :=
  if r = env.SecondaryCRPlaceholder then singletonKey env else r

/-- Modelled from the spec: the handlers in their order, one handler for each
operand: of the handlers given for one kind and name, the first is kept. -/
def registryOf : List Handler → List Handler
  | [] => []
  | h :: rest =>
    h :: (registryOf rest).filter (fun g => ¬ (g.Kind = h.Kind ∧ g.Name = h.Name))

/-- Modelled from the spec: the operand registry (section 4.2): the handlers of
the configuration in their fixed order, one for each operand. -/
def Env.registry (env : Env) : List Handler := registryOf env.Operands

/-- Modelled from the spec: the JSON patch of a handler (section 4.5, steps 1
to 3): the desired CR to use in this reconcile and the number of operations
to count. Without an annotation, with one that does not parse, or with a
patch that does not apply, the desired CR is the unpatched one and the count
is 0; otherwise the patched CR is used and the operations are counted. -/
def patchOutcome (env : Env) (h : Handler) (hc : HyperConverged) :
    List (String × String) × Nat :=
  match h.PatchAnnotationName with
  | none => (h.desired hc.Spec, 0)
  | some annotationName =>
    match lookupKey hc.Annotations annotationName with
    | none => (h.desired hc.Spec, 0)
    | some text =>
      match env.decodePatch text with
      | none => (h.desired hc.Spec, 0)
      | some ops =>
        match env.applyPatch ops (h.desired hc.Spec) with
        | none => (h.desired hc.Spec, 0)
        | some patched => (patched, ops.length)

/-- Modelled from the spec: metrics, `getOverwrittenModificationsCount(kind, name)`. -/
def Cluster.getOverwrittenModificationsCount (cl : Cluster) (kind name : String) : Nat :=
  ((cl.OverwrittenModifications.find? (fun e => e.1 = (kind, name))).map (fun e => e.2)).getD 0

/-- Modelled from the spec: metrics, `incOverwrittenModifications(kind, name)`. -/
def Cluster.incOverwrittenModifications (cl : Cluster) (kind name : String) : Cluster :=
  { cl with
    OverwrittenModifications :=
      ((kind, name), cl.getOverwrittenModificationsCount kind name + 1)
        :: cl.OverwrittenModifications.filter (fun e => ¬ (e.1 = (kind, name))) }

/-- Modelled from the spec: metrics, `getUnsafeModificationsCount(annotation)`. -/
def Cluster.getUnsafeModificationsCount (cl : Cluster) (annotationName : String) : Nat :=
  (lookupKey cl.UnsafeModifications annotationName).getD 0

/-- Modelled from the spec: metrics, `setUnsafeModificationCount(annotation, n)`. -/
def Cluster.setUnsafeModificationCount (cl : Cluster) (annotationName : String) (n : Nat) :
    Cluster :=
  { cl with
    UnsafeModifications :=
      (annotationName, n) :: cl.UnsafeModifications.filter (fun e => ¬ (e.1 = annotationName)) }

/-- Modelled from the spec: API client, get the operand CR of a handler. -/
def Cluster.getOperandCR (cl : Cluster) (kind name : String) : Option OperandCR :=
  cl.Operands.find? (fun o => o.Kind = kind ∧ o.Name = name)

/-- Modelled from the spec: API client, update the operand CR of that kind and name. -/
def Cluster.updateOperandCR (cl : Cluster) (cr : OperandCR) : Cluster :=
  { cl with
    Operands := cl.Operands.map (fun o => if o.Kind = cr.Kind ∧ o.Name = cr.Name then cr else o) }

/-- Modelled from the spec: API client, create an operand CR. -/
def Cluster.createOperandCR (cl : Cluster) (cr : OperandCR) : Cluster :=
  { cl with Operands := cl.Operands ++ [cr] }

/-- Modelled from the spec: the reconcile of one operand by its handler
(section 4.2): an absent CR is created from the desired one; an existing CR
whose managed fields differ from the desired ones gets them overwritten, its
status and the fields outside the managed scope being preserved, and the
overwritten-modifications counter of its kind and name is incremented when
the trigger is a secondary one; an existing CR without drift is left alone.
The events of the handlers are outside the model. -/
def reconcileOperand (env : Env) (trigger : TriggerSource) (hc : HyperConverged)
    (cl : Cluster) (h : Handler) : Cluster :=
  let desired := (patchOutcome env h hc).1
  match cl.getOperandCR h.Kind h.Name with
  | none =>
    cl.createOperandCR
      { Kind := h.Kind, Name := h.Name, Namespace := hc.Namespace, Spec := desired,
        Unmanaged := [], ObservedVersion := "", Conditions := [] }
  | some existing =>
    if existing.Spec = desired then cl
    else
      let updated := cl.updateOperandCR { existing with Spec := desired }
      match trigger with
      | .Secondary => updated.incOverwrittenModifications h.Kind h.Name
      | .Primary => updated

/-- Modelled from the spec: the operand reconcile loop, in registry order. -/
def reconcileOperands (env : Env) (trigger : TriggerSource) (hc : HyperConverged)
    (cl : Cluster) : Cluster :=
  env.registry.foldl (reconcileOperand env trigger hc) cl

/-- Modelled from the spec: the count of each JSON patch annotation of the
registry in this reconcile (section 4.5, step 3). -/
def unsafeCounts (env : Env) (hc : HyperConverged) : List (String × Nat) :=
  env.registry.filterMap
    (fun h => h.PatchAnnotationName.map (fun a => (a, (patchOutcome env h hc).2)))

/-- Modelled from the spec: the handler a JSON patch annotation belongs to: the
handler of the registry that carries it (the last one, if several do: its
count is the one the counter of the annotation is left with). -/
def annotationHandler (env : Env) (a : String) : Option Handler :=
  (env.registry.filter (fun h => h.PatchAnnotationName = some a)).getLast?

/-- Modelled from the spec: the counts are given to the metrics collaborator,
keyed by annotation name (section 4.5). -/
def recordUnsafeCounts (cl : Cluster) (counts : List (String × Nat)) : Cluster :=
  counts.foldl (fun c e => c.setUnsafeModificationCount e.1 e.2) cl

/-- Modelled from the spec: the configuration is tainted when an annotation
produced a valid non-empty patch (section 4.5, step 4). -/
def isTainted (counts : List (String × Nat)) : Bool :=
  counts.any (fun e => decide (0 < e.2))

/-- Modelled from the spec: the TaintedConfiguration condition with its fixed
reason and message. -/
def taintedCondition (env : Env) : Condition :=
  { CondType := "TaintedConfiguration", Status := .ConditionTrue,
    Reason := env.TaintedConfigurationReason, Message := env.TaintedConfigurationMessage }

/-- Modelled from the spec: TaintedConfiguration=True is added to the
conditions of HC when the configuration is tainted, and removed otherwise
(section 4.5, step 4). -/
def updateTaintedCondition (env : Env) (tainted : Bool) (conds : List Condition) :
    List Condition :=
  let others := conds.filter (fun c => ¬ (c.CondType = "TaintedConfiguration"))
  if tainted then others ++ [taintedCondition env] else others

/-- Modelled from the spec: the tainted-configuration engine on the conditions
of HC and on the metrics (section 4.5). -/
def detectTaintedConfiguration (env : Env) (hc : HyperConverged) (cl : Cluster)
    (conds : List Condition) : Cluster × List Condition :=
  (recordUnsafeCounts cl (unsafeCounts env hc),
    updateTaintedCondition env (isTainted (unsafeCounts env hc)) conds)

/-! ## The reconciler shell (specification §4.1) -/

/-- Modelled from the spec: API client, get the HyperConverged of that name and
namespace. -/
def Cluster.getHyperConverged (cl : Cluster) (name ns : String) : Option HyperConverged :=
  cl.HyperConvergeds.find? (fun h => h.Name = name ∧ h.Namespace = ns)

/-- Modelled from the spec: API client, update the HyperConverged of that name
and namespace, spec and status. -/
def Cluster.updateHyperConverged (cl : Cluster) (hc : HyperConverged) : Cluster :=
  { cl with
    HyperConvergeds := cl.HyperConvergeds.map
      (fun h => if h.Name = hc.Name ∧ h.Namespace = hc.Namespace then hc else h) }

/-- Modelled from the spec: set a condition in a list of conditions: the
condition of that type is replaced, or the condition is added when there is
none of its type. -/
def setCondition (conds : List Condition) (c : Condition) : List Condition :=
  if conds.any (fun x => x.CondType = c.CondType) then
    conds.map (fun x => if x.CondType = c.CondType then c else x)
  else conds ++ [c]

/-- Modelled from the spec: the condition of an invalid request (section 4.1,
step 1): ReconcileComplete=False with the fixed reason and the message that
names the required singleton name and namespace. -/
def invalidRequestCondition (env : Env) : Condition :=
  { CondType := "ReconcileComplete", Status := .ConditionFalse,
    Reason := env.InvalidRequestReason,
    Message := env.InvalidRequestMessage "kubevirt-hyperconverged" env.OperatorNamespace }

/-- Modelled from the spec: a top-level condition as it is written to the
status of HC. -/
def HcCondition.toCondition (c : HcCondition) (condType : String) : Condition :=
  { CondType := condType, Status := c.Status, Reason := c.Reason, Message := c.Message.getD "" }

/-- Modelled from the spec: the five top-level conditions as they are written
to the status of HC. -/
def HcConditions.toList (c : HcConditions) : List Condition :=
  [ c.ReconcileComplete.toCondition "ReconcileComplete",
    c.Available.toCondition "Available",
    c.Progressing.toCondition "Progressing",
    c.Degraded.toCondition "Degraded",
    c.Upgradeable.toCondition "Upgradeable" ]

/-- Modelled from the spec: what the aggregator and the upgrade controller read
of the CR of a handler (section 4.2, "Operand result"). -/
def operandView (cl : Cluster) (h : Handler) : Option Operand :=
  (cl.getOperandCR h.Kind h.Name).map
    (fun cr => { Name := h.Kind, ObservedVersion := cr.ObservedVersion,
                 TargetVersion := h.TargetVersion, Conditions := cr.Conditions })

/-- Modelled from the spec: the operands of the registry, in its order, as the
aggregator reads them. -/
def operandViews (env : Env) (cl : Cluster) : List Operand :=
  env.registry.filterMap (operandView cl)

/-- Modelled from the spec: the request of one reconcile pass
(`common.NewHcoRequest`, declared outside the source tree). -/
def newHcoRequest (key : Request) (hc : HyperConverged) (upgradeMode hcoTriggered : Bool) :
    HcoRequest :=
  { Name := key.Name, Namespace := key.Namespace, Instance := hc, UpgradeMode := upgradeMode,
    ComponentUpgradeInProgress := upgradeMode, Dirty := false, StatusDirty := false,
    HCOTriggered := hcoTriggered, Upgradeable := true }

/-- Modelled from the spec: what a reconcile returns, the result and the error,
with the cluster it leaves. -/
structure ReconcileOutcome where
  result : Result
  err : Option String
  cluster : Cluster
  deriving DecidableEq, Repr

/-- Modelled from the spec: the conditions when a reconcile returns before the
operands were consulted: the conditions derived from the operands become
Unknown (the test "should adopt KubeVirt configMap into HC CR, drop it and
create backup" finds Available=Unknown there); reason and message, which no
test shows, are left as they were. -/
def unknownConditions (conds : List Condition) : List Condition :=
  conds.map (fun c =>
    if c.CondType = "Available" ∨ c.CondType = "Progressing" ∨ c.CondType = "Degraded"
        ∨ c.CondType = "Upgradeable" then
      { c with Status := .ConditionUnknown }
    else c)

/-- Modelled from the spec: the conditions of the initializing reconcile
(section 8, scenario 1; test "should create all managed resources"):
ReconcileComplete=Unknown, Available=False, Progressing=True, Degraded=False
and Upgradeable=Unknown, all with reason `Init`. -/
def initConditions (env : Env) : List Condition :=
  [ { CondType := "ReconcileComplete", Status := .ConditionUnknown, Reason := "Init",
      Message := env.ReconcileInitMessage },
    { CondType := "Available", Status := .ConditionFalse, Reason := "Init",
      Message := "Initializing HyperConverged cluster" },
    { CondType := "Progressing", Status := .ConditionTrue, Reason := "Init",
      Message := "Initializing HyperConverged cluster" },
    { CondType := "Degraded", Status := .ConditionFalse, Reason := "Init",
      Message := "Initializing HyperConverged cluster" },
    { CondType := "Upgradeable", Status := .ConditionUnknown, Reason := "Init",
      Message := "Initializing HyperConverged cluster" } ]

/-- Modelled from the spec: while the upgrade is not completed, Progressing is
True with reason `HCOUpgrading` (section 4.4, "On bump, Progressing flips to
False"; the texts are those of the test "don't complete upgrade if a component
version is not match to the component's version env ver"). -/
def upgradeProgress (env : Env) (upgrading : Bool) (conds : List Condition) : List Condition :=
  if upgrading then
    setCondition conds
      { CondType := "Progressing", Status := .ConditionTrue, Reason := "HCOUpgrading",
        Message := "HCO is now upgrading to version " ++ env.OwnVersion }
  else conds

/-- Modelled from the spec: the bad-default amendment (section 8, scenario 6):
on upgrade entry `spec.liveMigrationConfig.bandwidthPerMigration = "64Mi"` is
cleared to nil; any other value is preserved. The flag tells whether the HC
spec changed. -/
def amendBadDefaults (req : HcoRequest) : Bool × HcoRequest :=
  if req.Instance.Spec.LiveMigrationConfig.BandwidthPerMigration = some "64Mi" then
    (true, req.setLiveMigrationConfig
      { req.Instance.Spec.LiveMigrationConfig with BandwidthPerMigration := Option.none })
  else (false, req)

/-- Modelled from the spec: the entry of a reconcile of the singleton (sections
4.1 and 4.4). An HC without conditions is initialized, not upgraded. Otherwise,
in upgrade mode, the bad defaults are amended and the migration engine runs.
The result is the flag that tells whether the HC spec was modified, the
request and the cluster. -/
def prepareUpgrade (env : Env) (trigger : TriggerSource) (cl : Cluster)
    (hc : HyperConverged) : Bool × HcoRequest × Cluster :=
  let upgradeMode := decide (hc.Status.Conditions ≠ [])
    && inUpgradeMode hc.Status.Versions env.OwnVersionName env.OwnVersion
  let req := newHcoRequest (singletonKey env) hc upgradeMode (decide (trigger = .Primary))
  if upgradeMode then
    let amended := amendBadDefaults req
    let m := migrateBeforeUpgrade env amended.2 cl
    (amended.1 || m.modified, m.req, m.cluster)
  else (false, req, cl)

/-- Modelled from the spec: the removal of the legacy ConfigMap
`kubevirt-config` in the operand stage of a reconcile, whatever the mode and
without a backup (test "should remove the kubevirt-config CM not in upgrade"):
the ConfigMap is deleted, with the event of the deletion, and pruned from the
related objects (section 4.6, "Delete legacy"). -/
def removeLegacyConfigMap (req : HcoRequest) (cl : Cluster) : HcoRequest × Cluster :=
  match cl.getConfigMap kvCmName req.Namespace with
  | Option.none => (req, cl)
  | some _ =>
    (req.pruneConfigMapReference kvCmName,
      (cl.deleteConfigMap kvCmName req.Namespace).emit rmCmEvent)

/-- Modelled from the spec: the operand stage of a reconcile: the operand
reconcile loop, then the removal of the legacy ConfigMap. -/
def operandStage (env : Env) (trigger : TriggerSource) (req : HcoRequest) (cl : Cluster) :
    HcoRequest × Cluster :=
  removeLegacyConfigMap req (reconcileOperands env trigger req.Instance cl)

/-- Modelled from the spec: the status writeback (section 4.1), the last step
of every reconcile of the singleton: the tainted-configuration engine sets the
counters and the TaintedConfiguration condition (section 8: "for every
reconcile"), and the HC object is stored with its spec, the conditions and the
version map. -/
def writeStatus (env : Env) (inst : HyperConverged) (cl : Cluster) (conds : List Condition)
    (versions : List (String × String)) (requeue : Bool) : ReconcileOutcome :=
  let tainted := detectTaintedConfiguration env inst cl conds
  { result := { Requeue := requeue }, err := Option.none,
    cluster := tainted.1.updateHyperConverged
      { inst with Status := { inst.Status with Conditions := tainted.2, Versions := versions } } }

/-- Modelled from the spec: the reconcile of the HC singleton (section 4.1,
step 5). When the entry modified the HC spec, the spec is persisted and the
reconcile returns at once with requeue=True (the tests of "Drop KubeVirt
configMap", "Old CDI config" and "Amend bad defaults"). Otherwise the operand
stage runs. For an HC without conditions the reconcile then writes the
conditions of the initialization and the own version and returns requeue=True
(tests "should create all managed resources" and "Should update HCO Version Id
in the CR on init"). For any other HC the conditions are aggregated, the
upgrade controller makes its step, and the status is written back. There the
requeue hint is `pendingWrite`: see `upgradeStep`. The finalizer and the
deletion of HC (steps 3 and 4) and the failures of the API client are outside
the model. -/
def reconcileSingleton (env : Env) (trigger : TriggerSource) (pendingWrite : Bool)
    (cl : Cluster) (hc : HyperConverged) : ReconcileOutcome :=
  let p := prepareUpgrade env trigger cl hc
  if p.1 then
    writeStatus env p.2.1.Instance p.2.2 (unknownConditions p.2.1.Instance.Status.Conditions)
      p.2.1.Instance.Status.Versions true
  else
    let st := operandStage env trigger p.2.1 p.2.2
    if hc.Status.Conditions = [] then
      writeStatus env st.1.Instance st.2 (initConditions env)
        (updateVersion st.1.Instance.Status.Versions env.OwnVersionName env.OwnVersion) true
    else
      let ops := operandViews env st.2
      let versions := upgradeStep env.Names env.OwnVersionName env.OwnVersion Option.none ops
        pendingWrite st.1.Instance.Status.Versions
      let upgrading := inUpgradeMode versions env.OwnVersionName env.OwnVersion
      writeStatus env st.1.Instance st.2
        (upgradeProgress env upgrading (aggregate env.Names upgrading Option.none ops).toList)
        versions pendingWrite

/-- Modelled from the spec: `Reconcile` (section 4.1). The secondary-CR
placeholder stands for the HC singleton. A request for another key than the
singleton is invalid: when its object exists, ReconcileComplete=False is set on
it, and the result is empty. Without the singleton the result is empty.
Otherwise the singleton is reconciled. -/
def Reconcile (env : Env) (pendingWrite : Bool) (cl : Cluster) (request : Request) :
    ReconcileOutcome :=
  let resolved := resolveRequest env request
  match cl.getHyperConverged resolved.Name resolved.Namespace with
  | Option.none => { result := { Requeue := false }, err := Option.none, cluster := cl }
  | some hc =>
    if resolved ≠ singletonKey env then
      let hc1 : HyperConverged :=
        { hc with
          Status := { hc.Status with
            Conditions := setCondition hc.Status.Conditions (invalidRequestCondition env) } }
      { result := { Requeue := false }, err := Option.none,
        cluster := cl.updateHyperConverged hc1 }
    else reconcileSingleton env (triggerOf env request) pendingWrite cl hc

/-! ## Sample configuration and objects

The values below are those of the controller tests where the tests show them;
they serve the concrete instances of the theorems. -/

/-- The text of the legacy payload used by the migration tests. -/
def fullPayloadText : String :=
  "parallelMigrationsPerCluster: 5\nparallelOutboundMigrationsPerNode: 2\nbandwidthPerMigration: 128Mi\ncompletionTimeoutPerGiB: 800\nprogressTimeout: 150"

/-- The text of the legacy payload with missing keys used by the migration tests. -/
def partialPayloadText : String :=
  "parallelMigrationsPerCluster: 4\ncompletionTimeoutPerGiB: 400\nprogressTimeout: 300"

/-- A YAML decoder that knows the payloads of the migration tests; every other
text, such as `wrong yaml format`, does not parse. -/
def sampleDecodeMigrations (text : String) : Option LegacyMigrations :=
  if text = fullPayloadText then
    some { Config := { ParallelMigrationsPerCluster := some 5,
                       ParallelOutboundMigrationsPerNode := some 2,
                       BandwidthPerMigration := some "128Mi",
                       CompletionTimeoutPerGiB := some 800, ProgressTimeout := some 150 },
           UnknownKeys := [] }
  else if text = fullPayloadText ++ "\nunknownKey: 42" then
    some { Config := { ParallelMigrationsPerCluster := some 5,
                       ParallelOutboundMigrationsPerNode := some 2,
                       BandwidthPerMigration := some "128Mi",
                       CompletionTimeoutPerGiB := some 800, ProgressTimeout := some 150 },
           UnknownKeys := [("unknownKey", "42")] }
  else if text = partialPayloadText then
    some { Config := { ParallelMigrationsPerCluster := some 4,
                       ParallelOutboundMigrationsPerNode := none,
                       BandwidthPerMigration := none,
                       CompletionTimeoutPerGiB := some 400, ProgressTimeout := some 300 },
           UnknownKeys := [] }
  else none

/-- The text of a JSON Patch with one operation, as in the tainted-configuration tests. -/
def onePatchText : String :=
  "[\x7b\"op\": \"add\", \"path\": \"/spec/configuration/migrations\", \"value\": \x7b\"allowPostCopy\": true\x7d\x7d]"

/-- A JSON Patch decoder that knows `onePatchText` and the empty patch `[]`;
every other text does not parse. -/
def sampleDecodePatch (text : String) : Option (List JsonPatchOperation) :=
  if text = onePatchText then
    some [{ Op := "add", Path := "/spec/configuration/migrations",
            Value := "\x7b\"allowPostCopy\": true\x7d" }]
  else if text = "[]" then some []
  else none

/-- A JSON Patch applier for `add` operations: the path is set to the value;
any other operation fails. -/
def sampleApplyPatch :
    List JsonPatchOperation → List (String × String) → Option (List (String × String))
  | [], spec => some spec
  | o :: rest, spec =>
    if o.Op = "add" then
      sampleApplyPatch rest (spec.filter (fun kv => ¬ (kv.1 = o.Path)) ++ [(o.Path, o.Value)])
    else none

/-- A handler whose desired CR carries the remaining options of the HC spec. -/
def sampleHandler (kind name : String) (annotationName : Option String) : Handler :=
  { Kind := kind, Name := name, TargetVersion := "1.6.3", PatchAnnotationName := annotationName,
    desired := fun spec => spec.Options }

/-- The sample registry: KubeVirt, CDI, NetworkAddonsConfig and SSP, in this
order, with the annotations of section 6. -/
def sampleRegistry : List Handler :=
  [ sampleHandler "KubeVirt" "kubevirt-kubevirt-hyperconverged"
      (some "kubevirt.kubevirt.io/jsonpatch"),
    sampleHandler "CDI" "cdi-kubevirt-hyperconverged" (some "cdi.kubevirt.io/jsonpatch"),
    sampleHandler "NetworkAddonsConfig" "cluster"
      (some "networkaddonsconfig.kubevirt.io/jsonpatch"),
    sampleHandler "SSP" "ssp-kubevirt-hyperconverged" none ]

/-- The sample configuration of the process: operator namespace
`kubevirt-hyperconverged`, target version 1.6.0. -/
def sampleEnv : Env :=
  { OperatorNamespace := "kubevirt-hyperconverged"
    OwnVersionName := "operator"
    OwnVersion := "1.6.0"
    SecondaryCRPlaceholder :=
      { Name := "hco-triggered-by-secondary-cr", Namespace := "kubevirt-hyperconverged" }
    AppLabel := "app"
    Names := sampleNames
    InvalidRequestReason := "InvalidRequest"
    InvalidRequestMessage := fun name ns =>
      "Request does not match expected name (" ++ name ++ ") and namespace (" ++ ns ++ ")"
    ReconcileInitMessage := "Initializing HyperConverged cluster"
    TaintedConfigurationReason := "UnsupportedFeatureAnnotation"
    TaintedConfigurationMessage := "Unsupported feature was activated via an HCO annotation"
    Operands := sampleRegistry
    decodePatch := sampleDecodePatch
    applyPatch := sampleApplyPatch
    decodeMigrations := sampleDecodeMigrations }

/-- The sample HC singleton with the given spec, annotations and own version. -/
def sampleHC (spec : HyperConvergedSpec) (annotations : List (String × String))
    (version : String) : HyperConverged :=
  { Name := "kubevirt-hyperconverged"
    Namespace := "kubevirt-hyperconverged"
    Annotations := annotations
    Labels := []
    Finalizers := []
    Spec := spec
    Status :=
      { Conditions := []
        Versions := [("operator", version)]
        RelatedObjects := []
        ObservedGeneration := 0
        DataImportSchedule := "" } }

/-- The conditions of an HC whose last reconcile found every operand healthy. -/
def okConditions : List Condition :=
  [ { CondType := "ReconcileComplete", Status := .ConditionTrue, Reason := "ReconcileCompleted",
      Message := "" },
    { CondType := "Available", Status := .ConditionTrue, Reason := "ReconcileCompleted",
      Message := "" },
    { CondType := "Progressing", Status := .ConditionFalse, Reason := "ReconcileCompleted",
      Message := "" },
    { CondType := "Degraded", Status := .ConditionFalse, Reason := "ReconcileCompleted",
      Message := "" },
    { CondType := "Upgradeable", Status := .ConditionTrue, Reason := "ReconcileCompleted",
      Message := "" } ]

/-- The sample HC singleton after a first successful reconcile: it carries the
conditions `okConditions`. -/
def readyHC (spec : HyperConvergedSpec) (annotations : List (String × String))
    (version : String) : HyperConverged :=
  { sampleHC spec annotations version with
    Status := { (sampleHC spec annotations version).Status with Conditions := okConditions } }

/-- The request of a reconcile of the sample HC. -/
def sampleRequest (hc : HyperConverged) : HcoRequest :=
  { Name := hc.Name, Namespace := hc.Namespace, Instance := hc, UpgradeMode := false,
    ComponentUpgradeInProgress := false, Dirty := false, StatusDirty := false,
    HCOTriggered := true, Upgradeable := true }

/-- The legacy ConfigMap with the given `migrations` payload. -/
def legacyConfigMap (payload : String) : ConfigMap :=
  { Name := kvCmName, Namespace := "kubevirt-hyperconverged",
    Labels := [("app", "kubevirt-hyperconverged")], Data := [(liveMigrationKey, payload)] }

/-- A healthy operand CR of the sample registry with the given managed fields. -/
def sampleOperandCR (kind name : String) (spec : List (String × String)) : OperandCR :=
  { Kind := kind, Name := name, Namespace := "kubevirt-hyperconverged", Spec := spec,
    Unmanaged := [], ObservedVersion := "1.6.3", Conditions := completedConditions }

/-- A cluster with the given HyperConverged objects, operand CRs and
ConfigMaps, no events and no counters. -/
def sampleCluster (hcs : List HyperConverged) (operands : List OperandCR)
    (cms : List ConfigMap) : Cluster :=
  { HyperConvergeds := hcs, Operands := operands, ConfigMaps := cms, Events := [],
    OverwrittenModifications := [], UnsafeModifications := [] }

/-- The four operand CRs of the sample registry, without drift, CDI carrying
the given conditions and the others healthy. -/
def sampleOperands (cdi : List Condition) : List OperandCR :=
  [ sampleOperandCR "KubeVirt" "kubevirt-kubevirt-hyperconverged" [],
    { sampleOperandCR "CDI" "cdi-kubevirt-hyperconverged" [] with Conditions := cdi },
    sampleOperandCR "NetworkAddonsConfig" "cluster" [],
    sampleOperandCR "SSP" "ssp-kubevirt-hyperconverged" [] ]

/-- The sample operand CRs with a KubeVirt CR whose managed fields were changed. -/
def driftedOperands : List OperandCR :=
  [ sampleOperandCR "KubeVirt" "kubevirt-kubevirt-hyperconverged" [("evictionStrategy", "None")],
    sampleOperandCR "CDI" "cdi-kubevirt-hyperconverged" [],
    sampleOperandCR "NetworkAddonsConfig" "cluster" [],
    sampleOperandCR "SSP" "ssp-kubevirt-hyperconverged" [] ]

/-- A HyperConverged object that carries the name of the secondary-CR placeholder. -/
def placeholderHC : HyperConverged :=
  { sampleHC HyperConvergedSpec.empty [] "1.6.0" with Name := "hco-triggered-by-secondary-cr" }

/-- The ConfigMap `kubevirt-config` of the test "should remove the
kubevirt-config CM not in upgrade". -/
def fakeConfigMap : ConfigMap :=
  { Name := kvCmName, Namespace := "kubevirt-hyperconverged", Labels := [],
    Data := [("fakeKey", "fakeValue")] }

/-- The HC singleton as it is created, without a status (`NewHco` in the
tests): no conditions and no own version. -/
def freshHC : HyperConverged :=
  { sampleHC HyperConvergedSpec.empty [] "" with
    Status := { (sampleHC HyperConvergedSpec.empty [] "").Status with Versions := [] } }

/-- The four operand CRs of the sample registry, all healthy, the KubeVirt CR
still at the version 1.6.2 while its handler expects 1.6.3. -/
def laggingOperands : List OperandCR :=
  [ { sampleOperandCR "KubeVirt" "kubevirt-kubevirt-hyperconverged" [] with
      ObservedVersion := "1.6.2" },
    sampleOperandCR "CDI" "cdi-kubevirt-hyperconverged" [],
    sampleOperandCR "NetworkAddonsConfig" "cluster" [],
    sampleOperandCR "SSP" "ssp-kubevirt-hyperconverged" [] ]

/-- The text produced by `sprintfSchedule` is never empty. -/
theorem sprintfSchedule_ne_empty (m : Nat) : sprintfSchedule m ≠ "" := by
  intro h
  have hd := congrArg String.data h
  simp [sprintfSchedule, String.data_append] at hd

/-- The text produced by `generateSchedule` is never empty. -/
theorem generateSchedule_ne_empty (v : Nat) : generateSchedule v ≠ "" :=
  sprintfSchedule_ne_empty _

/-- The call when both the status schedule and the variable are empty. -/
theorem applyDataImportSchedule_of_both_empty (v : Nat) (p : Process) (req : HcoRequest)
    (hh : req.Instance.Status.DataImportSchedule = "") (hs : p.dataImportSchedule = "") :
    applyDataImportSchedule v p req
      = ({ dataImportSchedule := generateSchedule v, generateCalls := p.generateCalls + 1 },
         { req.setDataImportSchedule (generateSchedule v) with StatusDirty := true }) := by
  unfold applyDataImportSchedule
  rw [if_pos hh, if_pos hs]

/-- The call when the status schedule is empty and the variable is not. -/
theorem applyDataImportSchedule_of_empty_status (v : Nat) (p : Process) (req : HcoRequest)
    (hh : req.Instance.Status.DataImportSchedule = "") (hs : p.dataImportSchedule ≠ "") :
    applyDataImportSchedule v p req
      = (p, { req.setDataImportSchedule p.dataImportSchedule with StatusDirty := true }) := by
  unfold applyDataImportSchedule
  rw [if_pos hh, if_neg hs]

/-- The call when the status schedule is non-empty and differs from the variable. -/
theorem applyDataImportSchedule_of_differ (v : Nat) (p : Process) (req : HcoRequest)
    (hh : req.Instance.Status.DataImportSchedule ≠ "")
    (hne : req.Instance.Status.DataImportSchedule ≠ p.dataImportSchedule) :
    applyDataImportSchedule v p req
      = ({ p with dataImportSchedule := req.Instance.Status.DataImportSchedule }, req) := by
  unfold applyDataImportSchedule
  rw [if_neg hh, if_pos hne]

/-- The call when the status schedule is non-empty and equals the variable. -/
theorem applyDataImportSchedule_of_same (v : Nat) (p : Process) (req : HcoRequest)
    (hh : req.Instance.Status.DataImportSchedule ≠ "")
    (he : req.Instance.Status.DataImportSchedule = p.dataImportSchedule) :
    applyDataImportSchedule v p req = (p, req) := by
  unfold applyDataImportSchedule
  rw [if_neg hh, if_neg (not_not.mpr he)]

/-- After a call the process variable is not empty. -/
theorem applyDataImportSchedule_process_ne_empty (v : Nat) (p : Process) (req : HcoRequest) :
    (applyDataImportSchedule v p req).1.dataImportSchedule ≠ "" := by
  by_cases hh : req.Instance.Status.DataImportSchedule = ""
  · by_cases hs : p.dataImportSchedule = ""
    · rw [applyDataImportSchedule_of_both_empty v p req hh hs]
      exact generateSchedule_ne_empty v
    · rw [applyDataImportSchedule_of_empty_status v p req hh hs]
      exact hs
  · by_cases he : req.Instance.Status.DataImportSchedule = p.dataImportSchedule
    · rw [applyDataImportSchedule_of_same v p req hh he]
      exact he ▸ hh
    · rw [applyDataImportSchedule_of_differ v p req hh he]
      exact hh

/-- A call on a process whose variable is not empty does not generate. -/
theorem applyDataImportSchedule_calls_of_ne_empty (v : Nat) (p : Process) (req : HcoRequest)
    (hs : p.dataImportSchedule ≠ "") :
    (applyDataImportSchedule v p req).1.generateCalls = p.generateCalls := by
  by_cases hh : req.Instance.Status.DataImportSchedule = ""
  · rw [applyDataImportSchedule_of_empty_status v p req hh hs]
  · by_cases he : req.Instance.Status.DataImportSchedule = p.dataImportSchedule
    · rw [applyDataImportSchedule_of_same v p req hh he]
    · rw [applyDataImportSchedule_of_differ v p req hh he]

/-- A run that starts from a non-empty process variable never generates. -/
theorem runCalls_calls_of_ne_empty (calls : List (Nat × HcoRequest)) :
    ∀ p : Process, p.dataImportSchedule ≠ "" →
      (runCalls p calls).1.generateCalls = p.generateCalls := by
  induction calls with
  | nil => intro p _; rfl
  | cons c rest ih =>
    intro p hs
    obtain ⟨v, req⟩ := c
    simp only [runCalls]
    rw [ih _ (applyDataImportSchedule_process_ne_empty v p req)]
    exact applyDataImportSchedule_calls_of_ne_empty v p req hs

/-- C1: after one call of `applyDataImportSchedule`, whatever the process
variable and the HC status schedule held before, the HC status schedule equals
the process variable. -/
theorem applyDataImportSchedule_status_eq_variable (v : Nat) (p : Process) (req : HcoRequest) :
    (applyDataImportSchedule v p req).2.Instance.Status.DataImportSchedule
      = (applyDataImportSchedule v p req).1.dataImportSchedule := by
  by_cases hh : req.Instance.Status.DataImportSchedule = ""
  · by_cases hs : p.dataImportSchedule = ""
    · rw [applyDataImportSchedule_of_both_empty v p req hh hs]
      rfl
    · rw [applyDataImportSchedule_of_empty_status v p req hh hs]
      rfl
  · by_cases he : req.Instance.Status.DataImportSchedule = p.dataImportSchedule
    · rw [applyDataImportSchedule_of_same v p req hh he]
      exact he
    · rw [applyDataImportSchedule_of_differ v p req hh he]

/-- C2: when the HC status schedule is empty, a non-empty process variable is
kept and copied into the status; an empty one becomes the generated schedule,
which is also written to the status; in both cases `StatusDirty` is true
afterwards. -/
theorem applyDataImportSchedule_empty_status (v : Nat) (p : Process) (req : HcoRequest)
    (hh : req.Instance.Status.DataImportSchedule = "") :
    (p.dataImportSchedule ≠ "" →
        (applyDataImportSchedule v p req).1.dataImportSchedule = p.dataImportSchedule ∧
        (applyDataImportSchedule v p req).2.Instance.Status.DataImportSchedule
          = p.dataImportSchedule) ∧
    (p.dataImportSchedule = "" →
        (applyDataImportSchedule v p req).1.dataImportSchedule = generateSchedule v ∧
        (applyDataImportSchedule v p req).2.Instance.Status.DataImportSchedule
          = generateSchedule v) ∧
    (applyDataImportSchedule v p req).2.StatusDirty = true := by
  refine ⟨fun hs => ?_, fun hs => ?_, ?_⟩
  · rw [applyDataImportSchedule_of_empty_status v p req hh hs]
    exact ⟨rfl, rfl⟩
  · rw [applyDataImportSchedule_of_both_empty v p req hh hs]
    exact ⟨rfl, rfl⟩
  · by_cases hs : p.dataImportSchedule = ""
    · rw [applyDataImportSchedule_of_both_empty v p req hh hs]
    · rw [applyDataImportSchedule_of_empty_status v p req hh hs]

/-- Witness for C2: a fresh process meets an HC with an empty status schedule. -/
theorem applyDataImportSchedule_empty_status_witness :
    (Process.fresh.dataImportSchedule ≠ "" →
        (applyDataImportSchedule 7 Process.fresh (requestWith "" false)).1.dataImportSchedule
          = Process.fresh.dataImportSchedule ∧
        (applyDataImportSchedule 7 Process.fresh
            (requestWith "" false)).2.Instance.Status.DataImportSchedule
          = Process.fresh.dataImportSchedule) ∧
    (Process.fresh.dataImportSchedule = "" →
        (applyDataImportSchedule 7 Process.fresh (requestWith "" false)).1.dataImportSchedule
          = generateSchedule 7 ∧
        (applyDataImportSchedule 7 Process.fresh
            (requestWith "" false)).2.Instance.Status.DataImportSchedule
          = generateSchedule 7) ∧
    (applyDataImportSchedule 7 Process.fresh (requestWith "" false)).2.StatusDirty = true :=
  applyDataImportSchedule_empty_status 7 Process.fresh (requestWith "" false) rfl

/-- C3: when the HC status schedule is non-empty and differs from the process
variable (also when the variable is empty, as after a restart), the process
variable afterwards is the HC status schedule. -/
theorem applyDataImportSchedule_adopts_status (v : Nat) (p : Process) (req : HcoRequest)
    (hh : req.Instance.Status.DataImportSchedule ≠ "")
    (hne : req.Instance.Status.DataImportSchedule ≠ p.dataImportSchedule) :
    (applyDataImportSchedule v p req).1.dataImportSchedule
      = req.Instance.Status.DataImportSchedule := by
  rw [applyDataImportSchedule_of_differ v p req hh hne]

/-- Witness for C3: the restart case, an empty variable and a persisted schedule. -/
theorem applyDataImportSchedule_adopts_status_witness :
    (applyDataImportSchedule 7 Process.fresh (requestWith "42 */12 * * *" false)).1.dataImportSchedule
      = (requestWith "42 */12 * * *" false).Instance.Status.DataImportSchedule :=
  applyDataImportSchedule_adopts_status 7 Process.fresh (requestWith "42 */12 * * *" false)
    (by decide) (by decide)

/-- C4: a call invokes `generateSchedule` (once) exactly when both the HC
status schedule and the process variable are empty before the call; in every
other case the number of generations is unchanged. -/
theorem applyDataImportSchedule_generates_iff (v : Nat) (p : Process) (req : HcoRequest) :
    ((applyDataImportSchedule v p req).1.generateCalls = p.generateCalls + 1 ↔
        (req.Instance.Status.DataImportSchedule = "" ∧ p.dataImportSchedule = "")) ∧
    ((applyDataImportSchedule v p req).1.generateCalls = p.generateCalls ↔
        ¬ (req.Instance.Status.DataImportSchedule = "" ∧ p.dataImportSchedule = "")) := by
  by_cases hh : req.Instance.Status.DataImportSchedule = ""
  · by_cases hs : p.dataImportSchedule = ""
    · rw [applyDataImportSchedule_of_both_empty v p req hh hs]
      simp [hh, hs]
    · rw [applyDataImportSchedule_calls_of_ne_empty v p req hs]
      simp [hs]
  · by_cases hs : p.dataImportSchedule = ""
    · have hne : req.Instance.Status.DataImportSchedule ≠ p.dataImportSchedule := hs ▸ hh
      rw [applyDataImportSchedule_of_differ v p req hh hne]
      simp [hh]
    · rw [applyDataImportSchedule_calls_of_ne_empty v p req hs]
      simp [hs]

/-- C5: in every sequence of calls made by one process, started with an empty
variable and meeting arbitrary requests, `generateSchedule` is called at most
once; and after any call, from any state, the rest of the run generates
nothing. -/
theorem runCalls_generates_at_most_once (calls : List (Nat × HcoRequest)) :
    (runCalls Process.fresh calls).1.generateCalls ≤ 1 ∧
    ∀ (v : Nat) (p : Process) (req : HcoRequest),
      (runCalls (applyDataImportSchedule v p req).1 calls).1.generateCalls
        = (applyDataImportSchedule v p req).1.generateCalls := by
  have later : ∀ (v : Nat) (p : Process) (req : HcoRequest) (l : List (Nat × HcoRequest)),
      (runCalls (applyDataImportSchedule v p req).1 l).1.generateCalls
        = (applyDataImportSchedule v p req).1.generateCalls := fun v p req l =>
    runCalls_calls_of_ne_empty l _ (applyDataImportSchedule_process_ne_empty v p req)
  refine ⟨?_, fun v p req => later v p req calls⟩
  cases calls with
  | nil => simp [runCalls, Process.fresh]
  | cons c rest =>
    obtain ⟨v, req⟩ := c
    simp only [runCalls]
    rw [later v Process.fresh req rest]
    by_cases hh : req.Instance.Status.DataImportSchedule = ""
    · rw [applyDataImportSchedule_of_both_empty v Process.fresh req hh rfl]
      simp [Process.fresh]
    · have hne : req.Instance.Status.DataImportSchedule ≠ Process.fresh.dataImportSchedule := hh
      rw [applyDataImportSchedule_of_differ v Process.fresh req hh hne]
      simp [Process.fresh]

/-! ## Theorems: the schedule format -/

/-- The draw of `Intn` is below its bound. -/
theorem Intn_lt (v n : Nat) (hn : 0 < n) : Intn v n < n := Nat.mod_lt v hn

/-- Residuals of a literal pattern: the input without that prefix. -/
theorem mem_residuals_literal (l : List Char) :
    ∀ s t : List Char, t ∈ (Pattern.literal l).residuals s ↔ s = l ++ t := by
  induction l with
  | nil =>
    intro s t
    simp [Pattern.literal, Pattern.residuals, eq_comm]
  | cons c cs ih =>
    intro s t
    cases s with
    | nil => simp [Pattern.literal, Pattern.residuals]
    | cons x xs =>
      by_cases hx : x = c
      · simp [Pattern.literal, Pattern.residuals, hx, ih]
      · simp [Pattern.literal, Pattern.residuals, hx]

/-- Residuals of a character class: the input without a first character of the class. -/
theorem mem_residuals_range (lo hi : Char) (s t : List Char) :
    t ∈ (Pattern.range lo hi).residuals s ↔
      ∃ x, s = x :: t ∧ lo.toNat ≤ x.toNat ∧ x.toNat ≤ hi.toNat := by
  cases s with
  | nil => simp [Pattern.residuals]
  | cons x xs =>
    by_cases hx : lo.toNat ≤ x.toNat ∧ x.toNat ≤ hi.toNat
    · simp only [Pattern.residuals, if_pos hx, List.mem_singleton]
      constructor
      · intro h; exact ⟨x, by rw [h], hx⟩
      · rintro ⟨y, hy, _⟩
        exact (List.cons.inj hy).2.symm
    · simp only [Pattern.residuals, if_neg hx, List.not_mem_nil, false_iff]
      rintro ⟨y, hy, hy2⟩
      exact hx ((List.cons.inj hy).1 ▸ hy2)

/-- Residuals of a sequence: residuals of the second part after the first. -/
theorem mem_residuals_seq (a b : Pattern) (s t : List Char) :
    t ∈ (Pattern.seq a b).residuals s ↔ ∃ u, u ∈ a.residuals s ∧ t ∈ b.residuals u := by
  simp only [Pattern.residuals, List.mem_flatMap]

/-- Residuals of an alternative: residuals of either branch. -/
theorem mem_residuals_alt (a b : Pattern) (s t : List Char) :
    t ∈ (Pattern.alt a b).residuals s ↔ t ∈ a.residuals s ∨ t ∈ b.residuals s := by
  simp only [Pattern.residuals, List.mem_append]

/-- A character is determined by its code. -/
theorem char_eq_ofNat (c : Char) : c = Char.ofNat c.toNat := (Char.ofNat_toNat c).symm

/-- Every minute below 60 is rendered in plain decimal, followed by the four fixed fields. -/
theorem sprintfSchedule_format_lt :
    ∀ m, m < 60 →
      isDecimalOf (Nat.repr m).data m = true ∧
      (sprintfSchedule m).data = (Nat.repr m).data ++ " */12 * * *".data ∧
      fields (sprintfSchedule m).data
        = [(Nat.repr m).data, "*/12".data, "*".data, "*".data, "*".data] := by
  decide

/-- Every minute below 60 gives a text that the schedule pattern matches. -/
theorem sprintfSchedule_matches_lt :
    ∀ m, m < 60 → schedulePattern.fullMatch (sprintfSchedule m) = true := by
  decide

/-- Every generated schedule matches the schedule pattern. -/
theorem generateSchedule_fullMatch (v : Nat) :
    schedulePattern.fullMatch (generateSchedule v) = true :=
  sprintfSchedule_matches_lt (Intn v 60) (Intn_lt v 60 (by decide))

/-- A text matched by the schedule pattern is the schedule of a minute below 60. -/
theorem generated_of_fullMatch (s : String) (h : schedulePattern.fullMatch s = true) :
    ∃ m, m < 60 ∧ generateSchedule m = s := by
  have h1 : [] ∈ schedulePattern.residuals s.data := by
    simpa [Pattern.fullMatch] using h
  obtain ⟨u, hu, hlit⟩ := (mem_residuals_seq _ _ _ _).1 h1
  rw [mem_residuals_alt, mem_residuals_seq] at hu
  have hlit2 : u = " */12 * * *".data := by
    have := (mem_residuals_literal _ u []).1 hlit
    simpa using this
  rcases hu with hd | ⟨w, hw, hd⟩
  · obtain ⟨x, hx, hlo, hhi⟩ := (mem_residuals_range _ _ _ _).1 hd
    obtain ⟨n, h48, h57, rfl⟩ : ∃ n, 48 ≤ n ∧ n ≤ 57 ∧ x = Char.ofNat n :=
      ⟨x.toNat, hlo, hhi, char_eq_ofNat x⟩
    refine ⟨n - 48, by omega, ?_⟩
    apply String.ext
    rw [hx, hlit2]
    interval_cases n <;> decide
  · obtain ⟨x, hx, hlo, hhi⟩ := (mem_residuals_range _ _ _ _).1 hw
    obtain ⟨y, hy, hlo2, hhi2⟩ := (mem_residuals_range _ _ _ _).1 hd
    obtain ⟨a, h49, h53, rfl⟩ : ∃ n, 49 ≤ n ∧ n ≤ 53 ∧ x = Char.ofNat n :=
      ⟨x.toNat, hlo, hhi, char_eq_ofNat x⟩
    obtain ⟨b, h48, h57, rfl⟩ : ∃ n, 48 ≤ n ∧ n ≤ 57 ∧ y = Char.ofNat n :=
      ⟨y.toNat, hlo2, hhi2, char_eq_ofNat y⟩
    refine ⟨(a - 48) * 10 + (b - 48), by omega, ?_⟩
    apply String.ext
    rw [hx, hy, hlit2]
    interval_cases a <;> interval_cases b <;> decide

/-- C6: the minute drawn by `generateSchedule` is below 60, and the returned
text is the plain decimal rendering of that minute (digits only, no leading
zero except for `0` itself) followed by ` */12 * * *`: five fields separated
by single spaces, the last four being `*/12`, `*`, `*`, `*`. -/
theorem generateSchedule_format (v : Nat) :
    Intn v 60 < 60 ∧
    ∃ d : List Char,
      isDecimalOf d (Intn v 60) = true ∧
      (generateSchedule v).data = d ++ " */12 * * *".data ∧
      fields (generateSchedule v).data = [d, "*/12".data, "*".data, "*".data, "*".data] :=
  ⟨Intn_lt v 60 (by decide), (Nat.repr (Intn v 60)).data,
    sprintfSchedule_format_lt (Intn v 60) (Intn_lt v 60 (by decide))⟩

/-- C7: every text `generateSchedule` returns matches
`^(\d|[1-5]\d) \*/12 \* \* \*$`, and every text matching that expression is
returned by `generateSchedule` for a minute in 0..59. -/
theorem generateSchedule_matches_exactly :
    (∀ v : Nat, schedulePattern.fullMatch (generateSchedule v) = true) ∧
    (∀ s : String, schedulePattern.fullMatch s = true →
      ∃ m, m < 60 ∧ Intn m 60 = m ∧ generateSchedule m = s) := by
  refine ⟨generateSchedule_fullMatch, fun s h => ?_⟩
  obtain ⟨m, hm, hs⟩ := generated_of_fullMatch s h
  exact ⟨m, hm, Nat.mod_eq_of_lt hm, hs⟩

/-- Witness for C7: the text for minute 59 matches and is generated. -/
theorem generateSchedule_matches_exactly_witness :
    schedulePattern.fullMatch (generateSchedule 59) = true ∧
    ∃ m, m < 60 ∧ Intn m 60 = m ∧ generateSchedule m = "59 */12 * * *" :=
  ⟨generateSchedule_matches_exactly.1 59,
    generateSchedule_matches_exactly.2 "59 */12 * * *" (by decide)⟩

/-- C8, as stated, fails: a non-empty HC status schedule that is not a
schedule at all is kept as it is by the first call of a fresh process, and a
process variable holding such a text is copied into an empty HC status. -/
theorem applyDataImportSchedule_keeps_malformed :
    schedulePattern.fullMatch
        (applyDataImportSchedule 7 Process.fresh
          (requestWith "every day" false)).2.Instance.Status.DataImportSchedule = false ∧
    schedulePattern.fullMatch
        (applyDataImportSchedule 7 { dataImportSchedule := "every day", generateCalls := 0 }
          (requestWith "" false)).2.Instance.Status.DataImportSchedule = false := by
  decide

/-- C8, amended: if before the call the HC status schedule is empty or matches
`^(\d|[1-5]\d) \*/12 \* \* \*$`, and so does the process variable, then after
the call the HC status schedule matches that expression. -/
theorem applyDataImportSchedule_status_matches (v : Nat) (p : Process) (req : HcoRequest)
    (hh : req.Instance.Status.DataImportSchedule = "" ∨
      schedulePattern.fullMatch req.Instance.Status.DataImportSchedule = true)
    (hs : p.dataImportSchedule = "" ∨ schedulePattern.fullMatch p.dataImportSchedule = true) :
    schedulePattern.fullMatch
      (applyDataImportSchedule v p req).2.Instance.Status.DataImportSchedule = true := by
  by_cases he : req.Instance.Status.DataImportSchedule = ""
  · by_cases hp : p.dataImportSchedule = ""
    · rw [applyDataImportSchedule_of_both_empty v p req he hp]
      exact generateSchedule_fullMatch v
    · rw [applyDataImportSchedule_of_empty_status v p req he hp]
      exact hs.resolve_left hp
  · have hm := hh.resolve_left he
    by_cases hq : req.Instance.Status.DataImportSchedule = p.dataImportSchedule
    · rw [applyDataImportSchedule_of_same v p req he hq]
      exact hm
    · rw [applyDataImportSchedule_of_differ v p req he hq]
      exact hm

/-- Witness for C8: a fresh process meets an HC with an empty status schedule. -/
theorem applyDataImportSchedule_status_matches_witness :
    schedulePattern.fullMatch
      (applyDataImportSchedule 7 Process.fresh
        (requestWith "" false)).2.Instance.Status.DataImportSchedule = true :=
  applyDataImportSchedule_status_matches 7 Process.fresh (requestWith "" false)
    (Or.inl rfl) (Or.inl rfl)

/-! ## Theorems: condition aggregation -/

/-- What one condition does to the `notAvailable` finding. -/
theorem contributeCondition_notAvailable (name : String) (acc : Negatives) (c : Condition) :
    (contributeCondition name acc c).notAvailable
      = if c.CondType = "Available" ∧ c.Status = .ConditionFalse
        then some (name ++ "NotAvailable", none) else acc.notAvailable := by
  unfold contributeCondition
  split_ifs <;> simp_all

/-- What one condition does to the `progressing` finding. -/
theorem contributeCondition_progressing (name : String) (acc : Negatives) (c : Condition) :
    (contributeCondition name acc c).progressing
      = if c.CondType = "Progressing" ∧ c.Status = .ConditionTrue
        then some (name ++ "Progressing", none) else acc.progressing := by
  unfold contributeCondition
  split_ifs <;> simp_all

/-- What one condition does to the `degraded` finding. -/
theorem contributeCondition_degraded (name : String) (acc : Negatives) (c : Condition) :
    (contributeCondition name acc c).degraded
      = if c.CondType = "Degraded" ∧ c.Status = .ConditionTrue
        then some name else acc.degraded := by
  unfold contributeCondition
  split_ifs <;> simp_all

/-- What one condition does to the `notUpgradeable` finding. -/
theorem contributeCondition_notUpgradeable (name : String) (acc : Negatives) (c : Condition) :
    (contributeCondition name acc c).notUpgradeable
      = if c.CondType = "Upgradeable" ∧ c.Status = .ConditionFalse
        then some name else acc.notUpgradeable := by
  unfold contributeCondition
  split_ifs <;> simp_all

/-- Last wins: when each step of a left fold either overwrites a component of
the state with a value of the element or leaves it alone, the component holds
in the end the value of the last overwriting element. -/
theorem foldl_last_wins {α β γ : Type} (f : β → α → β) (proj : β → γ) (p : α → Bool)
    (g : α → γ) (h : ∀ acc a, proj (f acc a) = if p a = true then g a else proj acc) :
    ∀ (l : List α) (acc : β),
      proj (l.foldl f acc) = ((l.filter p).getLast?.map g).getD (proj acc) := by
  intro l
  induction l with
  | nil => intro acc; rfl
  | cons a l ih =>
    intro acc
    rw [List.foldl_cons, ih, h]
    by_cases hp : p a = true
    · rw [if_pos hp, List.filter_cons_of_pos hp, List.getLast?_cons]
      cases (List.filter p l).getLast? <;> rfl
    · rw [if_neg hp, List.filter_cons_of_neg hp]

/-- When each step of a left fold either overwrites a component of the state
with one fixed value or leaves it alone, the component holds that value in the
end exactly when some element overwrote it. -/
theorem foldl_any_wins {α β γ : Type} (f : β → α → β) (proj : β → γ) (p : α → Bool)
    (v : γ) (h : ∀ acc a, proj (f acc a) = if p a = true then v else proj acc) :
    ∀ (l : List α) (acc : β),
      proj (l.foldl f acc) = if l.any p = true then v else proj acc := by
  intro l
  induction l with
  | nil => intro acc; rfl
  | cons a l ih =>
    intro acc
    rw [List.foldl_cons, ih, h, List.any_cons]
    by_cases hp : p a = true <;> by_cases hl : l.any p = true <;> simp [hp, hl]

/-- The `notAvailable` finding after one operand. -/
theorem contributeOperand_notAvailable (acc : Negatives) (o : Operand) :
    (contributeOperand acc o).notAvailable
      = if o.Conditions = [] then
          some (o.Name ++ "Conditions", some (o.Name ++ " resource has no conditions"))
        else if o.reports "Available" .ConditionFalse = true
            ∨ o.hasCondition "Available" = false then
          some (o.Name ++ "NotAvailable", none)
        else acc.notAvailable := by
  unfold contributeOperand
  by_cases he : o.Conditions = []
  · rw [if_pos he, if_pos he]
  · rw [if_neg he, if_neg he]
    have hfold : (o.Conditions.foldl (contributeCondition o.Name) acc).notAvailable
        = if o.reports "Available" .ConditionFalse = true then
            some (o.Name ++ "NotAvailable", none)
          else acc.notAvailable := by
      unfold Operand.reports
      exact foldl_any_wins (contributeCondition o.Name) Negatives.notAvailable _ _
        (fun acc c => by simp [contributeCondition_notAvailable]) _ _
    by_cases ha : o.hasCondition "Available" = true
    · simp only [ha, if_true, hfold, Bool.true_eq_false, or_false]
    · have ha2 : o.hasCondition "Available" = false := by simpa using ha
      simp only [ha2, Bool.false_eq_true, if_false, or_true, if_true]

/-- The `progressing` finding after one operand. -/
theorem contributeOperand_progressing (acc : Negatives) (o : Operand) :
    (contributeOperand acc o).progressing
      = if o.Conditions = [] then
          some (o.Name ++ "Conditions", some (o.Name ++ " resource has no conditions"))
        else if o.reports "Progressing" .ConditionTrue = true then
          some (o.Name ++ "Progressing", none)
        else acc.progressing := by
  unfold contributeOperand
  by_cases he : o.Conditions = []
  · rw [if_pos he, if_pos he]
  · rw [if_neg he, if_neg he]
    have hfold : (o.Conditions.foldl (contributeCondition o.Name) acc).progressing
        = if o.reports "Progressing" .ConditionTrue = true then
            some (o.Name ++ "Progressing", none)
          else acc.progressing := by
      unfold Operand.reports
      exact foldl_any_wins (contributeCondition o.Name) Negatives.progressing _ _
        (fun acc c => by simp [contributeCondition_progressing]) _ _
    by_cases ha : o.hasCondition "Available" = true
    · simp only [ha, if_true, hfold]
    · have ha2 : o.hasCondition "Available" = false := by simpa using ha
      rw [ha2]
      simp only [Bool.false_eq_true, if_false]
      exact hfold

/-- The `degraded` finding after one operand. -/
theorem contributeOperand_degraded (acc : Negatives) (o : Operand) :
    (contributeOperand acc o).degraded
      = if o.reports "Degraded" .ConditionTrue = true then some o.Name
        else acc.degraded := by
  unfold contributeOperand
  by_cases he : o.Conditions = []
  · simp [he, Operand.reports]
  · rw [if_neg he]
    have hfold : (o.Conditions.foldl (contributeCondition o.Name) acc).degraded
        = if o.reports "Degraded" .ConditionTrue = true then some o.Name
          else acc.degraded := by
      unfold Operand.reports
      exact foldl_any_wins (contributeCondition o.Name) Negatives.degraded _ _
        (fun acc c => by simp [contributeCondition_degraded]) _ _
    by_cases ha : o.hasCondition "Available" = true
    · simp only [ha, if_true, hfold]
    · have ha2 : o.hasCondition "Available" = false := by simpa using ha
      rw [ha2]
      simp only [Bool.false_eq_true, if_false]
      exact hfold

/-- The `notUpgradeable` finding after one operand. -/
theorem contributeOperand_notUpgradeable (acc : Negatives) (o : Operand) :
    (contributeOperand acc o).notUpgradeable
      = if o.reports "Upgradeable" .ConditionFalse = true then some o.Name
        else acc.notUpgradeable := by
  unfold contributeOperand
  by_cases he : o.Conditions = []
  · simp [he, Operand.reports]
  · rw [if_neg he]
    have hfold : (o.Conditions.foldl (contributeCondition o.Name) acc).notUpgradeable
        = if o.reports "Upgradeable" .ConditionFalse = true then some o.Name
          else acc.notUpgradeable := by
      unfold Operand.reports
      exact foldl_any_wins (contributeCondition o.Name) Negatives.notUpgradeable _ _
        (fun acc c => by simp [contributeCondition_notUpgradeable]) _ _
    by_cases ha : o.hasCondition "Available" = true
    · simp only [ha, if_true, hfold]
    · have ha2 : o.hasCondition "Available" = false := by simpa using ha
      rw [ha2]
      simp only [Bool.false_eq_true, if_false]
      exact hfold

/-- The `progressing` finding of a walk: what the last operand that counts
as progressing leaves. -/
theorem collectNegatives_progressing (ops : List Operand) :
    (collectNegatives ops).progressing
      = ((ops.filter Operand.countsAsProgressing).getLast?).map
          Operand.progressingFinding := by
  unfold collectNegatives
  rw [foldl_last_wins contributeOperand Negatives.progressing
    Operand.countsAsProgressing (fun o => some o.progressingFinding)]
  · cases (ops.filter Operand.countsAsProgressing).getLast? <;> rfl
  · intro acc o
    rw [contributeOperand_progressing]
    unfold Operand.countsAsProgressing Operand.progressingFinding
    by_cases he : o.Conditions = []
    · simp [he]
    · by_cases hr : o.reports "Progressing" .ConditionTrue = true <;> simp [he, hr]

/-- Among operands that all carry conditions, those that count as progressing
are those that report `Progressing=True`. -/
theorem filter_countsAsProgressing (ops : List Operand) (hc : ∀ o ∈ ops, o.Conditions ≠ []) :
    ops.filter Operand.countsAsProgressing
      = ops.filter (fun o => o.reports "Progressing" .ConditionTrue) := by
  apply List.filter_congr
  intro o ho
  simp [Operand.countsAsProgressing, hc o ho]

/-- The `degraded` finding of a walk: the name of the last operand that
reports `Degraded=True`. -/
theorem collectNegatives_degraded (ops : List Operand) :
    (collectNegatives ops).degraded
      = ((ops.filter (fun o => o.reports "Degraded" .ConditionTrue)).getLast?).map
          Operand.Name := by
  unfold collectNegatives
  rw [foldl_last_wins contributeOperand Negatives.degraded
    (fun o => o.reports "Degraded" .ConditionTrue) (fun o => some o.Name)
    contributeOperand_degraded]
  cases (ops.filter (fun o => o.reports "Degraded" .ConditionTrue)).getLast? <;> rfl

/-- The `notUpgradeable` finding of a walk: the name of the last operand that
reports `Upgradeable=False`. -/
theorem collectNegatives_notUpgradeable (ops : List Operand) :
    (collectNegatives ops).notUpgradeable
      = ((ops.filter (fun o => o.reports "Upgradeable" .ConditionFalse)).getLast?).map
          Operand.Name := by
  unfold collectNegatives
  rw [foldl_last_wins contributeOperand Negatives.notUpgradeable
    (fun o => o.reports "Upgradeable" .ConditionFalse) (fun o => some o.Name)
    contributeOperand_notUpgradeable]
  cases (ops.filter (fun o => o.reports "Upgradeable" .ConditionFalse)).getLast? <;> rfl

/-- The `notAvailable` finding of a walk: what the last operand that counts
as not available leaves. -/
theorem collectNegatives_notAvailable (ops : List Operand) :
    (collectNegatives ops).notAvailable
      = ((ops.filter Operand.lacksAvailability).getLast?).map Operand.notAvailableFinding := by
  unfold collectNegatives
  rw [foldl_last_wins contributeOperand Negatives.notAvailable
    Operand.lacksAvailability (fun o => some o.notAvailableFinding)]
  · cases (ops.filter Operand.lacksAvailability).getLast? <;> rfl
  · intro acc o
    rw [contributeOperand_notAvailable]
    unfold Operand.lacksAvailability Operand.notAvailableFinding
    by_cases he : o.Conditions = []
    · simp [he, Operand.hasCondition]
    · by_cases hr : o.reports "Available" .ConditionFalse = true <;>
        by_cases ha : o.hasCondition "Available" = true <;> simp [he, hr, ha]

/-- When no operand passes the test, nothing is filtered out of the walk. -/
theorem filter_reports_eq_nil (ops : List Operand) (condType : String)
    (status : ConditionStatus) (h : ∀ o ∈ ops, o.reports condType status = false) :
    ops.filter (fun o => o.reports condType status) = [] := by
  rw [List.filter_eq_nil_iff]
  intro o ho
  simp [h o ho]

/-- C9, as stated, fails: with CDI and NetworkAddonsConfig both reporting
`Available=False`, (1) a CDI that is also progressing makes HC Progressing
True and Upgradeable False; (2) a CDI that is also degraded makes HC Degraded
True; (3) a CDI that also reports `Upgradeable=False` makes HC Upgradeable
False; (4) an SSP without conditions, later in the registry, gives the
Available reason `SSPConditions` and makes HC Progressing True; (5) in upgrade
mode Upgradeable is False. -/
theorem aggregate_not_only_last_not_available :
    (2 ≤ (notAvailableOperands (registryWith
        (operandConditions .ConditionFalse .ConditionTrue .ConditionFalse)
        notAvailableConditions completedConditions)).length ∧
      (aggregate sampleNames false none (registryWith
        (operandConditions .ConditionFalse .ConditionTrue .ConditionFalse)
        notAvailableConditions completedConditions)).Progressing.Status = .ConditionTrue ∧
      (aggregate sampleNames false none (registryWith
        (operandConditions .ConditionFalse .ConditionTrue .ConditionFalse)
        notAvailableConditions completedConditions)).Upgradeable.Status = .ConditionFalse) ∧
    (2 ≤ (notAvailableOperands (registryWith
        (operandConditions .ConditionFalse .ConditionFalse .ConditionTrue)
        notAvailableConditions completedConditions)).length ∧
      (aggregate sampleNames false none (registryWith
        (operandConditions .ConditionFalse .ConditionFalse .ConditionTrue)
        notAvailableConditions completedConditions)).Degraded.Status = .ConditionTrue) ∧
    (2 ≤ (notAvailableOperands (registryWith
        (notAvailableConditions ++ [testCondition "Upgradeable" .ConditionFalse])
        notAvailableConditions completedConditions)).length ∧
      (aggregate sampleNames false none (registryWith
        (notAvailableConditions ++ [testCondition "Upgradeable" .ConditionFalse])
        notAvailableConditions completedConditions)).Upgradeable.Status = .ConditionFalse) ∧
    (2 ≤ (notAvailableOperands
        (registryWith notAvailableConditions notAvailableConditions [])).length ∧
      (notAvailableOperands
        (registryWith notAvailableConditions notAvailableConditions [])).getLast?.map Operand.Name
        = some "NetworkAddonsConfig" ∧
      (aggregate sampleNames false none
        (registryWith notAvailableConditions notAvailableConditions [])).Available.Reason
        = "SSPConditions" ∧
      (aggregate sampleNames false none
        (registryWith notAvailableConditions notAvailableConditions [])).Progressing.Status
        = .ConditionTrue) ∧
    (2 ≤ (notAvailableOperands lastFaultyScenario).length ∧
      (aggregate sampleNames true none lastFaultyScenario).Upgradeable.Status
        = .ConditionFalse) := by
  decide

/-- C9, amended: last wins in registry order. When `last` is the last operand
that reports `Available=False` and no operand after it lacks an `Available`
condition (so `last` is also the last operand that counts as not available),
HC Available is False with reason `<last>NotAvailable`, in and outside upgrade
mode, whatever the other conditions of the operands are. When moreover every
operand carries conditions and none reports `Progressing=True`,
`Degraded=True` or `Upgradeable=False`, then outside upgrade mode Progressing
and Degraded are False and Upgradeable is True with reason
`ReconcileCompleted`. -/
theorem aggregate_last_not_available (names : ReasonNames) (upgrading : Bool)
    (err : Option String) (ops : List Operand) (last : Operand)
    (hlast : (notAvailableOperands ops).getLast? = some last)
    (hafter : (ops.filter Operand.lacksAvailability).getLast? = some last) :
    (aggregate names upgrading err ops).Available.Status = .ConditionFalse ∧
    (aggregate names upgrading err ops).Available.Reason = last.Name ++ "NotAvailable" ∧
    ((∀ o ∈ ops, o.Conditions ≠ []) →
      (∀ o ∈ ops, o.reports "Progressing" .ConditionTrue = false) →
      (∀ o ∈ ops, o.reports "Degraded" .ConditionTrue = false) →
      (∀ o ∈ ops, o.reports "Upgradeable" .ConditionFalse = false) →
      (aggregate names false err ops).Progressing.Status = .ConditionFalse ∧
      (aggregate names false err ops).Degraded.Status = .ConditionFalse ∧
      (aggregate names false err ops).Upgradeable.Status = .ConditionTrue ∧
      (aggregate names false err ops).Upgradeable.Reason = "ReconcileCompleted") := by
  have hrep : last.reports "Available" .ConditionFalse = true :=
    (List.mem_filter.1 (show last ∈ ops.filter (fun o => o.reports "Available" .ConditionFalse)
      from List.mem_of_getLast?_eq_some hlast)).2
  have hne : last.Conditions ≠ [] := by
    intro he
    simp [Operand.reports, he] at hrep
  have hav : (collectNegatives ops).notAvailable = some (last.Name ++ "NotAvailable", none) := by
    rw [collectNegatives_notAvailable, hafter]
    simp [Operand.notAvailableFinding, hne]
  refine ⟨by simp [aggregate, hav], by simp [aggregate, hav], fun hc hp hd hu => ?_⟩
  have hprog : (collectNegatives ops).progressing = none := by
    rw [collectNegatives_progressing, filter_countsAsProgressing ops hc,
      filter_reports_eq_nil ops _ _ hp]; rfl
  have hdeg : (collectNegatives ops).degraded = none := by
    rw [collectNegatives_degraded, filter_reports_eq_nil ops _ _ hd]; rfl
  have hupg : (collectNegatives ops).notUpgradeable = none := by
    rw [collectNegatives_notUpgradeable, filter_reports_eq_nil ops _ _ hu]; rfl
  simp [aggregate, hprog, hdeg, hupg, reconcileCompleted]

/-- Witness for C9: CDI and NetworkAddonsConfig are not available; the reason
is `NetworkAddonsConfigNotAvailable`, and the other conditions are positive. -/
theorem aggregate_last_not_available_witness :
    (aggregate sampleNames false none lastFaultyScenario).Available.Status
      = .ConditionFalse ∧
    (aggregate sampleNames false none lastFaultyScenario).Available.Reason
      = "NetworkAddonsConfig" ++ "NotAvailable" ∧
    (aggregate sampleNames false none lastFaultyScenario).Progressing.Status
      = .ConditionFalse ∧
    (aggregate sampleNames false none lastFaultyScenario).Degraded.Status
      = .ConditionFalse ∧
    (aggregate sampleNames false none lastFaultyScenario).Upgradeable.Status
      = .ConditionTrue ∧
    (aggregate sampleNames false none lastFaultyScenario).Upgradeable.Reason
      = "ReconcileCompleted" :=
  have h := aggregate_last_not_available sampleNames false none lastFaultyScenario
    (operandWith "NetworkAddonsConfig" notAvailableConditions) (by decide) (by decide)
  ⟨h.1, h.2.1, h.2.2 (by decide) (by decide) (by decide) (by decide)⟩

/-! ## Theorems: upgrade gating -/

/-- After `updateVersion` the entry of that name holds the new version. -/
theorem getVersion_updateVersion (versions : List (String × String)) (name v : String) :
    getVersion (updateVersion versions name v) name = some v := by
  induction versions with
  | nil => simp [updateVersion, getVersion]
  | cons e rest ih =>
    obtain ⟨k, x⟩ := e
    by_cases hk : k = name
    · simp [updateVersion, getVersion, hk]
    · simp [updateVersion, getVersion, hk, ih]

/-- The gate of the version bump, spelled out. -/
theorem upgradeDone_iff (names : ReasonNames) (err : Option String) (ops : List Operand) :
    upgradeDone names err ops = true ↔
      (∀ o ∈ ops, o.ObservedVersion = o.TargetVersion) ∧
      (aggregate names true err ops).Available.Status = .ConditionTrue ∧
      (aggregate names true err ops).Progressing.Status = .ConditionFalse ∧
      (aggregate names true err ops).Degraded.Status = .ConditionFalse := by
  simp [upgradeDone, Operand.versionReached, and_assoc]

/-! ## Theorems: degraded operands and operands without conditions -/

/-- When some element passes the test, the filtered list has a last element. -/
theorem exists_getLast?_filter {α : Type} (p : α → Bool) (l : List α)
    (h : ∃ a ∈ l, p a = true) : ∃ last, (l.filter p).getLast? = some last := by
  obtain ⟨a, ha, hpa⟩ := h
  cases hl : (l.filter p).getLast? with
  | some o => exact ⟨o, rfl⟩
  | none =>
    have hnil := List.getLast?_eq_none_iff.1 hl
    have : a ∈ l.filter p := List.mem_filter.2 ⟨ha, hpa⟩
    rw [hnil] at this
    exact absurd this (List.not_mem_nil a)

/-- The last element of a filtered list is in the list and passes the test. -/
theorem getLast?_filter_mem {α : Type} (p : α → Bool) (l : List α) (last : α)
    (h : (l.filter p).getLast? = some last) : last ∈ l ∧ p last = true :=
  List.mem_filter.1 (List.mem_of_getLast?_eq_some h)

/-- When no element passes the test, the filtered list is empty. -/
theorem filter_eq_nil_of_forall {α : Type} (p : α → Bool) (l : List α)
    (h : ∀ a ∈ l, p a = false) : l.filter p = [] := by
  rw [List.filter_eq_nil_iff]
  intro a ha
  simp [h a ha]

/-- The walk records a degraded operand exactly when one reports `Degraded=True`. -/
theorem collectNegatives_degraded_isSome (ops : List Operand) :
    (collectNegatives ops).degraded.isSome = true ↔
      ∃ o ∈ ops, o.reports "Degraded" .ConditionTrue = true := by
  rw [collectNegatives_degraded]
  constructor
  · intro h
    cases hl : (ops.filter (fun o => o.reports "Degraded" .ConditionTrue)).getLast? with
    | none => rw [hl] at h; exact absurd h (by decide)
    | some o =>
      obtain ⟨hm, hp⟩ := getLast?_filter_mem _ ops o hl
      exact ⟨o, hm, hp⟩
  · intro h
    obtain ⟨last, hlast⟩ :=
      exists_getLast?_filter (fun o => o.reports "Degraded" .ConditionTrue) ops h
    rw [hlast]
    rfl

/-- C11, as stated, fails: a CDI that is degraded and reports `Available=False`
leaves the reason `CDINotAvailable` on HC Available, and so does a
NetworkAddonsConfig that reports `Available=False` next to a degraded CDI;
the reason is not `commonDegradedReason` and the message is not the one of
degraded components. -/
theorem aggregate_degraded_keeps_not_available :
    ((operandWith "CDI"
        (operandConditions .ConditionFalse .ConditionFalse .ConditionTrue)).reports
        "Degraded" .ConditionTrue = true ∧
      (aggregate sampleNames false none (registryWith
        (operandConditions .ConditionFalse .ConditionFalse .ConditionTrue)
        completedConditions completedConditions)).Available
        = { Status := .ConditionFalse, Reason := "CDINotAvailable", Message := none } ∧
      "CDINotAvailable" ≠ sampleNames.commonDegradedReason) ∧
    ((operandWith "CDI"
        (operandConditions .ConditionTrue .ConditionFalse .ConditionTrue)).reports
        "Degraded" .ConditionTrue = true ∧
      (aggregate sampleNames false none (registryWith
        (operandConditions .ConditionTrue .ConditionFalse .ConditionTrue)
        notAvailableConditions completedConditions)).Available
        = { Status := .ConditionFalse, Reason := "NetworkAddonsConfigNotAvailable",
            Message := none } ∧
      "NetworkAddonsConfigNotAvailable" ≠ sampleNames.commonDegradedReason) := by
  decide

/-- C11, amended: when some operand reports `Degraded=True`, HC Available is
False; its reason is `commonDegradedReason` and its message "HCO is not
available due to degraded components" when every operand carries an
`Available` condition and none reports `Available=False`; when some operand
counts as not available (it reports `Available=False`, carries no conditions,
or carries conditions without `Available`), the reason is the one the last
such operand in registry order leaves (`<Operand>NotAvailable`, or
`<Kind>Conditions` for an operand without conditions), and Degraded does not
override it. -/
theorem aggregate_available_of_degraded (names : ReasonNames) (upgrading : Bool)
    (err : Option String) (ops : List Operand)
    (hd : ∃ o ∈ ops, o.reports "Degraded" .ConditionTrue = true) :
    (aggregate names upgrading err ops).Available.Status = .ConditionFalse ∧
    ((∀ o ∈ ops, o.lacksAvailability = false) →
      (aggregate names upgrading err ops).Available
        = { Status := .ConditionFalse, Reason := names.commonDegradedReason,
            Message := some "HCO is not available due to degraded components" }) ∧
    (∀ last, (ops.filter Operand.lacksAvailability).getLast? = some last →
      (aggregate names upgrading err ops).Available.Reason = last.notAvailableFinding.1) := by
  have hdeg : (collectNegatives ops).degraded.isSome = true :=
    (collectNegatives_degraded_isSome ops).2 hd
  refine ⟨?_, fun hnone => ?_, fun last hlast => ?_⟩
  · cases hna : (collectNegatives ops).notAvailable with
    | none => simp [aggregate, hna, hdeg]
    | some f => simp [aggregate, hna]
  · have hna : (collectNegatives ops).notAvailable = none := by
      rw [collectNegatives_notAvailable, filter_eq_nil_of_forall _ ops hnone]
      rfl
    simp [aggregate, hna, hdeg]
  · have hna : (collectNegatives ops).notAvailable = some last.notAvailableFinding := by
      rw [collectNegatives_notAvailable, hlast]
      rfl
    simp [aggregate, hna]

/-- Witness for C11: only CDI is degraded and every operand is available. -/
theorem aggregate_available_of_degraded_witness :
    (aggregate sampleNames false none (registryWith
        (operandConditions .ConditionTrue .ConditionFalse .ConditionTrue)
        completedConditions completedConditions)).Available
      = { Status := .ConditionFalse, Reason := sampleNames.commonDegradedReason,
          Message := some "HCO is not available due to degraded components" } :=
  (aggregate_available_of_degraded sampleNames false none (registryWith
      (operandConditions .ConditionTrue .ConditionFalse .ConditionTrue)
      completedConditions completedConditions)
    ⟨operandWith "CDI" (operandConditions .ConditionTrue .ConditionFalse .ConditionTrue),
      by decide, by decide⟩).2.1 (by decide)

/-- C12, as stated, fails in its last part: next to a degraded CDI, (1) a
NetworkAddonsConfig that reports `Upgradeable=False` gives the Upgradeable
reason `NetworkAddonsConfigNotUpgradeable`, (2) upgrade mode gives
`UpgradeableUpgrading`, and (3) an SSP without conditions gives
`SSPConditions`; none of them is `commonDegradedReason` or an
`<Operand>Progressing` reason. -/
theorem aggregate_degraded_upgradeable_other_reasons :
    (aggregate sampleNames false none (registryWith
        (operandConditions .ConditionTrue .ConditionFalse .ConditionTrue)
        (completedConditions ++ [testCondition "Upgradeable" .ConditionFalse])
        completedConditions)).Upgradeable.Reason = "NetworkAddonsConfigNotUpgradeable" ∧
    (aggregate sampleNames true none (registryWith
        (operandConditions .ConditionTrue .ConditionFalse .ConditionTrue)
        completedConditions completedConditions)).Upgradeable.Reason
      = "UpgradeableUpgrading" ∧
    (aggregate sampleNames false none (registryWith
        (operandConditions .ConditionTrue .ConditionFalse .ConditionTrue)
        completedConditions [])).Upgradeable.Reason = "SSPConditions" := by
  decide

/-- C12, amended: HC Degraded is True exactly when some operand reports
`Degraded=True`; its reason is then `<Operand>Degraded` for the last degraded
operand in registry order, and without a degraded operand it is False with
reason `ReconcileCompleted`. A degraded operand forces Upgradeable=False;
outside upgrade mode, when every operand carries conditions and none reports
`Upgradeable=False`, the Upgradeable reason is `commonDegradedReason` if no
operand reports `Progressing=True`, and `<Operand>Progressing` for the last
progressing operand otherwise. -/
theorem aggregate_degraded (names : ReasonNames) (upgrading : Bool) (err : Option String)
    (ops : List Operand) :
    ((aggregate names upgrading err ops).Degraded.Status = .ConditionTrue ↔
      ∃ o ∈ ops, o.reports "Degraded" .ConditionTrue = true) ∧
    (∀ last, (ops.filter (fun o => o.reports "Degraded" .ConditionTrue)).getLast? = some last →
      (aggregate names upgrading err ops).Degraded.Reason = last.Name ++ "Degraded") ∧
    ((∀ o ∈ ops, o.reports "Degraded" .ConditionTrue = false) →
      (aggregate names upgrading err ops).Degraded.Status = .ConditionFalse ∧
      (aggregate names upgrading err ops).Degraded.Reason = "ReconcileCompleted") ∧
    ((∃ o ∈ ops, o.reports "Degraded" .ConditionTrue = true) →
      (aggregate names upgrading err ops).Upgradeable.Status = .ConditionFalse) ∧
    ((∃ o ∈ ops, o.reports "Degraded" .ConditionTrue = true) →
      (∀ o ∈ ops, o.Conditions ≠ []) →
      (∀ o ∈ ops, o.reports "Upgradeable" .ConditionFalse = false) →
      ((∀ o ∈ ops, o.reports "Progressing" .ConditionTrue = false) →
        (aggregate names false err ops).Upgradeable.Reason = names.commonDegradedReason) ∧
      (∀ last,
        (ops.filter (fun o => o.reports "Progressing" .ConditionTrue)).getLast? = some last →
        (aggregate names false err ops).Upgradeable.Reason = last.Name ++ "Progressing")) := by
  refine ⟨?_, fun last hlast => ?_, fun hnone => ?_, fun hd => ?_, fun hd hc hu => ?_⟩
  · rw [← collectNegatives_degraded_isSome]
    cases hdeg : (collectNegatives ops).degraded <;> simp [aggregate, hdeg]
  · have hdeg : (collectNegatives ops).degraded = some last.Name := by
      rw [collectNegatives_degraded, hlast]
      rfl
    simp [aggregate, hdeg]
  · have hdeg : (collectNegatives ops).degraded = none := by
      rw [collectNegatives_degraded, filter_reports_eq_nil ops _ _ hnone]
      rfl
    simp [aggregate, hdeg, reconcileCompleted]
  · have hdeg : (collectNegatives ops).degraded.isSome = true :=
      (collectNegatives_degraded_isSome ops).2 hd
    cases upgrading
    · cases hn : (collectNegatives ops).notUpgradeable with
      | some n => simp [aggregate, hn]
      | none =>
        cases hp : (collectNegatives ops).progressing with
        | some f => simp [aggregate, hn, hp]
        | none => simp [aggregate, hn, hp, hdeg]
    · simp [aggregate]
  · have hdeg : (collectNegatives ops).degraded.isSome = true :=
      (collectNegatives_degraded_isSome ops).2 hd
    have hn : (collectNegatives ops).notUpgradeable = none := by
      rw [collectNegatives_notUpgradeable, filter_reports_eq_nil ops _ _ hu]
      rfl
    refine ⟨fun hp => ?_, fun last hlast => ?_⟩
    · have hprog : (collectNegatives ops).progressing = none := by
        rw [collectNegatives_progressing, filter_countsAsProgressing ops hc,
          filter_reports_eq_nil ops _ _ hp]
        rfl
      simp [aggregate, hn, hprog, hdeg]
    · have hmem : last ∈ ops := (getLast?_filter_mem _ ops last hlast).1
      have hprog : (collectNegatives ops).progressing
          = some (last.Name ++ "Progressing", none) := by
        rw [collectNegatives_progressing, filter_countsAsProgressing ops hc, hlast]
        simp [Operand.progressingFinding, hc last hmem]
      simp [aggregate, hn, hprog]

/-- Witness for C12: only CDI is degraded: HC Degraded is True with reason
`CDIDegraded`, and Upgradeable has the reason `commonDegradedReason`. -/
theorem aggregate_degraded_witness :
    (aggregate sampleNames false none (registryWith
        (operandConditions .ConditionTrue .ConditionFalse .ConditionTrue)
        completedConditions completedConditions)).Degraded.Reason = "CDI" ++ "Degraded" ∧
    (aggregate sampleNames false none (registryWith
        (operandConditions .ConditionTrue .ConditionFalse .ConditionTrue)
        completedConditions completedConditions)).Upgradeable.Reason
      = sampleNames.commonDegradedReason :=
  ⟨(aggregate_degraded sampleNames false none (registryWith
      (operandConditions .ConditionTrue .ConditionFalse .ConditionTrue)
      completedConditions completedConditions)).2.1
      (operandWith "CDI" (operandConditions .ConditionTrue .ConditionFalse .ConditionTrue))
      (by decide),
   ((aggregate_degraded sampleNames false none (registryWith
      (operandConditions .ConditionTrue .ConditionFalse .ConditionTrue)
      completedConditions completedConditions)).2.2.2.2
      ⟨operandWith "CDI" (operandConditions .ConditionTrue .ConditionFalse .ConditionTrue),
        by decide, by decide⟩ (by decide) (by decide)).1 (by decide)⟩

/-- C13: an operand whose status carries no conditions leaves the finding
`Available=False` with reason `<Kind>Conditions` and message `<Kind> resource
has no conditions`, and this is the HC Available condition whenever no
operand after it in the registry reports `Available=False` or lacks
conditions; when KubeVirt, CDI, NetworkAddonsConfig and SSP all have no
conditions, HC Available is False with reason `SSPConditions`, and
ReconcileComplete is True when the pass raised no error. -/
theorem aggregate_missing_conditions (names : ReasonNames) (upgrading : Bool) :
    (∀ (acc : Negatives) (o : Operand), o.Conditions = [] →
      (contributeOperand acc o).notAvailable
        = some (o.Name ++ "Conditions", some (o.Name ++ " resource has no conditions"))) ∧
    (∀ (err : Option String) (before after : List Operand) (o : Operand),
      o.Conditions = [] → (∀ x ∈ after, x.lacksAvailability = false) →
      (aggregate names upgrading err (before ++ o :: after)).Available
        = { Status := .ConditionFalse, Reason := o.Name ++ "Conditions",
            Message := some (o.Name ++ " resource has no conditions") }) ∧
    (∀ kv kvT cdi cdiT cna cnaT ssp sspT : String,
      (aggregate names upgrading none
        [ { Name := "KubeVirt", ObservedVersion := kv, TargetVersion := kvT, Conditions := [] },
          { Name := "CDI", ObservedVersion := cdi, TargetVersion := cdiT, Conditions := [] },
          { Name := "NetworkAddonsConfig", ObservedVersion := cna, TargetVersion := cnaT,
            Conditions := [] },
          { Name := "SSP", ObservedVersion := ssp, TargetVersion := sspT,
            Conditions := [] } ]).Available
        = { Status := .ConditionFalse, Reason := "SSPConditions",
            Message := some "SSP resource has no conditions" } ∧
      (aggregate names upgrading none
        [ { Name := "KubeVirt", ObservedVersion := kv, TargetVersion := kvT, Conditions := [] },
          { Name := "CDI", ObservedVersion := cdi, TargetVersion := cdiT, Conditions := [] },
          { Name := "NetworkAddonsConfig", ObservedVersion := cna, TargetVersion := cnaT,
            Conditions := [] },
          { Name := "SSP", ObservedVersion := ssp, TargetVersion := sspT,
            Conditions := [] } ]).ReconcileComplete.Status = .ConditionTrue) := by
  have hone : ∀ (acc : Negatives) (o : Operand), o.Conditions = [] →
      (contributeOperand acc o).notAvailable
        = some (o.Name ++ "Conditions", some (o.Name ++ " resource has no conditions")) := by
    intro acc o ho
    rw [contributeOperand_notAvailable, if_pos ho]
  have hlast : ∀ (err : Option String) (before after : List Operand) (o : Operand),
      o.Conditions = [] → (∀ x ∈ after, x.lacksAvailability = false) →
      (aggregate names upgrading err (before ++ o :: after)).Available
        = { Status := .ConditionFalse, Reason := o.Name ++ "Conditions",
            Message := some (o.Name ++ " resource has no conditions") } := by
    intro err before after o ho hafter
    have hlack : o.lacksAvailability = true := by
      simp [Operand.lacksAvailability, Operand.hasCondition, ho]
    have hna : (collectNegatives (before ++ o :: after)).notAvailable
        = some (o.Name ++ "Conditions", some (o.Name ++ " resource has no conditions")) := by
      rw [collectNegatives_notAvailable, List.filter_append, List.filter_cons_of_pos hlack,
        filter_eq_nil_of_forall _ after hafter, List.getLast?_concat]
      simp [Operand.notAvailableFinding, ho]
    simp [aggregate, hna]
  refine ⟨hone, hlast, fun kv kvT cdi cdiT cna cnaT ssp sspT => ⟨?_, ?_⟩⟩
  · exact hlast none
      [ { Name := "KubeVirt", ObservedVersion := kv, TargetVersion := kvT, Conditions := [] },
        { Name := "CDI", ObservedVersion := cdi, TargetVersion := cdiT, Conditions := [] },
        { Name := "NetworkAddonsConfig", ObservedVersion := cna, TargetVersion := cnaT,
          Conditions := [] } ] []
      { Name := "SSP", ObservedVersion := ssp, TargetVersion := sspT, Conditions := [] }
      rfl (fun x hx => absurd hx (List.not_mem_nil x))
  · simp [aggregate]

/-- Witness for C13: a CDI without conditions between healthy operands. -/
theorem aggregate_missing_conditions_witness :
    (aggregate sampleNames false none
        ([operandWith "KubeVirt" completedConditions]
          ++ operandWith "CDI" []
            :: [operandWith "NetworkAddonsConfig" completedConditions,
                operandWith "SSP" completedConditions])).Available
      = { Status := .ConditionFalse, Reason := "CDI" ++ "Conditions",
          Message := some ("CDI" ++ " resource has no conditions") } :=
  (aggregate_missing_conditions sampleNames false).2.1 none
    [operandWith "KubeVirt" completedConditions]
    [operandWith "NetworkAddonsConfig" completedConditions,
      operandWith "SSP" completedConditions]
    (operandWith "CDI" []) rfl (by decide)

/-! ## Theorems: the migration engine -/

/-- The value after the adoption of one field: the value of the ConfigMap when
the key is present, the one of HC otherwise. -/
theorem adoptField_fst {α : Type} [DecidableEq α] (hc cm : Option α) :
    (adoptField hc cm).1 = match cm with
      | none => hc
      | some v => some v := by
  cases cm with
  | none => rfl
  | some v =>
    by_cases h : hc = some v
    · simp [adoptField, h]
    · simp [adoptField, h]

/-- The flag of the adoption of one field is off exactly when the value of HC
is unchanged. -/
theorem adoptField_snd_eq_false {α : Type} [DecidableEq α] (hc cm : Option α) :
    (adoptField hc cm).2 = false ↔ (adoptField hc cm).1 = hc := by
  cases cm with
  | none => simp [adoptField]
  | some v =>
    by_cases h : hc = some v
    · simp [adoptField, h]
    · simp only [adoptField, if_neg h]
      constructor
      · intro hf; exact absurd hf (by decide)
      · intro he; exact absurd he.symm h

/-- The flag of the adoption of the five fields is off exactly when the
live-migration tuning of HC is unchanged. -/
theorem adoptOldKvConfigs_snd_eq_false (hc cm : LiveMigrationConfigurations) :
    (adoptOldKvConfigs hc cm).2 = false ↔ (adoptOldKvConfigs hc cm).1 = hc := by
  obtain ⟨a, b, c, d, e⟩ := hc
  simp only [adoptOldKvConfigs, Bool.or_eq_false_iff, adoptField_snd_eq_false,
    LiveMigrationConfigurations.mk.injEq, and_assoc]

/-- The flag of the adoption of the five fields is on exactly when the
live-migration tuning of HC changed. -/
theorem adoptOldKvConfigs_snd_eq_true (hc cm : LiveMigrationConfigurations) :
    (adoptOldKvConfigs hc cm).2 = true ↔ (adoptOldKvConfigs hc cm).1 ≠ hc := by
  rw [Ne, ← adoptOldKvConfigs_snd_eq_false]
  cases (adoptOldKvConfigs hc cm).2 <;> simp

/-- The flag of the adoption from a ConfigMap is on exactly when the
live-migration tuning of HC changed. -/
theorem adoptFromConfigMap_snd_eq_true (env : Env) (hc : LiveMigrationConfigurations)
    (cm : ConfigMap) :
    (adoptFromConfigMap env hc cm).2 = true ↔ (adoptFromConfigMap env hc cm).1 ≠ hc := by
  unfold adoptFromConfigMap
  split
  · simp
  · split
    · simp
    · exact adoptOldKvConfigs_snd_eq_true hc _

/-- The flag of the adoption of one CDI value is on exactly when the value of
HC changed. -/
theorem adoptIfMissing_snd_eq_true {α : Type} (hc cdi : Option α) :
    (adoptIfMissing hc cdi).2 = true ↔ (adoptIfMissing hc cdi).1 ≠ hc := by
  cases hc <;> cases cdi <;> simp [adoptIfMissing]

/-- The adoption of one field, as section 4.6 words it. -/
theorem adoptField_cases {α : Type} [DecidableEq α] (hc cm : Option α) :
    (∀ v, cm = some v → hc ≠ some v → (adoptField hc cm).1 = some v) ∧
    ((cm = none ∨ cm = hc) → (adoptField hc cm).1 = hc) := by
  rw [adoptField_fst]
  refine ⟨fun v hv _ => by rw [hv], fun h => ?_⟩
  rcases h with h | h
  · rw [h]
  · rw [h]
    cases hc <;> rfl

/-- The run of the legacy migration without the legacy ConfigMap. -/
theorem migrateKvConfigurations_of_absent (env : Env) (req : HcoRequest) (cl : Cluster)
    (h : cl.getConfigMap kvCmName req.Namespace = none) :
    migrateKvConfigurations env req cl = (false, req, cl) := by
  unfold migrateKvConfigurations
  rw [h]

/-- The run of the legacy migration that changes the HC spec. -/
theorem migrateKvConfigurations_of_modified (env : Env) (req : HcoRequest) (cl : Cluster)
    (cm : ConfigMap) (h : cl.getConfigMap kvCmName req.Namespace = some cm)
    (hm : (adoptFromConfigMap env req.Instance.Spec.LiveMigrationConfig cm).2 = true) :
    migrateKvConfigurations env req cl
      = (true,
         req.setLiveMigrationConfig
           (adoptFromConfigMap env req.Instance.Spec.LiveMigrationConfig cm).1,
         afterBackup env req cl cm) := by
  unfold migrateKvConfigurations
  rw [h]
  simp only [hm, if_true]

/-- The run of the legacy migration that leaves the HC spec as it is. -/
theorem migrateKvConfigurations_of_unmodified (env : Env) (req : HcoRequest) (cl : Cluster)
    (cm : ConfigMap) (h : cl.getConfigMap kvCmName req.Namespace = some cm)
    (hm : (adoptFromConfigMap env req.Instance.Spec.LiveMigrationConfig cm).2 = false) :
    migrateKvConfigurations env req cl
      = (false, req.pruneConfigMapReference kvCmName,
         ((afterBackup env req cl cm).deleteConfigMap kvCmName req.Namespace).emit rmCmEvent) := by
  unfold migrateKvConfigurations
  rw [h]
  simp only [hm, Bool.false_eq_true, if_false]

/-- The HC spec after the legacy migration: only the live-migration tuning can
differ, and the flag tells whether it does. -/
theorem migrateKvConfigurations_spec (env : Env) (req : HcoRequest) (cl : Cluster) :
    ∃ tuning : LiveMigrationConfigurations,
      (migrateKvConfigurations env req cl).2.1.Instance.Spec
        = { req.Instance.Spec with LiveMigrationConfig := tuning } ∧
      ((migrateKvConfigurations env req cl).1 = true ↔
        tuning ≠ req.Instance.Spec.LiveMigrationConfig) ∧
      (migrateKvConfigurations env req cl).2.1.Namespace = req.Namespace := by
  cases h : cl.getConfigMap kvCmName req.Namespace with
  | none =>
    rw [migrateKvConfigurations_of_absent env req cl h]
    exact ⟨req.Instance.Spec.LiveMigrationConfig, rfl, by simp, rfl⟩
  | some cm =>
    cases hm : (adoptFromConfigMap env req.Instance.Spec.LiveMigrationConfig cm).2 with
    | true =>
      rw [migrateKvConfigurations_of_modified env req cl cm h hm]
      exact ⟨(adoptFromConfigMap env req.Instance.Spec.LiveMigrationConfig cm).1, rfl,
        by simpa using (adoptFromConfigMap_snd_eq_true env _ cm).1 hm, rfl⟩
    | false =>
      rw [migrateKvConfigurations_of_unmodified env req cl cm h hm]
      exact ⟨req.Instance.Spec.LiveMigrationConfig, rfl, by simp, rfl⟩

/-- The HC spec after the CDI adoption: only the two adopted values can
differ, and the flag tells whether one does. -/
theorem migrateCdiConfigurations_spec (req : HcoRequest) (cl : Cluster) :
    ∃ (sc rr : Option String),
      (migrateCdiConfigurations req cl).2.Instance.Spec
        = { req.Instance.Spec with ScratchSpaceStorageClass := sc, StorageWorkloads := rr } ∧
      ((migrateCdiConfigurations req cl).1 = true ↔
        (sc ≠ req.Instance.Spec.ScratchSpaceStorageClass ∨
          rr ≠ req.Instance.Spec.StorageWorkloads)) := by
  unfold migrateCdiConfigurations
  cases cl.getOperand "CDI" with
  | none => exact ⟨_, _, rfl, by simp⟩
  | some cdi =>
    refine ⟨_, _, rfl, ?_⟩
    simp only [Bool.or_eq_true, adoptIfMissing_snd_eq_true]

/-- The flag of `migrateBeforeUpgrade` is on exactly when the HC spec changed. -/
theorem migrateBeforeUpgrade_modified_iff (env : Env) (req : HcoRequest) (cl : Cluster) :
    (migrateBeforeUpgrade env req cl).modified = true ↔
      (migrateBeforeUpgrade env req cl).req.Instance.Spec ≠ req.Instance.Spec := by
  obtain ⟨tuning, hkv, hkvflag, _⟩ := migrateKvConfigurations_spec env req cl
  obtain ⟨sc, rr, hcdi, hcdiflag⟩ :=
    migrateCdiConfigurations_spec (migrateKvConfigurations env req cl).2.1
      (migrateKvConfigurations env req cl).2.2
  simp only [migrateBeforeUpgrade, Bool.or_eq_true, hkvflag, hcdiflag, hcdi, hkv]
  obtain ⟨lm, s0, r0, o0⟩ := req.Instance.Spec
  simp only [ne_eq, HyperConvergedSpec.mk.injEq, and_true, not_and_or]

/-- C17: the adoption of the legacy ConfigMap in `migrateBeforeUpgrade` is
decided per field: for each of the five live-migration fields, a key that is
present takes effect when the HC pointer is nil or holds another value, and
the HC field is left as it is when the values are equal or the key is missing;
only the five known keys of the payload are read; and the returned `modified`
flag is true exactly when the HC spec changed. -/
theorem migrateBeforeUpgrade_adopts_per_field (env : Env) (req : HcoRequest) (cl : Cluster)
    (hc cm : LiveMigrationConfigurations) :
    ((∀ v, cm.ParallelMigrationsPerCluster = some v → hc.ParallelMigrationsPerCluster ≠ some v →
        (adoptOldKvConfigs hc cm).1.ParallelMigrationsPerCluster = some v) ∧
      ((cm.ParallelMigrationsPerCluster = none ∨
          cm.ParallelMigrationsPerCluster = hc.ParallelMigrationsPerCluster) →
        (adoptOldKvConfigs hc cm).1.ParallelMigrationsPerCluster
          = hc.ParallelMigrationsPerCluster)) ∧
    ((∀ v, cm.ParallelOutboundMigrationsPerNode = some v →
        hc.ParallelOutboundMigrationsPerNode ≠ some v →
        (adoptOldKvConfigs hc cm).1.ParallelOutboundMigrationsPerNode = some v) ∧
      ((cm.ParallelOutboundMigrationsPerNode = none ∨
          cm.ParallelOutboundMigrationsPerNode = hc.ParallelOutboundMigrationsPerNode) →
        (adoptOldKvConfigs hc cm).1.ParallelOutboundMigrationsPerNode
          = hc.ParallelOutboundMigrationsPerNode)) ∧
    ((∀ v, cm.BandwidthPerMigration = some v → hc.BandwidthPerMigration ≠ some v →
        (adoptOldKvConfigs hc cm).1.BandwidthPerMigration = some v) ∧
      ((cm.BandwidthPerMigration = none ∨
          cm.BandwidthPerMigration = hc.BandwidthPerMigration) →
        (adoptOldKvConfigs hc cm).1.BandwidthPerMigration = hc.BandwidthPerMigration)) ∧
    ((∀ v, cm.CompletionTimeoutPerGiB = some v → hc.CompletionTimeoutPerGiB ≠ some v →
        (adoptOldKvConfigs hc cm).1.CompletionTimeoutPerGiB = some v) ∧
      ((cm.CompletionTimeoutPerGiB = none ∨
          cm.CompletionTimeoutPerGiB = hc.CompletionTimeoutPerGiB) →
        (adoptOldKvConfigs hc cm).1.CompletionTimeoutPerGiB = hc.CompletionTimeoutPerGiB)) ∧
    ((∀ v, cm.ProgressTimeout = some v → hc.ProgressTimeout ≠ some v →
        (adoptOldKvConfigs hc cm).1.ProgressTimeout = some v) ∧
      ((cm.ProgressTimeout = none ∨ cm.ProgressTimeout = hc.ProgressTimeout) →
        (adoptOldKvConfigs hc cm).1.ProgressTimeout = hc.ProgressTimeout)) ∧
    (∀ (legacy : ConfigMap) (text : String) (payload : LegacyMigrations),
      cl.getConfigMap kvCmName req.Namespace = some legacy →
      lookupKey legacy.Data liveMigrationKey = some text →
      env.decodeMigrations text = some payload →
      (migrateBeforeUpgrade env req cl).req.Instance.Spec.LiveMigrationConfig
        = (adoptOldKvConfigs req.Instance.Spec.LiveMigrationConfig payload.Config).1) ∧
    ((migrateBeforeUpgrade env req cl).modified = true ↔
      (migrateBeforeUpgrade env req cl).req.Instance.Spec ≠ req.Instance.Spec) := by
  refine ⟨adoptField_cases _ _, adoptField_cases _ _, adoptField_cases _ _,
    adoptField_cases _ _, adoptField_cases _ _, ?_, migrateBeforeUpgrade_modified_iff env req cl⟩
  intro legacy text payload hget htext hdec
  have hadopt : adoptFromConfigMap env req.Instance.Spec.LiveMigrationConfig legacy
      = adoptOldKvConfigs req.Instance.Spec.LiveMigrationConfig payload.Config := by
    unfold adoptFromConfigMap
    rw [htext]
    simp only [hdec]
  obtain ⟨sc, rr, hcdi, _⟩ :=
    migrateCdiConfigurations_spec (migrateKvConfigurations env req cl).2.1
      (migrateKvConfigurations env req cl).2.2
  have hspec : (migrateBeforeUpgrade env req cl).req.Instance.Spec.LiveMigrationConfig
      = (migrateKvConfigurations env req cl).2.1.Instance.Spec.LiveMigrationConfig := by
    simp only [migrateBeforeUpgrade, hcdi]
  rw [hspec]
  cases hm : (adoptFromConfigMap env req.Instance.Spec.LiveMigrationConfig legacy).2 with
  | true =>
    rw [migrateKvConfigurations_of_modified env req cl legacy hget hm, hadopt]
    rfl
  | false =>
    rw [migrateKvConfigurations_of_unmodified env req cl legacy hget hm]
    have := (adoptOldKvConfigs_snd_eq_false req.Instance.Spec.LiveMigrationConfig
      payload.Config).1 (hadopt ▸ hm)
    rw [this]
    rfl

/-- A ConfigMap found by name and namespace carries them. -/
theorem getConfigMap_some (cl : Cluster) (name ns : String) (cm : ConfigMap)
    (h : cl.getConfigMap name ns = some cm) : cm.Name = name ∧ cm.Namespace = ns := by
  have := List.find?_some h
  simpa using this

/-- After its deletion a ConfigMap is not found. -/
theorem getConfigMap_deleteConfigMap (cl : Cluster) (name ns : String) :
    (cl.deleteConfigMap name ns).getConfigMap name ns = none := by
  simp only [Cluster.getConfigMap, Cluster.deleteConfigMap, List.find?_eq_none,
    List.mem_filter]
  intro x hx
  have h2 : ¬ x.Name = name ∨ ¬ x.Namespace = ns := by simpa using hx.2
  have h3 : ¬ (x.Name = name ∧ x.Namespace = ns) := fun h =>
    h2.elim (fun a => a h.1) (fun b => b h.2)
  simpa using h3

/-- Emitting an event leaves the ConfigMaps as they are. -/
theorem getConfigMap_emit (cl : Cluster) (e : Event) (name ns : String) :
    (cl.emit e).getConfigMap name ns = cl.getConfigMap name ns := rfl

/-- The backup step leaves the legacy ConfigMap where it is. -/
theorem afterBackup_getLegacy (env : Env) (req : HcoRequest) (cl : Cluster) (cm : ConfigMap) :
    (afterBackup env req cl cm).getConfigMap kvCmName req.Namespace
      = cl.getConfigMap kvCmName req.Namespace := by
  unfold afterBackup
  cases cl.getConfigMap backupKvCmName req.Namespace with
  | some _ => rfl
  | none =>
    have hne : ¬ (backupKvCmName = kvCmName) := by decide
    simp [Cluster.getConfigMap, Cluster.createConfigMap, Cluster.emit, backupOf, hne]

/-- After the backup step the backup exists. -/
theorem afterBackup_getBackup (env : Env) (req : HcoRequest) (cl : Cluster) (cm : ConfigMap)
    (hns : cm.Namespace = req.Namespace) :
    ((afterBackup env req cl cm).getConfigMap backupKvCmName req.Namespace).isSome = true := by
  unfold afterBackup
  cases h : cl.getConfigMap backupKvCmName req.Namespace with
  | some b => simp [h]
  | none =>
    have h2 : cl.ConfigMaps.find?
        (fun c => decide (c.Name = backupKvCmName ∧ c.Namespace = req.Namespace)) = none := h
    simp [Cluster.getConfigMap, Cluster.createConfigMap, Cluster.emit, backupOf, hns, h2]

/-- When the backup exists the backup step does nothing. -/
theorem afterBackup_of_exists (env : Env) (req : HcoRequest) (cl : Cluster) (cm : ConfigMap)
    (h : (cl.getConfigMap backupKvCmName req.Namespace).isSome = true) :
    afterBackup env req cl cm = cl := by
  unfold afterBackup
  cases hb : cl.getConfigMap backupKvCmName req.Namespace with
  | some b => rfl
  | none => rw [hb] at h; exact absurd h (by decide)

/-- The legacy migration does not touch the operand CRs. -/
theorem migrateKvConfigurations_operands (env : Env) (req : HcoRequest) (cl : Cluster) :
    (migrateKvConfigurations env req cl).2.2.Operands = cl.Operands := by
  have hb : ∀ cm, (afterBackup env req cl cm).Operands = cl.Operands := by
    intro cm
    unfold afterBackup
    cases cl.getConfigMap backupKvCmName req.Namespace <;> rfl
  cases h : cl.getConfigMap kvCmName req.Namespace with
  | none => rw [migrateKvConfigurations_of_absent env req cl h]
  | some cm =>
    cases hm : (adoptFromConfigMap env req.Instance.Spec.LiveMigrationConfig cm).2 with
    | true =>
      rw [migrateKvConfigurations_of_modified env req cl cm h hm]
      exact hb cm
    | false =>
      rw [migrateKvConfigurations_of_unmodified env req cl cm h hm]
      exact hb cm

/-- Adopting the same ConfigMap a second time changes nothing. -/
theorem adoptField_idempotent {α : Type} [DecidableEq α] (hc cm : Option α) :
    (adoptField (adoptField hc cm).1 cm).2 = false := by
  rw [adoptField_snd_eq_false, adoptField_fst, adoptField_fst]
  cases cm <;> rfl

/-- Adopting the same tuning a second time changes nothing. -/
theorem adoptOldKvConfigs_idempotent (hc cm : LiveMigrationConfigurations) :
    (adoptOldKvConfigs (adoptOldKvConfigs hc cm).1 cm).2 = false := by
  simp only [adoptOldKvConfigs, Bool.or_eq_false_iff, adoptField_idempotent, and_self]

/-- Adopting from the same ConfigMap a second time changes nothing. -/
theorem adoptFromConfigMap_idempotent (env : Env) (hc : LiveMigrationConfigurations)
    (cm : ConfigMap) :
    (adoptFromConfigMap env (adoptFromConfigMap env hc cm).1 cm).2 = false := by
  cases ht : lookupKey cm.Data liveMigrationKey with
  | none => simp only [adoptFromConfigMap, ht]
  | some text =>
    cases hd : env.decodeMigrations text with
    | none => simp only [adoptFromConfigMap, ht, hd]
    | some payload =>
      simp only [adoptFromConfigMap, ht, hd]
      exact adoptOldKvConfigs_idempotent hc payload.Config

/-- The CDI adoption, run again on its own result, changes nothing. -/
theorem migrateCdiConfigurations_idempotent (req : HcoRequest) (cl : Cluster) :
    migrateCdiConfigurations (migrateCdiConfigurations req cl).2 cl
      = (false, (migrateCdiConfigurations req cl).2) := by
  unfold migrateCdiConfigurations
  cases cl.getOperand "CDI" with
  | none => rfl
  | some cdi =>
    simp only
    cases req.Instance.Spec.ScratchSpaceStorageClass <;>
      cases req.Instance.Spec.StorageWorkloads <;>
      cases lookupKey cdi.Spec "config.scratchSpaceStorageClass" <;>
      cases lookupKey cdi.Spec "config.podResourceRequirements" <;>
      rfl

/-- C18, as stated, fails: without the legacy ConfigMap, a run still returns
`modified = true` when the CDI operand carries a scratch-space storage class
that the HC spec lacks. -/
theorem migrateBeforeUpgrade_modified_without_legacy :
    (sampleCluster []
        [sampleOperandCR "CDI" "cdi-kubevirt-hyperconverged"
          [("config.scratchSpaceStorageClass", "ScratchSpaceStorageClassValue")]]
        []).getConfigMap kvCmName "kubevirt-hyperconverged" = none ∧
    (migrateBeforeUpgrade sampleEnv
        (sampleRequest (sampleHC HyperConvergedSpec.empty [] "1.5.0"))
        (sampleCluster []
          [sampleOperandCR "CDI" "cdi-kubevirt-hyperconverged"
            [("config.scratchSpaceStorageClass", "ScratchSpaceStorageClassValue")]]
          [])).modified = true := by
  decide

/-- The CDI adoption keeps the request key and the live-migration tuning. -/
theorem migrateCdiConfigurations_frame (req : HcoRequest) (cl : Cluster) :
    (migrateCdiConfigurations req cl).2.Namespace = req.Namespace ∧
    (migrateCdiConfigurations req cl).2.Instance.Spec.LiveMigrationConfig
      = req.Instance.Spec.LiveMigrationConfig := by
  unfold migrateCdiConfigurations
  cases cl.getOperand "CDI" <;> exact ⟨rfl, rfl⟩

/-- The CDI adoption finds nothing to adopt in a spec that an earlier CDI
adoption, from the same operands, has left. -/
theorem migrateCdiConfigurations_after (req req2 : HcoRequest) (cl cl2 : Cluster)
    (hops : cl2.Operands = cl.Operands)
    (hspec : req2.Instance.Spec = (migrateCdiConfigurations req cl).2.Instance.Spec) :
    (migrateCdiConfigurations req2 cl2).1 = false ∧
    (migrateCdiConfigurations req2 cl2).2.Instance.Spec = req2.Instance.Spec := by
  have hget : cl2.getOperand "CDI" = cl.getOperand "CDI" := by
    unfold Cluster.getOperand
    rw [hops]
  unfold migrateCdiConfigurations at hspec ⊢
  rw [hget]
  cases hc : cl.getOperand "CDI" with
  | none => exact ⟨rfl, rfl⟩
  | some cdi =>
    rw [hc] at hspec
    simp only at hspec ⊢
    rw [hspec]
    cases req.Instance.Spec.ScratchSpaceStorageClass <;>
      cases req.Instance.Spec.StorageWorkloads <;>
      cases lookupKey cdi.Spec "config.scratchSpaceStorageClass" <;>
      cases lookupKey cdi.Spec "config.podResourceRequirements" <;>
      exact ⟨rfl, rfl⟩

/-- One run of `migrateBeforeUpgrade`, spelled out. -/
theorem migrateBeforeUpgrade_eq (env : Env) (req : HcoRequest) (cl : Cluster) :
    migrateBeforeUpgrade env req cl
      = { modified := (migrateKvConfigurations env req cl).1 ||
            (migrateCdiConfigurations (migrateKvConfigurations env req cl).2.1
              (migrateKvConfigurations env req cl).2.2).1,
          err := none,
          req := (migrateCdiConfigurations (migrateKvConfigurations env req cl).2.1
              (migrateKvConfigurations env req cl).2.2).2,
          cluster := (migrateKvConfigurations env req cl).2.2 } := rfl

/-- C18, amended: without the legacy ConfigMap a run of `migrateBeforeUpgrade`
returns no error, leaves the cluster as it is (no backup, no event), and its
`modified` flag is the one of the CDI adoption alone, so it is false when
there is nothing to adopt from CDI. After a run in which the adoption from the
legacy ConfigMap changed the HC spec (it returns `modified = true` and keeps
the ConfigMap), the next run returns `modified = false` and no error, leaves
the HC spec unchanged, deletes the legacy ConfigMap and nothing else, creates
no ConfigMap, and emits the event of the removal only. -/
theorem migrateBeforeUpgrade_rerun (env : Env) (req : HcoRequest) (cl : Cluster) :
    (cl.getConfigMap kvCmName req.Namespace = none →
      (migrateBeforeUpgrade env req cl).err = none ∧
      (migrateBeforeUpgrade env req cl).cluster = cl ∧
      (migrateBeforeUpgrade env req cl).modified = (migrateCdiConfigurations req cl).1) ∧
    (∀ cm, cl.getConfigMap kvCmName req.Namespace = some cm →
      (adoptFromConfigMap env req.Instance.Spec.LiveMigrationConfig cm).2 = true →
      (migrateBeforeUpgrade env req cl).modified = true ∧
      (migrateBeforeUpgrade env req cl).cluster.getConfigMap kvCmName req.Namespace = some cm ∧
      (migrateAgain env req cl).modified = false ∧
      (migrateAgain env req cl).err = none ∧
      (migrateAgain env req cl).req.Instance.Spec
        = (migrateBeforeUpgrade env req cl).req.Instance.Spec ∧
      (migrateAgain env req cl).cluster.getConfigMap kvCmName req.Namespace = none ∧
      (migrateAgain env req cl).cluster.ConfigMaps
        = (migrateBeforeUpgrade env req cl).cluster.ConfigMaps.filter
            (fun c => ¬ (c.Name = kvCmName ∧ c.Namespace = req.Namespace)) ∧
      (migrateAgain env req cl).cluster.Events
        = (migrateBeforeUpgrade env req cl).cluster.Events ++ [rmCmEvent]) := by
  refine ⟨fun h => ?_, fun cm h hm => ?_⟩
  · simp only [migrateBeforeUpgrade, migrateKvConfigurations_of_absent env req cl h,
      Bool.false_or, and_self]
  · have hns : cm.Namespace = req.Namespace := (getConfigMap_some cl _ _ cm h).2
    -- the first run
    have hkv1 := migrateKvConfigurations_of_modified env req cl cm h hm
    have hfirst_cluster : (migrateBeforeUpgrade env req cl).cluster = afterBackup env req cl cm := by
      simp only [migrateBeforeUpgrade, hkv1]
    have hfirst_req : (migrateBeforeUpgrade env req cl).req
        = (migrateCdiConfigurations
            (req.setLiveMigrationConfig
              (adoptFromConfigMap env req.Instance.Spec.LiveMigrationConfig cm).1)
            (afterBackup env req cl cm)).2 := by
      simp only [migrateBeforeUpgrade, hkv1]
    have hfirst_mod : (migrateBeforeUpgrade env req cl).modified = true := by
      simp only [migrateBeforeUpgrade, hkv1, Bool.true_or]
    have hfirst_ns : (migrateBeforeUpgrade env req cl).req.Namespace = req.Namespace := by
      rw [hfirst_req]
      exact (migrateCdiConfigurations_frame _ _).1
    have hfirst_lm : (migrateBeforeUpgrade env req cl).req.Instance.Spec.LiveMigrationConfig
        = (adoptFromConfigMap env req.Instance.Spec.LiveMigrationConfig cm).1 := by
      rw [hfirst_req]
      exact (migrateCdiConfigurations_frame _ _).2
    have hfirst_legacy :
        (migrateBeforeUpgrade env req cl).cluster.getConfigMap kvCmName req.Namespace
          = some cm := by
      rw [hfirst_cluster, afterBackup_getLegacy, h]
    -- the second run: the legacy migration
    have hget2 : (migrateBeforeUpgrade env req cl).cluster.getConfigMap kvCmName
        (migrateBeforeUpgrade env req cl).req.Namespace = some cm := by
      rw [hfirst_ns]
      exact hfirst_legacy
    have hm2 : (adoptFromConfigMap env
        (migrateBeforeUpgrade env req cl).req.Instance.Spec.LiveMigrationConfig cm).2
          = false := by
      rw [hfirst_lm]
      exact adoptFromConfigMap_idempotent env _ cm
    have hbackup2 : afterBackup env (migrateBeforeUpgrade env req cl).req
        (migrateBeforeUpgrade env req cl).cluster cm
          = (migrateBeforeUpgrade env req cl).cluster := by
      apply afterBackup_of_exists
      rw [hfirst_ns, hfirst_cluster]
      exact afterBackup_getBackup env req cl cm hns
    have hkv2 := migrateKvConfigurations_of_unmodified env
      (migrateBeforeUpgrade env req cl).req (migrateBeforeUpgrade env req cl).cluster cm
      hget2 hm2
    rw [hbackup2, hfirst_ns] at hkv2
    -- the second run: the CDI adoption
    have hcdi2 := migrateCdiConfigurations_after
      (req.setLiveMigrationConfig
        (adoptFromConfigMap env req.Instance.Spec.LiveMigrationConfig cm).1)
      ((migrateBeforeUpgrade env req cl).req.pruneConfigMapReference kvCmName)
      (afterBackup env req cl cm)
      ((((migrateBeforeUpgrade env req cl).cluster).deleteConfigMap kvCmName
        req.Namespace).emit rmCmEvent)
      (by rw [hfirst_cluster]; rfl)
      (by rw [hfirst_req]; rfl)
    have hagain : migrateAgain env req cl
        = { modified := false ||
              (migrateCdiConfigurations
                ((migrateBeforeUpgrade env req cl).req.pruneConfigMapReference kvCmName)
                ((((migrateBeforeUpgrade env req cl).cluster).deleteConfigMap kvCmName
                  req.Namespace).emit rmCmEvent)).1,
            err := none,
            req := (migrateCdiConfigurations
                ((migrateBeforeUpgrade env req cl).req.pruneConfigMapReference kvCmName)
                ((((migrateBeforeUpgrade env req cl).cluster).deleteConfigMap kvCmName
                  req.Namespace).emit rmCmEvent)).2,
            cluster := (((migrateBeforeUpgrade env req cl).cluster).deleteConfigMap kvCmName
                  req.Namespace).emit rmCmEvent } := by
      show migrateBeforeUpgrade env (migrateBeforeUpgrade env req cl).req
        (migrateBeforeUpgrade env req cl).cluster = _
      rw [migrateBeforeUpgrade_eq env (migrateBeforeUpgrade env req cl).req
        (migrateBeforeUpgrade env req cl).cluster, hkv2]
    rw [hagain]
    refine ⟨hfirst_mod, hfirst_legacy, ?_, rfl, ?_, ?_, rfl, rfl⟩
    · simp only [hcdi2.1, Bool.or_self]
    · simp only [hcdi2.2]
      rfl
    · simp only [getConfigMap_emit, getConfigMap_deleteConfigMap]

/-! ## Theorems: operand handlers -/

/-- After the update of a CR that exists, the CR found is the updated one. -/
theorem getOperandCR_updateOperandCR (cl : Cluster) (kind name : String)
    (existing cr : OperandCR) (hget : cl.getOperandCR kind name = some existing)
    (hk : cr.Kind = kind) (hn : cr.Name = name) :
    (cl.updateOperandCR cr).getOperandCR kind name = some cr := by
  unfold Cluster.getOperandCR Cluster.updateOperandCR at *
  simp only
  generalize cl.Operands = l at hget
  induction l with
  | nil => simp at hget
  | cons o rest ih =>
    by_cases ho : o.Kind = kind ∧ o.Name = name
    · have hc : o.Kind = cr.Kind ∧ o.Name = cr.Name := by rw [hk, hn]; exact ho
      simp [List.find?_cons, hc, hk, hn]
    · have hc : ¬ (o.Kind = cr.Kind ∧ o.Name = cr.Name) := by rw [hk, hn]; exact ho
      have hrest : List.find? (fun o => decide (o.Kind = kind ∧ o.Name = name)) rest
          = some existing := by
        simpa [List.find?_cons, ho] using hget
      simp only [List.map_cons, if_neg hc, List.find?_cons, ho, decide_False]
      exact ih hrest

/-- A CR found by kind and name carries them. -/
theorem getOperandCR_some (cl : Cluster) (kind name : String) (cr : OperandCR)
    (h : cl.getOperandCR kind name = some cr) : cr.Kind = kind ∧ cr.Name = name := by
  have := List.find?_some h
  simpa using this

/-- The counter right after its increment. -/
theorem getOverwrittenModificationsCount_inc (cl : Cluster) (kind name : String) :
    (cl.incOverwrittenModifications kind name).getOverwrittenModificationsCount kind name
      = cl.getOverwrittenModificationsCount kind name + 1 := by
  simp [Cluster.incOverwrittenModifications, Cluster.getOverwrittenModificationsCount,
    List.find?_cons]

/-- The reconcile of an operand whose CR has drifted, under a secondary trigger. -/
theorem reconcileOperand_of_drift_secondary (env : Env) (hc : HyperConverged) (cl : Cluster)
    (h : Handler) (existing : OperandCR)
    (hget : cl.getOperandCR h.Kind h.Name = some existing)
    (hdrift : existing.Spec ≠ (patchOutcome env h hc).1) :
    reconcileOperand env .Secondary hc cl h
      = (cl.updateOperandCR { existing with Spec := (patchOutcome env h hc).1 }
          ).incOverwrittenModifications h.Kind h.Name := by
  unfold reconcileOperand
  rw [hget]
  simp only [if_neg hdrift]

/-- The reconcile of an operand whose CR has drifted, under a primary trigger. -/
theorem reconcileOperand_of_drift_primary (env : Env) (hc : HyperConverged) (cl : Cluster)
    (h : Handler) (existing : OperandCR)
    (hget : cl.getOperandCR h.Kind h.Name = some existing)
    (hdrift : existing.Spec ≠ (patchOutcome env h hc).1) :
    reconcileOperand env .Primary hc cl h
      = cl.updateOperandCR { existing with Spec := (patchOutcome env h hc).1 } := by
  unfold reconcileOperand
  rw [hget]
  simp only [if_neg hdrift]

/-! ## Theorems: the tainted-configuration engine -/

/-- Dropping the entries of another key does not change what a key finds. -/
theorem lookupKey_filter_ne {β : Type} (l : List (String × β)) (a b : String) (hab : b ≠ a) :
    lookupKey (l.filter (fun e => ¬ (e.1 = b))) a = lookupKey l a := by
  induction l with
  | nil => rfl
  | cons e rest ih =>
    obtain ⟨k, v⟩ := e
    by_cases hk : k = b
    · have hka : ¬ k = a := fun h => hab (hk.symm.trans h)
      simp only [List.filter_cons, hk, not_true_eq_false, decide_False, Bool.false_eq_true,
        if_false, lookupKey]
      rw [ih, if_neg (fun h => hab h)]
    · simp only [List.filter_cons, hk, not_false_eq_true, decide_True, if_true, lookupKey]
      rw [ih]

/-- The counter of an annotation right after it is set. -/
theorem getUnsafeModificationsCount_set (cl : Cluster) (a : String) (n : Nat) :
    (cl.setUnsafeModificationCount a n).getUnsafeModificationsCount a = n := by
  simp [Cluster.setUnsafeModificationCount, Cluster.getUnsafeModificationsCount, lookupKey]

/-- Setting the counter of another annotation leaves the counter of this one. -/
theorem getUnsafeModificationsCount_set_ne (cl : Cluster) (a b : String) (n : Nat)
    (hab : b ≠ a) :
    (cl.setUnsafeModificationCount b n).getUnsafeModificationsCount a
      = cl.getUnsafeModificationsCount a := by
  simp only [Cluster.setUnsafeModificationCount, Cluster.getUnsafeModificationsCount, lookupKey]
  rw [if_neg hab, lookupKey_filter_ne _ a b hab]

/-- The outcome of a patch that parses and applies. -/
theorem patchOutcome_of_valid (env : Env) (h : Handler) (hc : HyperConverged) (a text : String)
    (ops : List JsonPatchOperation) (patched : List (String × String))
    (hann : h.PatchAnnotationName = some a) (htext : lookupKey hc.Annotations a = some text)
    (hdec : env.decodePatch text = some ops)
    (happ : env.applyPatch ops (h.desired hc.Spec) = some patched) :
    patchOutcome env h hc = (patched, ops.length) := by
  simp only [patchOutcome, hann, htext, hdec, happ]

/-- The outcome of an annotation that is absent, does not parse or does not apply. -/
theorem patchOutcome_of_invalid (env : Env) (h : Handler) (hc : HyperConverged) (a : String)
    (hann : h.PatchAnnotationName = some a)
    (hbad : lookupKey hc.Annotations a = none ∨
      ∃ text, lookupKey hc.Annotations a = some text ∧
        (env.decodePatch text = none ∨
          ∃ ops, env.decodePatch text = some ops ∧ env.applyPatch ops (h.desired hc.Spec) = none)) :
    patchOutcome env h hc = (h.desired hc.Spec, 0) := by
  rcases hbad with h0 | ⟨text, htext, h1 | ⟨ops, hdec, happ⟩⟩
  · simp only [patchOutcome, hann, h0]
  · simp only [patchOutcome, hann, htext, h1]
  · simp only [patchOutcome, hann, htext, hdec, happ]

/-- The tainted condition is among the conditions when the configuration is tainted. -/
theorem mem_updateTaintedCondition (env : Env) (conds : List Condition) :
    taintedCondition env ∈ updateTaintedCondition env true conds := by
  simp [updateTaintedCondition]

/-- No TaintedConfiguration condition is left when the configuration is not tainted. -/
theorem updateTaintedCondition_false (env : Env) (conds : List Condition) :
    ∀ c ∈ updateTaintedCondition env false conds, c.CondType ≠ "TaintedConfiguration" := by
  intro c hc
  simp only [updateTaintedCondition, Bool.false_eq_true, if_false, List.mem_filter] at hc
  simpa using hc.2

/-! ## Theorems: the reconciler shell -/

/-- A step that leaves a component of the state alone leaves it alone in a fold. -/
theorem foldl_preserves {α β γ : Type} (f : β → α → β) (g : β → γ)
    (h : ∀ b a, g (f b a) = g b) (l : List α) (b : β) : g (l.foldl f b) = g b := by
  induction l generalizing b with
  | nil => rfl
  | cons a rest ih => rw [List.foldl_cons, ih, h]

/-- The reconcile of an operand touches the operand CRs and the drift counters only. -/
theorem reconcileOperand_frame (env : Env) (trigger : TriggerSource) (hc : HyperConverged)
    (cl : Cluster) (h : Handler) :
    (reconcileOperand env trigger hc cl h).ConfigMaps = cl.ConfigMaps ∧
    (reconcileOperand env trigger hc cl h).HyperConvergeds = cl.HyperConvergeds ∧
    (reconcileOperand env trigger hc cl h).Events = cl.Events := by
  unfold reconcileOperand
  cases cl.getOperandCR h.Kind h.Name with
  | none => exact ⟨rfl, rfl, rfl⟩
  | some existing =>
    by_cases hd : existing.Spec = (patchOutcome env h hc).1
    · simp only [if_pos hd, and_self]
    · cases trigger <;> simp only [if_neg hd] <;> exact ⟨rfl, rfl, rfl⟩

/-- The operand reconcile loop touches the operand CRs and the drift counters only. -/
theorem reconcileOperands_frame (env : Env) (trigger : TriggerSource) (hc : HyperConverged)
    (cl : Cluster) :
    (reconcileOperands env trigger hc cl).ConfigMaps = cl.ConfigMaps ∧
    (reconcileOperands env trigger hc cl).HyperConvergeds = cl.HyperConvergeds ∧
    (reconcileOperands env trigger hc cl).Events = cl.Events := by
  unfold reconcileOperands
  exact ⟨foldl_preserves _ Cluster.ConfigMaps
      (fun b a => (reconcileOperand_frame env trigger hc b a).1) _ _,
    foldl_preserves _ Cluster.HyperConvergeds
      (fun b a => (reconcileOperand_frame env trigger hc b a).2.1) _ _,
    foldl_preserves _ Cluster.Events
      (fun b a => (reconcileOperand_frame env trigger hc b a).2.2) _ _⟩

/-- The recording of the counts touches the unsafe-modification counters only. -/
theorem recordUnsafeCounts_frame (cl : Cluster) (counts : List (String × Nat)) :
    (recordUnsafeCounts cl counts).ConfigMaps = cl.ConfigMaps ∧
    (recordUnsafeCounts cl counts).HyperConvergeds = cl.HyperConvergeds ∧
    (recordUnsafeCounts cl counts).Events = cl.Events ∧
    (recordUnsafeCounts cl counts).Operands = cl.Operands := by
  unfold recordUnsafeCounts
  exact ⟨foldl_preserves (fun c e => c.setUnsafeModificationCount e.1 e.2) Cluster.ConfigMaps
      (fun _ _ => rfl) counts cl,
    foldl_preserves (fun c e => c.setUnsafeModificationCount e.1 e.2) Cluster.HyperConvergeds
      (fun _ _ => rfl) counts cl,
    foldl_preserves (fun c e => c.setUnsafeModificationCount e.1 e.2) Cluster.Events
      (fun _ _ => rfl) counts cl,
    foldl_preserves (fun c e => c.setUnsafeModificationCount e.1 e.2) Cluster.Operands
      (fun _ _ => rfl) counts cl⟩

/-- A HyperConverged found by name and namespace carries them. -/
theorem getHyperConverged_some (cl : Cluster) (name ns : String) (hc : HyperConverged)
    (h : cl.getHyperConverged name ns = some hc) : hc.Name = name ∧ hc.Namespace = ns := by
  have := List.find?_some h
  simpa using this

/-- After the update of a HyperConverged that exists, the object found is the
updated one. -/
theorem getHyperConverged_update (l : List HyperConverged) (name ns : String)
    (existing hc : HyperConverged)
    (hget : l.find? (fun h => decide (h.Name = name ∧ h.Namespace = ns)) = some existing)
    (hn : hc.Name = name) (hs : hc.Namespace = ns) :
    (l.map (fun h => if h.Name = hc.Name ∧ h.Namespace = hc.Namespace then hc else h)).find?
      (fun h => decide (h.Name = name ∧ h.Namespace = ns)) = some hc := by
  induction l with
  | nil => simp at hget
  | cons o rest ih =>
    by_cases ho : o.Name = name ∧ o.Namespace = ns
    · have hc1 : o.Name = hc.Name ∧ o.Namespace = hc.Namespace := by rw [hn, hs]; exact ho
      simp [List.find?_cons, hc1, hn, hs]
    · have hc1 : ¬ (o.Name = hc.Name ∧ o.Namespace = hc.Namespace) := by rw [hn, hs]; exact ho
      have hrest : rest.find? (fun h => decide (h.Name = name ∧ h.Namespace = ns))
          = some existing := by
        simpa [List.find?_cons, ho] using hget
      simp only [List.map_cons, if_neg hc1, List.find?_cons, ho, decide_False]
      exact ih hrest

/-- A condition that was set is among the conditions. -/
theorem mem_setCondition (conds : List Condition) (c : Condition) :
    c ∈ setCondition conds c := by
  unfold setCondition
  split
  · rename_i h
    obtain ⟨x, hx, hxc⟩ := List.any_eq_true.mp h
    have hxc1 : x.CondType = c.CondType := by simpa using hxc
    exact List.mem_map.mpr ⟨x, hx, if_pos hxc1⟩
  · simp

/-- The reconcile of a request for another key than the singleton, whose
object exists. -/
theorem Reconcile_of_invalid (env : Env) (pendingWrite : Bool) (cl : Cluster)
    (request : Request) (hc : HyperConverged)
    (hres : resolveRequest env request = request) (hkey : request ≠ singletonKey env)
    (hget : cl.getHyperConverged request.Name request.Namespace = some hc) :
    Reconcile env pendingWrite cl request
      = { result := { Requeue := false }, err := Option.none,
          cluster := cl.updateHyperConverged
            { hc with
              Status := { hc.Status with
                Conditions := setCondition hc.Status.Conditions (invalidRequestCondition env) } } } := by
  unfold Reconcile
  simp only [hres, hget]
  rw [if_pos hkey]

/-- The reconcile of the singleton, reached through its key or through the
secondary-CR placeholder. -/
theorem Reconcile_of_singleton (env : Env) (pendingWrite : Bool) (cl : Cluster)
    (request : Request) (hc : HyperConverged)
    (hres : resolveRequest env request = singletonKey env)
    (hget : cl.getHyperConverged (singletonKey env).Name (singletonKey env).Namespace = some hc) :
    Reconcile env pendingWrite cl request
      = reconcileSingleton env (triggerOf env request) pendingWrite cl hc := by
  unfold Reconcile
  simp only [hres, hget, ne_eq, not_true_eq_false, if_false]

/-- The legacy migration touches the ConfigMaps and the events only, and of
the request the live-migration tuning and the related objects only. -/
theorem migrateKvConfigurations_frame (env : Env) (req : HcoRequest) (cl : Cluster) :
    ((migrateKvConfigurations env req cl).2.2.Operands = cl.Operands ∧
      (migrateKvConfigurations env req cl).2.2.HyperConvergeds = cl.HyperConvergeds ∧
      (migrateKvConfigurations env req cl).2.2.OverwrittenModifications
        = cl.OverwrittenModifications ∧
      (migrateKvConfigurations env req cl).2.2.UnsafeModifications = cl.UnsafeModifications) ∧
    ((migrateKvConfigurations env req cl).2.1.Instance.Name = req.Instance.Name ∧
      (migrateKvConfigurations env req cl).2.1.Instance.Namespace = req.Instance.Namespace ∧
      (migrateKvConfigurations env req cl).2.1.Instance.Annotations = req.Instance.Annotations ∧
      (migrateKvConfigurations env req cl).2.1.Instance.Status.Versions
        = req.Instance.Status.Versions ∧
      (migrateKvConfigurations env req cl).2.1.Namespace = req.Namespace) := by
  have hb : ∀ cm, (afterBackup env req cl cm).Operands = cl.Operands ∧
      (afterBackup env req cl cm).HyperConvergeds = cl.HyperConvergeds ∧
      (afterBackup env req cl cm).OverwrittenModifications = cl.OverwrittenModifications ∧
      (afterBackup env req cl cm).UnsafeModifications = cl.UnsafeModifications := by
    intro cm
    unfold afterBackup
    cases cl.getConfigMap backupKvCmName req.Namespace <;> exact ⟨rfl, rfl, rfl, rfl⟩
  cases h : cl.getConfigMap kvCmName req.Namespace with
  | none =>
    rw [migrateKvConfigurations_of_absent env req cl h]
    exact ⟨⟨rfl, rfl, rfl, rfl⟩, rfl, rfl, rfl, rfl, rfl⟩
  | some cm =>
    cases hm : (adoptFromConfigMap env req.Instance.Spec.LiveMigrationConfig cm).2 with
    | true =>
      rw [migrateKvConfigurations_of_modified env req cl cm h hm]
      exact ⟨hb cm, rfl, rfl, rfl, rfl, rfl⟩
    | false =>
      rw [migrateKvConfigurations_of_unmodified env req cl cm h hm]
      exact ⟨hb cm, rfl, rfl, rfl, rfl, rfl⟩

/-- The CDI adoption touches, of the request, the scratch-space storage class
and the resource requirements only. -/
theorem migrateCdiConfigurations_instance (req : HcoRequest) (cl : Cluster) :
    (migrateCdiConfigurations req cl).2.Instance.Name = req.Instance.Name ∧
    (migrateCdiConfigurations req cl).2.Instance.Namespace = req.Instance.Namespace ∧
    (migrateCdiConfigurations req cl).2.Instance.Annotations = req.Instance.Annotations ∧
    (migrateCdiConfigurations req cl).2.Instance.Status.Versions
      = req.Instance.Status.Versions ∧
    (migrateCdiConfigurations req cl).2.Namespace = req.Namespace := by
  unfold migrateCdiConfigurations
  cases cl.getOperand "CDI" <;> exact ⟨rfl, rfl, rfl, rfl, rfl⟩

/-- `migrateBeforeUpgrade` touches the ConfigMaps and the events only, and of
the request the spec and the related objects only. -/
theorem migrateBeforeUpgrade_frame (env : Env) (req : HcoRequest) (cl : Cluster) :
    ((migrateBeforeUpgrade env req cl).cluster.Operands = cl.Operands ∧
      (migrateBeforeUpgrade env req cl).cluster.HyperConvergeds = cl.HyperConvergeds ∧
      (migrateBeforeUpgrade env req cl).cluster.OverwrittenModifications
        = cl.OverwrittenModifications ∧
      (migrateBeforeUpgrade env req cl).cluster.UnsafeModifications = cl.UnsafeModifications) ∧
    ((migrateBeforeUpgrade env req cl).req.Instance.Name = req.Instance.Name ∧
      (migrateBeforeUpgrade env req cl).req.Instance.Namespace = req.Instance.Namespace ∧
      (migrateBeforeUpgrade env req cl).req.Instance.Annotations = req.Instance.Annotations ∧
      (migrateBeforeUpgrade env req cl).req.Instance.Status.Versions
        = req.Instance.Status.Versions ∧
      (migrateBeforeUpgrade env req cl).req.Namespace = req.Namespace) := by
  obtain ⟨hcl, h1, h2, h3, h4, h5⟩ := migrateKvConfigurations_frame env req cl
  obtain ⟨g1, g2, g3, g4, g5⟩ :=
    migrateCdiConfigurations_instance (migrateKvConfigurations env req cl).2.1
      (migrateKvConfigurations env req cl).2.2
  rw [migrateBeforeUpgrade_eq]
  exact ⟨hcl, g1.trans h1, g2.trans h2, g3.trans h3, g4.trans h4, g5.trans h5⟩

/-- The bad-default amendment touches the live-migration tuning only, and not
at all when its flag is off. -/
theorem amendBadDefaults_frame (req : HcoRequest) :
    (amendBadDefaults req).2.Instance.Name = req.Instance.Name ∧
    (amendBadDefaults req).2.Instance.Namespace = req.Instance.Namespace ∧
    (amendBadDefaults req).2.Instance.Annotations = req.Instance.Annotations ∧
    (amendBadDefaults req).2.Instance.Status.Versions = req.Instance.Status.Versions ∧
    (amendBadDefaults req).2.Namespace = req.Namespace ∧
    ((amendBadDefaults req).1 = false → (amendBadDefaults req).2 = req) := by
  unfold amendBadDefaults
  split
  · exact ⟨rfl, rfl, rfl, rfl, rfl, fun h => Bool.noConfusion h⟩
  · exact ⟨rfl, rfl, rfl, rfl, rfl, fun _ => rfl⟩

/-- The entry of a reconcile touches the ConfigMaps and the events only, and
of the HC object the spec and the related objects only. -/
theorem prepareUpgrade_frame (env : Env) (trigger : TriggerSource) (cl : Cluster)
    (hc : HyperConverged) :
    ((prepareUpgrade env trigger cl hc).2.2.Operands = cl.Operands ∧
      (prepareUpgrade env trigger cl hc).2.2.HyperConvergeds = cl.HyperConvergeds ∧
      (prepareUpgrade env trigger cl hc).2.2.OverwrittenModifications
        = cl.OverwrittenModifications ∧
      (prepareUpgrade env trigger cl hc).2.2.UnsafeModifications = cl.UnsafeModifications) ∧
    ((prepareUpgrade env trigger cl hc).2.1.Instance.Name = hc.Name ∧
      (prepareUpgrade env trigger cl hc).2.1.Instance.Namespace = hc.Namespace ∧
      (prepareUpgrade env trigger cl hc).2.1.Instance.Annotations = hc.Annotations ∧
      (prepareUpgrade env trigger cl hc).2.1.Instance.Status.Versions = hc.Status.Versions ∧
      (prepareUpgrade env trigger cl hc).2.1.Namespace = env.OperatorNamespace) := by
  unfold prepareUpgrade
  cases (decide (hc.Status.Conditions ≠ [])
    && inUpgradeMode hc.Status.Versions env.OwnVersionName env.OwnVersion) with
  | false => exact ⟨⟨rfl, rfl, rfl, rfl⟩, rfl, rfl, rfl, rfl, rfl⟩
  | true =>
    simp only [if_true]
    obtain ⟨a1, a2, a3, a4, a5, _⟩ := amendBadDefaults_frame
      (newHcoRequest (singletonKey env) hc true (decide (trigger = .Primary)))
    obtain ⟨hcl, m1, m2, m3, m4, m5⟩ := migrateBeforeUpgrade_frame env
      (amendBadDefaults
        (newHcoRequest (singletonKey env) hc true (decide (trigger = .Primary)))).2 cl
    exact ⟨hcl, m1.trans a1, m2.trans a2, m3.trans a3, m4.trans a4, m5.trans a5⟩

/-- The entry of a reconcile outside upgrade mode, or of an HC without
conditions, does nothing. -/
theorem prepareUpgrade_of_not_upgrading (env : Env) (trigger : TriggerSource) (cl : Cluster)
    (hc : HyperConverged)
    (h : hc.Status.Conditions = [] ∨
      inUpgradeMode hc.Status.Versions env.OwnVersionName env.OwnVersion = false) :
    prepareUpgrade env trigger cl hc
      = (false, newHcoRequest (singletonKey env) hc false (decide (trigger = .Primary)), cl) := by
  have hmode : (decide (hc.Status.Conditions ≠ [])
      && inUpgradeMode hc.Status.Versions env.OwnVersionName env.OwnVersion) = false := by
    rcases h with h | h
    · simp [h]
    · simp [h]
  unfold prepareUpgrade
  simp only [hmode, Bool.false_eq_true, if_false]

/-- When the entry of a reconcile did not modify the HC spec, the spec is the
one of the HC object. -/
theorem prepareUpgrade_spec_of_unmodified (env : Env) (trigger : TriggerSource) (cl : Cluster)
    (hc : HyperConverged) (h : (prepareUpgrade env trigger cl hc).1 = false) :
    (prepareUpgrade env trigger cl hc).2.1.Instance.Spec = hc.Spec := by
  unfold prepareUpgrade at h ⊢
  cases hmode : (decide (hc.Status.Conditions ≠ [])
    && inUpgradeMode hc.Status.Versions env.OwnVersionName env.OwnVersion) with
  | false => simp only [Bool.false_eq_true, if_false]; rfl
  | true =>
    rw [hmode] at h
    simp only [if_true, Bool.or_eq_false_iff] at h ⊢
    have ha := (amendBadDefaults_frame
      (newHcoRequest (singletonKey env) hc true (decide (trigger = .Primary)))).2.2.2.2.2 h.1
    rw [ha] at h ⊢
    have hm : ¬ (migrateBeforeUpgrade env
        (newHcoRequest (singletonKey env) hc true (decide (trigger = .Primary))) cl
        ).req.Instance.Spec
        ≠ (newHcoRequest (singletonKey env) hc true (decide (trigger = .Primary))
          ).Instance.Spec := by
      rw [← migrateBeforeUpgrade_modified_iff, h.2]
      decide
    exact not_not.mp hm

/-- The desired CR and the count of a patch depend on the spec and the
annotations of HC only. -/
theorem patchOutcome_congr (env : Env) (h : Handler) (hc hc2 : HyperConverged)
    (hs : hc2.Spec = hc.Spec) (ha : hc2.Annotations = hc.Annotations) :
    patchOutcome env h hc2 = patchOutcome env h hc := by
  unfold patchOutcome
  rw [hs, ha]

/-- The removal of the legacy ConfigMap touches the ConfigMaps and the events
only, and of the request the related objects only. -/
theorem removeLegacyConfigMap_frame (req : HcoRequest) (cl : Cluster) :
    ((removeLegacyConfigMap req cl).2.Operands = cl.Operands ∧
      (removeLegacyConfigMap req cl).2.HyperConvergeds = cl.HyperConvergeds ∧
      (removeLegacyConfigMap req cl).2.OverwrittenModifications = cl.OverwrittenModifications ∧
      (removeLegacyConfigMap req cl).2.UnsafeModifications = cl.UnsafeModifications) ∧
    ((removeLegacyConfigMap req cl).1.Instance.Name = req.Instance.Name ∧
      (removeLegacyConfigMap req cl).1.Instance.Namespace = req.Instance.Namespace ∧
      (removeLegacyConfigMap req cl).1.Instance.Annotations = req.Instance.Annotations ∧
      (removeLegacyConfigMap req cl).1.Instance.Spec = req.Instance.Spec ∧
      (removeLegacyConfigMap req cl).1.Instance.Status.Versions
        = req.Instance.Status.Versions) := by
  unfold removeLegacyConfigMap
  cases cl.getConfigMap kvCmName req.Namespace <;>
    exact ⟨⟨rfl, rfl, rfl, rfl⟩, rfl, rfl, rfl, rfl, rfl⟩

/-- After the removal of the legacy ConfigMap the ConfigMaps are those of
before without `kubevirt-config`: none was created. -/
theorem removeLegacyConfigMap_configMaps (req : HcoRequest) (cl : Cluster) :
    (removeLegacyConfigMap req cl).2.ConfigMaps
      = cl.ConfigMaps.filter (fun c => ¬ (c.Name = kvCmName ∧ c.Namespace = req.Namespace)) := by
  unfold removeLegacyConfigMap
  cases h : cl.getConfigMap kvCmName req.Namespace with
  | some cm => rfl
  | none =>
    symm
    rw [List.filter_eq_self]
    intro c hc
    have hnot : ¬ (c.Name = kvCmName ∧ c.Namespace = req.Namespace) := by
      simpa using List.find?_eq_none.1 h c hc
    have hgoal : decide (¬ (c.Name = kvCmName ∧ c.Namespace = req.Namespace)) = true :=
      decide_eq_true hnot
    exact hgoal

/-- The status writeback touches the HC objects and the unsafe-modification
counters only. -/
theorem writeStatus_frame (env : Env) (inst : HyperConverged) (cl : Cluster)
    (conds : List Condition) (versions : List (String × String)) (requeue : Bool) :
    (writeStatus env inst cl conds versions requeue).cluster.Operands = cl.Operands ∧
    (writeStatus env inst cl conds versions requeue).cluster.ConfigMaps = cl.ConfigMaps ∧
    (writeStatus env inst cl conds versions requeue).cluster.OverwrittenModifications
      = cl.OverwrittenModifications ∧
    (writeStatus env inst cl conds versions requeue).cluster.UnsafeModifications
      = (recordUnsafeCounts cl (unsafeCounts env inst)).UnsafeModifications := by
  have how : ∀ counts : List (String × Nat),
      (recordUnsafeCounts cl counts).OverwrittenModifications = cl.OverwrittenModifications := by
    intro counts
    unfold recordUnsafeCounts
    exact foldl_preserves (fun c e => c.setUnsafeModificationCount e.1 e.2)
      Cluster.OverwrittenModifications (fun _ _ => rfl) counts cl
  obtain ⟨hcm, _, _, hops⟩ := recordUnsafeCounts_frame cl (unsafeCounts env inst)
  exact ⟨hops, hcm, how _, rfl⟩

/-- After the status writeback the HC object carries the spec of the instance,
the version map given, and the conditions the tainted-configuration engine
made of the conditions given. -/
theorem writeStatus_getHyperConverged (env : Env) (inst : HyperConverged) (cl : Cluster)
    (conds : List Condition) (versions : List (String × String)) (requeue : Bool)
    (name ns : String) (hc : HyperConverged)
    (hget : cl.getHyperConverged name ns = some hc)
    (hn : inst.Name = name) (hs : inst.Namespace = ns) :
    (writeStatus env inst cl conds versions requeue).cluster.getHyperConverged name ns
      = some { inst with
          Status := { inst.Status with
            Conditions := updateTaintedCondition env (isTainted (unsafeCounts env inst)) conds,
            Versions := versions } } := by
  show List.find? _ (List.map _ (recordUnsafeCounts cl (unsafeCounts env inst)).HyperConvergeds)
    = _
  rw [(recordUnsafeCounts_frame cl (unsafeCounts env inst)).2.1]
  exact getHyperConverged_update cl.HyperConvergeds name ns hc
    { inst with
      Status := { inst.Status with
        Conditions := updateTaintedCondition env (isTainted (unsafeCounts env inst)) conds,
        Versions := versions } } hget hn hs

/-- The operand stage touches the operand CRs and the drift counters as the
operand reconcile loop does, removes the legacy ConfigMap and creates none,
and leaves the HC objects, the unsafe-modification counters and, of the
request, all but the related objects. -/
theorem operandStage_frame (env : Env) (trigger : TriggerSource) (req : HcoRequest)
    (cl : Cluster) :
    ((operandStage env trigger req cl).2.Operands
        = (reconcileOperands env trigger req.Instance cl).Operands ∧
      (operandStage env trigger req cl).2.OverwrittenModifications
        = (reconcileOperands env trigger req.Instance cl).OverwrittenModifications ∧
      (operandStage env trigger req cl).2.HyperConvergeds = cl.HyperConvergeds ∧
      (operandStage env trigger req cl).2.ConfigMaps
        = cl.ConfigMaps.filter
            (fun c => ¬ (c.Name = kvCmName ∧ c.Namespace = req.Namespace))) ∧
    ((operandStage env trigger req cl).1.Instance.Name = req.Instance.Name ∧
      (operandStage env trigger req cl).1.Instance.Namespace = req.Instance.Namespace ∧
      (operandStage env trigger req cl).1.Instance.Annotations = req.Instance.Annotations ∧
      (operandStage env trigger req cl).1.Instance.Spec = req.Instance.Spec ∧
      (operandStage env trigger req cl).1.Instance.Status.Versions
        = req.Instance.Status.Versions) := by
  obtain ⟨⟨h1, h2, h3, _⟩, hinst⟩ :=
    removeLegacyConfigMap_frame req (reconcileOperands env trigger req.Instance cl)
  have h5 := removeLegacyConfigMap_configMaps req (reconcileOperands env trigger req.Instance cl)
  rw [(reconcileOperands_frame env trigger req.Instance cl).1] at h5
  exact ⟨⟨h1, h3, h2.trans (reconcileOperands_frame env trigger req.Instance cl).2.1, h5⟩, hinst⟩

/-- The reconcile of the singleton whose entry modified the HC spec returns
after the status writeback, the operands not being consulted. -/
theorem reconcileSingleton_of_modified (env : Env) (trigger : TriggerSource)
    (pendingWrite : Bool) (cl : Cluster) (hc : HyperConverged)
    (h : (prepareUpgrade env trigger cl hc).1 = true) :
    reconcileSingleton env trigger pendingWrite cl hc
      = writeStatus env (prepareUpgrade env trigger cl hc).2.1.Instance
          (prepareUpgrade env trigger cl hc).2.2
          (unknownConditions (prepareUpgrade env trigger cl hc).2.1.Instance.Status.Conditions)
          (prepareUpgrade env trigger cl hc).2.1.Instance.Status.Versions true := by
  unfold reconcileSingleton
  simp only [h, if_true]

/-- The initializing reconcile of the singleton. -/
theorem reconcileSingleton_of_init (env : Env) (trigger : TriggerSource)
    (pendingWrite : Bool) (cl : Cluster) (hc : HyperConverged)
    (h : (prepareUpgrade env trigger cl hc).1 = false) (hinit : hc.Status.Conditions = []) :
    reconcileSingleton env trigger pendingWrite cl hc
      = writeStatus env
          (operandStage env trigger (prepareUpgrade env trigger cl hc).2.1
            (prepareUpgrade env trigger cl hc).2.2).1.Instance
          (operandStage env trigger (prepareUpgrade env trigger cl hc).2.1
            (prepareUpgrade env trigger cl hc).2.2).2
          (initConditions env)
          (updateVersion
            (operandStage env trigger (prepareUpgrade env trigger cl hc).2.1
              (prepareUpgrade env trigger cl hc).2.2).1.Instance.Status.Versions
            env.OwnVersionName env.OwnVersion) true := by
  unfold reconcileSingleton
  simp only [h, Bool.false_eq_true, if_false, hinit, if_true]

/-- The reconcile of an initialized singleton whose entry left the HC spec alone. -/
theorem reconcileSingleton_of_complete (env : Env) (trigger : TriggerSource)
    (pendingWrite : Bool) (cl : Cluster) (hc : HyperConverged)
    (h : (prepareUpgrade env trigger cl hc).1 = false) (hinit : hc.Status.Conditions ≠ []) :
    reconcileSingleton env trigger pendingWrite cl hc
      = writeStatus env
          (operandStage env trigger (prepareUpgrade env trigger cl hc).2.1
            (prepareUpgrade env trigger cl hc).2.2).1.Instance
          (operandStage env trigger (prepareUpgrade env trigger cl hc).2.1
            (prepareUpgrade env trigger cl hc).2.2).2
          (upgradeProgress env
            (inUpgradeMode
              (upgradeStep env.Names env.OwnVersionName env.OwnVersion Option.none
                (operandViews env (operandStage env trigger (prepareUpgrade env trigger cl hc).2.1
                  (prepareUpgrade env trigger cl hc).2.2).2)
                pendingWrite
                (operandStage env trigger (prepareUpgrade env trigger cl hc).2.1
                  (prepareUpgrade env trigger cl hc).2.2).1.Instance.Status.Versions)
              env.OwnVersionName env.OwnVersion)
            (aggregate env.Names
              (inUpgradeMode
                (upgradeStep env.Names env.OwnVersionName env.OwnVersion Option.none
                  (operandViews env
                    (operandStage env trigger (prepareUpgrade env trigger cl hc).2.1
                      (prepareUpgrade env trigger cl hc).2.2).2)
                  pendingWrite
                  (operandStage env trigger (prepareUpgrade env trigger cl hc).2.1
                    (prepareUpgrade env trigger cl hc).2.2).1.Instance.Status.Versions)
                env.OwnVersionName env.OwnVersion)
              Option.none
              (operandViews env (operandStage env trigger (prepareUpgrade env trigger cl hc).2.1
                (prepareUpgrade env trigger cl hc).2.2).2)).toList)
          (upgradeStep env.Names env.OwnVersionName env.OwnVersion Option.none
            (operandViews env (operandStage env trigger (prepareUpgrade env trigger cl hc).2.1
              (prepareUpgrade env trigger cl hc).2.2).2)
            pendingWrite
            (operandStage env trigger (prepareUpgrade env trigger cl hc).2.1
              (prepareUpgrade env trigger cl hc).2.2).1.Instance.Status.Versions)
          pendingWrite := by
  unfold reconcileSingleton
  simp only [h, Bool.false_eq_true, if_false, hinit]

/-- The reconcile of the singleton whose entry left the HC spec alone ends in
the status writeback of the instance and the cluster of the operand stage. -/
theorem reconcileSingleton_of_unmodified (env : Env) (trigger : TriggerSource)
    (pendingWrite : Bool) (cl : Cluster) (hc : HyperConverged)
    (h : (prepareUpgrade env trigger cl hc).1 = false) :
    ∃ conds versions requeue,
      reconcileSingleton env trigger pendingWrite cl hc
        = writeStatus env
            (operandStage env trigger (prepareUpgrade env trigger cl hc).2.1
              (prepareUpgrade env trigger cl hc).2.2).1.Instance
            (operandStage env trigger (prepareUpgrade env trigger cl hc).2.1
              (prepareUpgrade env trigger cl hc).2.2).2
            conds versions requeue := by
  by_cases hinit : hc.Status.Conditions = []
  · exact ⟨_, _, _, reconcileSingleton_of_init env trigger pendingWrite cl hc h hinit⟩
  · exact ⟨_, _, _, reconcileSingleton_of_complete env trigger pendingWrite cl hc h hinit⟩

/-- What a ConfigMap does not find before a removal it does not find after it. -/
theorem find?_filter_none {α : Type} (p q : α → Bool) (l : List α)
    (h : l.find? p = none) : (l.filter q).find? p = none := by
  rw [List.find?_eq_none] at h ⊢
  exact fun x hx => h x (List.mem_filter.1 hx).1

/-- The counter of an annotation after the counts were recorded: the count of
the last entry of the annotation, or the counter of before when there is none. -/
theorem getUnsafeModificationsCount_recordUnsafeCounts (cl : Cluster)
    (counts : List (String × Nat)) (a : String) :
    (recordUnsafeCounts cl counts).getUnsafeModificationsCount a
      = (((counts.filter (fun e => decide (e.1 = a))).getLast?).map (fun e => e.2)).getD
          (cl.getUnsafeModificationsCount a) := by
  unfold recordUnsafeCounts
  exact foldl_last_wins (fun c e => c.setUnsafeModificationCount e.1 e.2)
    (fun c => c.getUnsafeModificationsCount a) (fun e => decide (e.1 = a)) (fun e => e.2)
    (fun acc e => by
      by_cases he : e.1 = a
      · simp only [he, decide_True, if_true]
        exact getUnsafeModificationsCount_set acc a e.2
      · simp only [he, decide_False, Bool.false_eq_true, if_false]
        exact getUnsafeModificationsCount_set_ne acc a e.1 e.2 he) counts cl

/-- The counts of an annotation are those of the handlers that carry it, in
registry order. -/
theorem filter_counts (env : Env) (hc : HyperConverged) (a : String) (l : List Handler) :
    (l.filterMap
        (fun h => h.PatchAnnotationName.map (fun b => (b, (patchOutcome env h hc).2)))).filter
        (fun e => decide (e.1 = a))
      = (l.filter (fun h => decide (h.PatchAnnotationName = some a))).map
          (fun h => (a, (patchOutcome env h hc).2)) := by
  induction l with
  | nil => rfl
  | cons h rest ih =>
    cases hp : h.PatchAnnotationName with
    | none =>
      have hne : ¬ (h.PatchAnnotationName = some a) := by rw [hp]; exact fun h => nomatch h
      rw [List.filterMap_cons, hp, List.filter_cons_of_neg (by simpa using hne)]
      exact ih
    | some b =>
      by_cases hb : b = a
      · subst hb
        rw [List.filterMap_cons, hp, List.filter_cons_of_pos (by simpa using hp)]
        simp only [Option.map_some', List.map_cons]
        rw [List.filter_cons_of_pos (by simp), ih]
      · have hne : ¬ (h.PatchAnnotationName = some a) := by
          rw [hp]; exact fun h => hb (Option.some.inj h)
        rw [List.filterMap_cons, hp, List.filter_cons_of_neg (by simpa using hne)]
        simp only [Option.map_some']
        rw [List.filter_cons_of_neg (by simpa using hb), ih]

/-- The handler of an annotation is a handler of the registry that carries it. -/
theorem annotationHandler_some (env : Env) (a : String) (h : Handler)
    (hann : annotationHandler env a = some h) :
    h ∈ env.registry ∧ h.PatchAnnotationName = some a := by
  have hmem := List.mem_of_getLast?_eq_some hann
  rw [List.mem_filter] at hmem
  exact ⟨hmem.1, by simpa using hmem.2⟩

/-- The counter of an annotation after the counts of a reconcile were recorded
is the count of its handler. -/
theorem getUnsafeModificationsCount_record (env : Env) (hc : HyperConverged) (cl : Cluster)
    (a : String) (h : Handler) (hann : annotationHandler env a = some h) :
    (recordUnsafeCounts cl (unsafeCounts env hc)).getUnsafeModificationsCount a
      = (patchOutcome env h hc).2 := by
  rw [getUnsafeModificationsCount_recordUnsafeCounts]
  unfold unsafeCounts
  rw [filter_counts, List.getLast?_map]
  unfold annotationHandler at hann
  rw [hann]
  rfl

/-- The count of a handler that carries an annotation is among the counts. -/
theorem mem_unsafeCounts (env : Env) (hc : HyperConverged) (h : Handler) (a : String)
    (hmem : h ∈ env.registry) (hann : h.PatchAnnotationName = some a) :
    (a, (patchOutcome env h hc).2) ∈ unsafeCounts env hc := by
  unfold unsafeCounts
  rw [List.mem_filterMap]
  exact ⟨h, hmem, by rw [hann]; rfl⟩

/-- The configuration is tainted when a handler that carries an annotation
counts an operation. -/
theorem isTainted_of_pos (env : Env) (hc : HyperConverged) (h : Handler) (a : String)
    (hmem : h ∈ env.registry) (hann : h.PatchAnnotationName = some a)
    (hpos : 0 < (patchOutcome env h hc).2) : isTainted (unsafeCounts env hc) = true := by
  unfold isTainted
  rw [List.any_eq_true]
  exact ⟨_, mem_unsafeCounts env hc h a hmem hann, by simpa using hpos⟩

/-- The configuration is not tainted when no handler counts an operation. -/
theorem isTainted_of_zero (env : Env) (hc : HyperConverged)
    (hzero : ∀ g ∈ env.registry, (patchOutcome env g hc).2 = 0) :
    isTainted (unsafeCounts env hc) = false := by
  unfold isTainted unsafeCounts
  rw [List.any_eq_false]
  intro e he
  obtain ⟨g, hg, hge⟩ := List.mem_filterMap.1 he
  cases hp : g.PatchAnnotationName with
  | none => rw [hp] at hge; exact nomatch hge
  | some b =>
    rw [hp] at hge
    have hee : e = (b, (patchOutcome env g hc).2) := (Option.some.inj hge).symm
    rw [hee, hzero g hg]
    simp

/-- The counts of a reconcile depend on the spec and the annotations of HC only. -/
theorem unsafeCounts_congr (env : Env) (hc hc2 : HyperConverged)
    (hs : hc2.Spec = hc.Spec) (ha : hc2.Annotations = hc.Annotations) :
    unsafeCounts env hc2 = unsafeCounts env hc := by
  unfold unsafeCounts
  congr 1
  funext h
  rw [patchOutcome_congr env h hc hc2 hs ha]

/-- Every reconcile of the singleton ends in the status writeback of an
instance that carries the annotations of HC and the spec HC has after the
entry of the reconcile. -/
theorem reconcileSingleton_writeStatus (env : Env) (trigger : TriggerSource)
    (pendingWrite : Bool) (cl : Cluster) (hc : HyperConverged) :
    ∃ inst cl1 conds versions requeue,
      reconcileSingleton env trigger pendingWrite cl hc
        = writeStatus env inst cl1 conds versions requeue ∧
      inst.Name = hc.Name ∧ inst.Namespace = hc.Namespace ∧
      inst.Annotations = hc.Annotations ∧
      inst.Spec = (prepareUpgrade env trigger cl hc).2.1.Instance.Spec ∧
      cl1.HyperConvergeds = cl.HyperConvergeds := by
  obtain ⟨⟨_, hhcs, _, _⟩, p1, p2, p3, _, _⟩ := prepareUpgrade_frame env trigger cl hc
  cases hmod : (prepareUpgrade env trigger cl hc).1 with
  | true =>
    exact ⟨_, _, _, _, _, reconcileSingleton_of_modified env trigger pendingWrite cl hc hmod,
      p1, p2, p3, rfl, hhcs⟩
  | false =>
    obtain ⟨conds, versions, requeue, hrec⟩ :=
      reconcileSingleton_of_unmodified env trigger pendingWrite cl hc hmod
    obtain ⟨⟨_, _, hhcs2, _⟩, s1, s2, s3, s4, _⟩ := operandStage_frame env trigger
      (prepareUpgrade env trigger cl hc).2.1 (prepareUpgrade env trigger cl hc).2.2
    exact ⟨_, _, conds, versions, requeue, hrec, s1.trans p1, s2.trans p2, s3.trans p3, s4,
      hhcs2.trans hhcs⟩

/-- A search is not changed by a replacement that keeps the elements it looks
for and turns no other element into one. -/
theorem find?_map_of_agree {α : Type} (p : α → Bool) (f : α → α) (l : List α)
    (h : ∀ o ∈ l, f o = o ∨ (p o = false ∧ p (f o) = false)) :
    (l.map f).find? p = l.find? p := by
  induction l with
  | nil => rfl
  | cons o rest ih =>
    have hrest := ih (fun x hx => h x (List.mem_cons_of_mem o hx))
    rcases h o (List.mem_cons_self o rest) with h1 | ⟨h1, h2⟩
    · simp only [List.map_cons, List.find?_cons, h1, hrest]
    · simp only [List.map_cons, List.find?_cons, h1, h2, hrest]

/-- A search is not changed by a removal that keeps the elements it looks for. -/
theorem find?_filter_of_imp {α : Type} (p q : α → Bool) (l : List α)
    (h : ∀ o, p o = true → q o = true) : (l.filter q).find? p = l.find? p := by
  induction l with
  | nil => rfl
  | cons o rest ih =>
    by_cases hq : q o = true
    · rw [List.filter_cons_of_pos hq, List.find?_cons, List.find?_cons, ih]
    · have hp : p o = false := by
        cases hpo : p o with
        | false => rfl
        | true => exact absurd (h o hpo) hq
      rw [List.filter_cons_of_neg hq, List.find?_cons, hp, ih]

/-- The handlers of the registry are pairwise handlers of different operands. -/
theorem registryOf_pairwise (l : List Handler) :
    (registryOf l).Pairwise (fun a b => ¬ (b.Kind = a.Kind ∧ b.Name = a.Name)) := by
  induction l with
  | nil => exact List.Pairwise.nil
  | cons h rest ih =>
    show (h :: (registryOf rest).filter _).Pairwise _
    rw [List.pairwise_cons]
    refine ⟨fun b hb => ?_, ih.sublist (List.filter_sublist _)⟩
    exact of_decide_eq_true (List.mem_filter.1 hb).2

/-- The drift counter of an operand is not changed by the increment of the
counter of another operand. -/
theorem getOverwrittenModificationsCount_inc_ne (cl : Cluster) (kind name k n : String)
    (hne : ¬ (k = kind ∧ n = name)) :
    (cl.incOverwrittenModifications k n).getOverwrittenModificationsCount kind name
      = cl.getOverwrittenModificationsCount kind name := by
  have hkey : ¬ ((k, n) = (kind, name)) := fun h => hne ⟨congrArg Prod.fst h, congrArg Prod.snd h⟩
  unfold Cluster.getOverwrittenModificationsCount Cluster.incOverwrittenModifications
  simp only [List.find?_cons, hkey, decide_False]
  rw [find?_filter_of_imp]
  intro e he
  have he1 : e.1 = (kind, name) := by simpa using he
  have : ¬ e.1 = (k, n) := fun h => hkey (h.symm.trans he1)
  simpa using this

/-- The CR of an operand is not changed by the update of the CR of another operand. -/
theorem getOperandCR_updateOperandCR_ne (cl : Cluster) (kind name : String) (cr : OperandCR)
    (hne : ¬ (cr.Kind = kind ∧ cr.Name = name)) :
    (cl.updateOperandCR cr).getOperandCR kind name = cl.getOperandCR kind name := by
  unfold Cluster.getOperandCR Cluster.updateOperandCR
  refine find?_map_of_agree _ _ _ (fun o _ => ?_)
  by_cases ho : o.Kind = cr.Kind ∧ o.Name = cr.Name
  · refine Or.inr ⟨?_, ?_⟩
    · have : ¬ (o.Kind = kind ∧ o.Name = name) := by rw [ho.1, ho.2]; exact hne
      simpa using this
    · rw [if_pos ho]
      simpa using hne
  · exact Or.inl (if_neg ho)

/-- The reconcile of an operand leaves the CR and the drift counter of every
other operand as they are. -/
theorem reconcileOperand_other (env : Env) (trigger : TriggerSource) (hc : HyperConverged)
    (cl : Cluster) (g : Handler) (kind name : String)
    (hne : ¬ (g.Kind = kind ∧ g.Name = name)) :
    (reconcileOperand env trigger hc cl g).getOperandCR kind name = cl.getOperandCR kind name ∧
    (reconcileOperand env trigger hc cl g).getOverwrittenModificationsCount kind name
      = cl.getOverwrittenModificationsCount kind name := by
  unfold reconcileOperand
  cases hg : cl.getOperandCR g.Kind g.Name with
  | none =>
    refine ⟨?_, rfl⟩
    unfold Cluster.getOperandCR Cluster.createOperandCR
    simp only [List.find?_append, List.find?_cons, List.find?_nil]
    have : decide (g.Kind = kind ∧ g.Name = name) = false := by simpa using hne
    rw [this]
    cases List.find? (fun o => decide (o.Kind = kind ∧ o.Name = name)) cl.Operands <;> rfl
  | some existing =>
    obtain ⟨hk, hn⟩ := getOperandCR_some cl _ _ existing hg
    by_cases hd : existing.Spec = (patchOutcome env g hc).1
    · simp only [if_pos hd, and_self]
    · have hcr := getOperandCR_updateOperandCR_ne cl kind name
        { existing with Spec := (patchOutcome env g hc).1 } (by rw [hk, hn]; exact hne)
      cases trigger
      · simp only [if_neg hd]
        exact ⟨hcr, rfl⟩
      · simp only [if_neg hd]
        exact ⟨hcr, getOverwrittenModificationsCount_inc_ne _ kind name g.Kind g.Name hne⟩

/-- The reconcile of a list of operands leaves the CR and the drift counter of
an operand that is not among them as they are. -/
theorem foldl_reconcileOperand_other (env : Env) (trigger : TriggerSource)
    (hc : HyperConverged) (kind name : String) (l : List Handler)
    (hne : ∀ g ∈ l, ¬ (g.Kind = kind ∧ g.Name = name)) (cl : Cluster) :
    (l.foldl (reconcileOperand env trigger hc) cl).getOperandCR kind name
      = cl.getOperandCR kind name ∧
    (l.foldl (reconcileOperand env trigger hc) cl).getOverwrittenModificationsCount kind name
      = cl.getOverwrittenModificationsCount kind name := by
  induction l generalizing cl with
  | nil => exact ⟨rfl, rfl⟩
  | cons g rest ih =>
    obtain ⟨h1, h2⟩ := ih (fun x hx => hne x (List.mem_cons_of_mem g hx))
      (reconcileOperand env trigger hc cl g)
    obtain ⟨g1, g2⟩ := reconcileOperand_other env trigger hc cl g kind name
      (hne g (List.mem_cons_self g rest))
    exact ⟨h1.trans g1, h2.trans g2⟩

/-- The reconcile of an operand whose CR has drifted restores the managed
fields and counts the overwrite under a secondary trigger only. -/
theorem reconcileOperand_drift (env : Env) (trigger : TriggerSource) (hc : HyperConverged)
    (cl : Cluster) (h : Handler) (existing : OperandCR)
    (hget : cl.getOperandCR h.Kind h.Name = some existing)
    (hdrift : existing.Spec ≠ (patchOutcome env h hc).1) :
    (reconcileOperand env trigger hc cl h).getOperandCR h.Kind h.Name
      = some { existing with Spec := (patchOutcome env h hc).1 } ∧
    (reconcileOperand env trigger hc cl h).getOverwrittenModificationsCount h.Kind h.Name
      = cl.getOverwrittenModificationsCount h.Kind h.Name
        + (if trigger = .Secondary then 1 else 0) := by
  obtain ⟨hk, hn⟩ := getOperandCR_some cl _ _ existing hget
  have hcr := getOperandCR_updateOperandCR cl h.Kind h.Name existing
    { existing with Spec := (patchOutcome env h hc).1 } hget hk hn
  cases trigger
  · rw [reconcileOperand_of_drift_primary env hc cl h existing hget hdrift]
    exact ⟨hcr, rfl⟩
  · rw [reconcileOperand_of_drift_secondary env hc cl h existing hget hdrift]
    exact ⟨hcr, getOverwrittenModificationsCount_inc _ _ _⟩

/-- The operand reconcile loop, over handlers of pairwise different operands,
restores the managed fields of an operand of the loop whose CR has drifted,
and counts the overwrite once under a secondary trigger, not under a primary
one. -/
theorem foldl_reconcileOperand_drift (env : Env) (trigger : TriggerSource)
    (hc : HyperConverged) (h : Handler) (existing : OperandCR) (l : List Handler)
    (hpair : l.Pairwise (fun a b => ¬ (b.Kind = a.Kind ∧ b.Name = a.Name)))
    (hmem : h ∈ l) (cl : Cluster)
    (hget : cl.getOperandCR h.Kind h.Name = some existing)
    (hdrift : existing.Spec ≠ (patchOutcome env h hc).1) :
    (l.foldl (reconcileOperand env trigger hc) cl).getOperandCR h.Kind h.Name
      = some { existing with Spec := (patchOutcome env h hc).1 } ∧
    (l.foldl (reconcileOperand env trigger hc) cl).getOverwrittenModificationsCount
        h.Kind h.Name
      = cl.getOverwrittenModificationsCount h.Kind h.Name
        + (if trigger = .Secondary then 1 else 0) := by
  induction l generalizing cl with
  | nil => exact absurd hmem (List.not_mem_nil h)
  | cons g rest ih =>
    rw [List.pairwise_cons] at hpair
    rw [List.foldl_cons]
    rcases List.mem_cons.1 hmem with hg | hrest
    · subst hg
      obtain ⟨d1, d2⟩ := reconcileOperand_drift env trigger hc cl h existing hget hdrift
      obtain ⟨o1, o2⟩ := foldl_reconcileOperand_other env trigger hc h.Kind h.Name rest
        (fun x hx => hpair.1 x hx) (reconcileOperand env trigger hc cl h)
      exact ⟨o1.trans d1, o2.trans d2⟩
    · have hne : ¬ (g.Kind = h.Kind ∧ g.Name = h.Name) := fun hkey =>
        hpair.1 h hrest ⟨hkey.1.symm, hkey.2.symm⟩
      obtain ⟨o1, o2⟩ := reconcileOperand_other env trigger hc cl g h.Kind h.Name hne
      obtain ⟨i1, i2⟩ := ih hpair.2 hrest (reconcileOperand env trigger hc cl g)
        (o1.trans hget)
      exact ⟨i1, i2.trans (by rw [o2])⟩

/-- After its reconcile an operand has a CR. -/
theorem reconcileOperand_isSome (env : Env) (trigger : TriggerSource) (hc : HyperConverged)
    (cl : Cluster) (h : Handler) :
    ((reconcileOperand env trigger hc cl h).getOperandCR h.Kind h.Name).isSome = true := by
  unfold reconcileOperand
  cases hg : cl.getOperandCR h.Kind h.Name with
  | none =>
    unfold Cluster.getOperandCR at hg ⊢
    unfold Cluster.createOperandCR
    simp only [List.find?_append, hg, List.find?_cons, and_self, decide_True, Option.none_or,
      Option.isSome_some]
  | some existing =>
    obtain ⟨hk, hn⟩ := getOperandCR_some cl _ _ existing hg
    by_cases hd : existing.Spec = (patchOutcome env h hc).1
    · simp only [if_pos hd, hg, Option.isSome_some]
    · have hcr := getOperandCR_updateOperandCR cl h.Kind h.Name existing
        { existing with Spec := (patchOutcome env h hc).1 } hg hk hn
      cases trigger
      · simp only [if_neg hd]
        rw [hcr]; rfl
      · simp only [if_neg hd]
        show ((cl.updateOperandCR _).getOperandCR h.Kind h.Name).isSome = true
        rw [hcr]; rfl

/-- The reconcile of an operand removes no CR. -/
theorem reconcileOperand_keeps (env : Env) (trigger : TriggerSource) (hc : HyperConverged)
    (cl : Cluster) (g : Handler) (kind name : String)
    (h : (cl.getOperandCR kind name).isSome = true) :
    ((reconcileOperand env trigger hc cl g).getOperandCR kind name).isSome = true := by
  by_cases hkey : g.Kind = kind ∧ g.Name = name
  · rw [← hkey.1, ← hkey.2]
    exact reconcileOperand_isSome env trigger hc cl g
  · rw [(reconcileOperand_other env trigger hc cl g kind name hkey).1]
    exact h

/-- After the operand reconcile loop every operand of the loop has a CR. -/
theorem foldl_reconcileOperand_isSome (env : Env) (trigger : TriggerSource)
    (hc : HyperConverged) (l : List Handler) (cl : Cluster) :
    (∀ kind name, (cl.getOperandCR kind name).isSome = true →
      ((l.foldl (reconcileOperand env trigger hc) cl).getOperandCR kind name).isSome = true) ∧
    ∀ h ∈ l,
      ((l.foldl (reconcileOperand env trigger hc) cl).getOperandCR h.Kind h.Name).isSome
        = true := by
  induction l generalizing cl with
  | nil => exact ⟨fun _ _ h => h, fun h hmem => absurd hmem (List.not_mem_nil h)⟩
  | cons g rest ih =>
    obtain ⟨ih1, ih2⟩ := ih (reconcileOperand env trigger hc cl g)
    refine ⟨fun kind name h => ?_, fun h hmem => ?_⟩
    · exact ih1 kind name (reconcileOperand_keeps env trigger hc cl g kind name h)
    · rcases List.mem_cons.1 hmem with hg | hrest
      · subst hg
        exact ih1 h.Kind h.Name (reconcileOperand_isSome env trigger hc cl h)
      · exact ih2 h hrest

/-- What the aggregator reads depends on the operand CRs only. -/
theorem operandViews_congr (env : Env) (cl cl2 : Cluster) (h : cl2.Operands = cl.Operands) :
    operandViews env cl2 = operandViews env cl := by
  unfold operandViews
  congr 1
  funext g
  unfold operandView Cluster.getOperandCR
  rw [h]

/-- In upgrade mode the own version is not the target version. -/
theorem getVersion_ne_of_inUpgradeMode (versions : List (String × String)) (own target : String)
    (h : inUpgradeMode versions own target = true) : getVersion versions own ≠ some target := by
  simpa [inUpgradeMode] using h

/-- A request for the secondary-CR placeholder is not the singleton key, and
in this cluster the HyperConverged object it names exists; yet the singleton
is reconciled: the KubeVirt CR, whose managed fields had been changed, is
overwritten, and the object that the request names is left as it was, without
a ReconcileComplete=False condition. -/
theorem Reconcile_placeholder_request_reconciles :
    sampleEnv.SecondaryCRPlaceholder ≠ singletonKey sampleEnv ∧
    (sampleCluster [sampleHC HyperConvergedSpec.empty [] "1.6.0", placeholderHC]
        driftedOperands []).getHyperConverged
      sampleEnv.SecondaryCRPlaceholder.Name sampleEnv.SecondaryCRPlaceholder.Namespace
        = some placeholderHC ∧
    (Reconcile sampleEnv true
        (sampleCluster [sampleHC HyperConvergedSpec.empty [] "1.6.0", placeholderHC]
          driftedOperands [])
        sampleEnv.SecondaryCRPlaceholder).cluster.Operands = sampleOperands completedConditions ∧
    sampleOperands completedConditions ≠ driftedOperands ∧
    (Reconcile sampleEnv true
        (sampleCluster [sampleHC HyperConvergedSpec.empty [] "1.6.0", placeholderHC]
          driftedOperands [])
        sampleEnv.SecondaryCRPlaceholder).cluster.getHyperConverged
      sampleEnv.SecondaryCRPlaceholder.Name sampleEnv.SecondaryCRPlaceholder.Namespace
        = some placeholderHC := by
  decide

/-- C14 (amended): for every reconcile request whose name and namespace are
neither the HC singleton key nor the secondary-CR placeholder, and whose
target HyperConverged exists, `Reconcile` returns an empty result (no requeue)
and no error, sets ReconcileComplete=False on that object, with the fixed
invalid-request reason and the message that names the required singleton name
and namespace, leaves the spec of the object alone, and creates or changes no
operand. -/
theorem Reconcile_invalid_request (env : Env) (pendingWrite : Bool) (cl : Cluster)
    (request : Request) (hc : HyperConverged)
    (hkey : request ≠ singletonKey env) (hph : request ≠ env.SecondaryCRPlaceholder)
    (hget : cl.getHyperConverged request.Name request.Namespace = some hc) :
    (Reconcile env pendingWrite cl request).result = { Requeue := false } ∧
    (Reconcile env pendingWrite cl request).err = Option.none ∧
    (∃ hc1, (Reconcile env pendingWrite cl request).cluster.getHyperConverged
          request.Name request.Namespace = some hc1 ∧
        hc1.Spec = hc.Spec ∧
        ∃ c ∈ hc1.Status.Conditions,
          c.CondType = "ReconcileComplete" ∧ c.Status = .ConditionFalse ∧
          c.Reason = env.InvalidRequestReason ∧
          c.Message = env.InvalidRequestMessage (singletonKey env).Name
            (singletonKey env).Namespace) ∧
    (Reconcile env pendingWrite cl request).cluster.Operands = cl.Operands := by
  have hres : resolveRequest env request = request := by
    unfold resolveRequest
    rw [if_neg hph]
  obtain ⟨hn, hs⟩ := getHyperConverged_some cl _ _ hc hget
  rw [Reconcile_of_invalid env pendingWrite cl request hc hres hkey hget]
  refine ⟨rfl, rfl,
    ⟨{ hc with
        Status := { hc.Status with
          Conditions := setCondition hc.Status.Conditions (invalidRequestCondition env) } },
      ?_, rfl, invalidRequestCondition env, mem_setCondition _ _, rfl, rfl, rfl, rfl⟩, rfl⟩
  exact getHyperConverged_update cl.HyperConvergeds _ _ hc
    { hc with
      Status := { hc.Status with
        Conditions := setCondition hc.Status.Conditions (invalidRequestCondition env) } }
    hget hn hs

/-- C14 (amended), at the request `invalid/invalid` of the test "should ignore
invalid requests". -/
theorem Reconcile_invalid_request_witness :
    (Reconcile sampleEnv true
        (sampleCluster
          [{ sampleHC HyperConvergedSpec.empty [] "1.6.0" with
             Name := "invalid", Namespace := "invalid" }]
          driftedOperands [])
        { Name := "invalid", Namespace := "invalid" }).result = { Requeue := false } ∧
    (Reconcile sampleEnv true
        (sampleCluster
          [{ sampleHC HyperConvergedSpec.empty [] "1.6.0" with
             Name := "invalid", Namespace := "invalid" }]
          driftedOperands [])
        { Name := "invalid", Namespace := "invalid" }).cluster.Operands = driftedOperands :=
  have h := Reconcile_invalid_request sampleEnv true
    (sampleCluster
      [{ sampleHC HyperConvergedSpec.empty [] "1.6.0" with
         Name := "invalid", Namespace := "invalid" }]
      driftedOperands [])
    { Name := "invalid", Namespace := "invalid" }
    { sampleHC HyperConvergedSpec.empty [] "1.6.0" with Name := "invalid", Namespace := "invalid" }
    (by decide) (by decide) (by decide)
  ⟨h.1, h.2.2.2⟩

/-- C20: a reconcile outside upgrade mode, the persisted own version of HC
being the target version, does delete the legacy ConfigMap `kubevirt-config`,
as in the test "should remove the kubevirt-config CM not in upgrade": the
ConfigMap is there before the reconcile and gone after it. -/
theorem Reconcile_removes_legacy_outside_upgrade_mode :
    inUpgradeMode (readyHC HyperConvergedSpec.empty [] "1.6.0").Status.Versions
      sampleEnv.OwnVersionName sampleEnv.OwnVersion = false ∧
    (sampleCluster [readyHC HyperConvergedSpec.empty [] "1.6.0"]
        (sampleOperands completedConditions) [fakeConfigMap]).getConfigMap kvCmName
        "kubevirt-hyperconverged" = some fakeConfigMap ∧
    (Reconcile sampleEnv false
        (sampleCluster [readyHC HyperConvergedSpec.empty [] "1.6.0"]
          (sampleOperands completedConditions) [fakeConfigMap])
        (singletonKey sampleEnv)).cluster.getConfigMap kvCmName "kubevirt-hyperconverged"
      = Option.none := by
  decide

/-- C20 (amended): in a reconcile of the singleton where the persisted own
version of HC already equals the target version, the migration engine does not
run: no backup and no other ConfigMap is created, and the HC spec is not
changed; the legacy ConfigMap `kubevirt-config` is deleted all the same. -/
theorem Reconcile_outside_upgrade_mode (env : Env) (pendingWrite : Bool) (cl : Cluster)
    (request : Request) (hc : HyperConverged)
    (hres : resolveRequest env request = singletonKey env)
    (hget : cl.getHyperConverged (singletonKey env).Name (singletonKey env).Namespace = some hc)
    (hup : inUpgradeMode hc.Status.Versions env.OwnVersionName env.OwnVersion = false) :
    (Reconcile env pendingWrite cl request).cluster.ConfigMaps
      = cl.ConfigMaps.filter
          (fun c => ¬ (c.Name = kvCmName ∧ c.Namespace = env.OperatorNamespace)) ∧
    (∀ name ns, cl.getConfigMap name ns = Option.none →
      (Reconcile env pendingWrite cl request).cluster.getConfigMap name ns = Option.none) ∧
    (Reconcile env pendingWrite cl request).cluster.getConfigMap kvCmName env.OperatorNamespace
      = Option.none ∧
    ∃ hc1, (Reconcile env pendingWrite cl request).cluster.getHyperConverged
          (singletonKey env).Name (singletonKey env).Namespace = some hc1 ∧
      hc1.Spec = hc.Spec := by
  obtain ⟨hn, hs⟩ := getHyperConverged_some cl _ _ hc hget
  have hp := prepareUpgrade_of_not_upgrading env (triggerOf env request) cl hc (Or.inr hup)
  have hp1 : (prepareUpgrade env (triggerOf env request) cl hc).1 = false := by rw [hp]
  obtain ⟨conds, versions, requeue, hrec⟩ :=
    reconcileSingleton_of_unmodified env (triggerOf env request) pendingWrite cl hc hp1
  rw [Reconcile_of_singleton env pendingWrite cl request hc hres hget, hrec, hp]
  obtain ⟨⟨_, _, hhcs, hcms⟩, hname, hnamespace, _, hspec, _⟩ :=
    operandStage_frame env (triggerOf env request)
      (newHcoRequest (singletonKey env) hc false (decide (triggerOf env request = .Primary))) cl
  have hcm := (writeStatus_frame env
    (operandStage env (triggerOf env request)
      (newHcoRequest (singletonKey env) hc false (decide (triggerOf env request = .Primary)))
      cl).1.Instance
    (operandStage env (triggerOf env request)
      (newHcoRequest (singletonKey env) hc false (decide (triggerOf env request = .Primary)))
      cl).2 conds versions requeue).2.1
  have hfilter := hcm.trans hcms
  have hfilter2 : (writeStatus env _ _ conds versions requeue).cluster.ConfigMaps
      = (cl.deleteConfigMap kvCmName env.OperatorNamespace).ConfigMaps := hfilter
  refine ⟨hfilter, fun name ns hnone => ?_, ?_, ?_⟩
  · unfold Cluster.getConfigMap at hnone ⊢
    rw [hfilter]
    exact find?_filter_none _ _ _ hnone
  · have := getConfigMap_deleteConfigMap cl kvCmName env.OperatorNamespace
    unfold Cluster.getConfigMap at this ⊢
    rw [hfilter2]
    exact this
  · have hget2 : (operandStage env (triggerOf env request)
        (newHcoRequest (singletonKey env) hc false (decide (triggerOf env request = .Primary)))
        cl).2.getHyperConverged (singletonKey env).Name (singletonKey env).Namespace
        = some hc := by
      unfold Cluster.getHyperConverged at hget ⊢
      rw [hhcs]
      exact hget
    refine ⟨_, writeStatus_getHyperConverged env _ _ conds versions requeue _ _ hc hget2
      (hname.trans hn) (hnamespace.trans hs), ?_⟩
    exact hspec

/-- C20 (amended), at the cluster of the test "should remove the
kubevirt-config CM not in upgrade": no ConfigMap is left, so no backup was
created. -/
theorem Reconcile_outside_upgrade_mode_witness :
    (Reconcile sampleEnv false
        (sampleCluster [readyHC HyperConvergedSpec.empty [] "1.6.0"]
          (sampleOperands completedConditions) [fakeConfigMap])
        (singletonKey sampleEnv)).cluster.ConfigMaps = [] :=
  (Reconcile_outside_upgrade_mode sampleEnv false
    (sampleCluster [readyHC HyperConvergedSpec.empty [] "1.6.0"]
      (sampleOperands completedConditions) [fakeConfigMap])
    (singletonKey sampleEnv) (readyHC HyperConvergedSpec.empty [] "1.6.0")
    (by decide) (by decide) (by decide)).1.trans (by decide)

/-- C16: a JSON-patch annotation that parses and applies does not always leave
TaintedConfiguration=True in the HC status: the empty patch `[]` on the
KubeVirt annotation parses and applies, its counter is 0 after the reconcile
and the HC status carries no TaintedConfiguration condition. -/
theorem Reconcile_empty_patch_not_tainted :
    sampleEnv.decodePatch "[]" = some [] ∧
    sampleEnv.applyPatch [] [] = some [] ∧
    (Reconcile sampleEnv false
        (sampleCluster [readyHC HyperConvergedSpec.empty
            [("kubevirt.kubevirt.io/jsonpatch", "[]")] "1.6.0"]
          (sampleOperands completedConditions) [])
        (singletonKey sampleEnv)).cluster.getUnsafeModificationsCount
          "kubevirt.kubevirt.io/jsonpatch" = 0 ∧
    ((Reconcile sampleEnv false
        (sampleCluster [readyHC HyperConvergedSpec.empty
            [("kubevirt.kubevirt.io/jsonpatch", "[]")] "1.6.0"]
          (sampleOperands completedConditions) [])
        (singletonKey sampleEnv)).cluster.getHyperConverged "kubevirt-hyperconverged"
          "kubevirt-hyperconverged").map
        (fun hc => hc.Status.Conditions.map (fun c => c.CondType))
      = some ["ReconcileComplete", "Available", "Progressing", "Degraded", "Upgradeable"] := by
  decide

/-- C16 (amended): in every reconcile of the singleton, for a JSON-patch
annotation and the handler that carries it, the desired CR being computed from
the HC spec as it is after the entry of the reconcile: if the annotation parses
and applies, its unsafe-modification counter is, after the reconcile, the number
of operations of the patch, and TaintedConfiguration=True, with the fixed reason
and message, is in the HC status after the reconcile when the patch holds at
least one operation; if it fails to parse or to apply, or is absent, the counter
is 0 after the reconcile and, when no other handler counts an operation, the HC
status carries no TaintedConfiguration condition after the reconcile. -/
theorem Reconcile_tainted_configuration (env : Env) (pendingWrite : Bool) (cl : Cluster)
    (request : Request) (hc : HyperConverged) (h : Handler) (a : String)
    (hres : resolveRequest env request = singletonKey env)
    (hget : cl.getHyperConverged (singletonKey env).Name (singletonKey env).Namespace = some hc)
    (hann : annotationHandler env a = some h) :
    ∃ hc1, (Reconcile env pendingWrite cl request).cluster.getHyperConverged
        (singletonKey env).Name (singletonKey env).Namespace = some hc1 ∧
      (∀ text ops patched, lookupKey hc.Annotations a = some text →
        env.decodePatch text = some ops →
        env.applyPatch ops
            (h.desired (prepareUpgrade env (triggerOf env request) cl hc).2.1.Instance.Spec)
          = some patched →
        (Reconcile env pendingWrite cl request).cluster.getUnsafeModificationsCount a
            = ops.length ∧
        (ops ≠ [] → taintedCondition env ∈ hc1.Status.Conditions)) ∧
      ((lookupKey hc.Annotations a = none ∨
          ∃ text, lookupKey hc.Annotations a = some text ∧
            (env.decodePatch text = none ∨
              ∃ ops, env.decodePatch text = some ops ∧
                env.applyPatch ops
                    (h.desired
                      (prepareUpgrade env (triggerOf env request) cl hc).2.1.Instance.Spec)
                  = none)) →
        (Reconcile env pendingWrite cl request).cluster.getUnsafeModificationsCount a = 0 ∧
        ((∀ g ∈ env.registry, g ≠ h →
            (patchOutcome env g
              (prepareUpgrade env (triggerOf env request) cl hc).2.1.Instance).2 = 0) →
          ∀ c ∈ hc1.Status.Conditions, c.CondType ≠ "TaintedConfiguration")) := by
  obtain ⟨hn, hs⟩ := getHyperConverged_some cl _ _ hc hget
  obtain ⟨hmem, hpan⟩ := annotationHandler_some env a h hann
  obtain ⟨inst, cl1, conds, versions, requeue, hrec, i1, i2, i3, i4, hhcs⟩ :=
    reconcileSingleton_writeStatus env (triggerOf env request) pendingWrite cl hc
  have pann : (prepareUpgrade env (triggerOf env request) cl hc).2.1.Instance.Annotations
      = hc.Annotations := (prepareUpgrade_frame env (triggerOf env request) cl hc).2.2.2.1
  have hcounts : unsafeCounts env inst
      = unsafeCounts env (prepareUpgrade env (triggerOf env request) cl hc).2.1.Instance :=
    unsafeCounts_congr env _ inst i4 (i3.trans pann.symm)
  have hget1 : cl1.getHyperConverged (singletonKey env).Name (singletonKey env).Namespace
      = some hc := by
    unfold Cluster.getHyperConverged at hget ⊢
    rw [hhcs]
    exact hget
  have hfound := writeStatus_getHyperConverged env inst cl1 conds versions requeue _ _ hc hget1
    (i1.trans hn) (i2.trans hs)
  have hcount : (Reconcile env pendingWrite cl request).cluster.getUnsafeModificationsCount a
      = (patchOutcome env h
          (prepareUpgrade env (triggerOf env request) cl hc).2.1.Instance).2 := by
    rw [Reconcile_of_singleton env pendingWrite cl request hc hres hget, hrec]
    have hw := (writeStatus_frame env inst cl1 conds versions requeue).2.2.2
    unfold Cluster.getUnsafeModificationsCount
    rw [hw, hcounts]
    exact getUnsafeModificationsCount_record env _ cl1 a h hann
  rw [Reconcile_of_singleton env pendingWrite cl request hc hres hget, hrec] at hcount ⊢
  refine ⟨_, hfound, fun text ops patched htext hdec happ => ?_, fun hbad => ?_⟩
  · have hout := patchOutcome_of_valid env h
      (prepareUpgrade env (triggerOf env request) cl hc).2.1.Instance a text ops patched hpan
      (by rw [pann]; exact htext) hdec happ
    rw [hout] at hcount
    refine ⟨hcount, fun hne => ?_⟩
    have ht : isTainted (unsafeCounts env inst) = true := by
      rw [hcounts]
      refine isTainted_of_pos env _ h a hmem hpan ?_
      rw [hout]
      exact List.length_pos.mpr hne
    show taintedCondition env ∈ updateTaintedCondition env (isTainted (unsafeCounts env inst)) conds
    rw [ht]
    exact mem_updateTaintedCondition env conds
  · have hout := patchOutcome_of_invalid env h
      (prepareUpgrade env (triggerOf env request) cl hc).2.1.Instance a hpan
      (by rw [pann]; exact hbad)
    rw [hout] at hcount
    refine ⟨hcount, fun hothers => ?_⟩
    have ht : isTainted (unsafeCounts env inst) = false := by
      rw [hcounts]
      refine isTainted_of_zero env _ (fun g hg => ?_)
      by_cases hgh : g = h
      · rw [hgh, hout]
      · exact hothers g hg hgh
    show ∀ c ∈ updateTaintedCondition env (isTainted (unsafeCounts env inst)) conds, _
    rw [ht]
    exact updateTaintedCondition_false env conds

/-- C16 (amended), at the values of the test "Raises a TaintedConfiguration
condition upon detection of such configuration": the HC as it is created, its
own version being the target, carries the one-operation patch on the KubeVirt
annotation; after the reconcile the counter is 1 and TaintedConfiguration=True
is in the HC status. -/
theorem Reconcile_tainted_configuration_witness :
    (Reconcile sampleEnv false
        (sampleCluster [sampleHC HyperConvergedSpec.empty
            [("kubevirt.kubevirt.io/jsonpatch", onePatchText)] "1.6.0"] [] [])
        (singletonKey sampleEnv)).cluster.getUnsafeModificationsCount
          "kubevirt.kubevirt.io/jsonpatch" = 1 ∧
    ∃ hc1, (Reconcile sampleEnv false
        (sampleCluster [sampleHC HyperConvergedSpec.empty
            [("kubevirt.kubevirt.io/jsonpatch", onePatchText)] "1.6.0"] [] [])
        (singletonKey sampleEnv)).cluster.getHyperConverged
          (singletonKey sampleEnv).Name (singletonKey sampleEnv).Namespace = some hc1 ∧
      taintedCondition sampleEnv ∈ hc1.Status.Conditions :=
  (Reconcile_tainted_configuration sampleEnv false
    (sampleCluster [sampleHC HyperConvergedSpec.empty
        [("kubevirt.kubevirt.io/jsonpatch", onePatchText)] "1.6.0"] [] [])
    (singletonKey sampleEnv)
    (sampleHC HyperConvergedSpec.empty [("kubevirt.kubevirt.io/jsonpatch", onePatchText)] "1.6.0")
    (sampleHandler "KubeVirt" "kubevirt-kubevirt-hyperconverged"
      (some "kubevirt.kubevirt.io/jsonpatch"))
    "kubevirt.kubevirt.io/jsonpatch" (by decide) (by decide) rfl).elim
    (fun hc1 hh =>
      have hv := hh.2.1 onePatchText
        [{ Op := "add", Path := "/spec/configuration/migrations",
           Value := "\x7b\"allowPostCopy\": true\x7d" }]
        [("/spec/configuration/migrations", "\x7b\"allowPostCopy\": true\x7d")]
        (by decide) (by decide) (by decide)
      ⟨hv.1, hc1, hh.1, hv.2 (by simp)⟩)

/-- C15: not every reconcile restores a drifted CR. In upgrade mode, when the
migration engine adopts the legacy ConfigMap into the HC spec, the reconcile
returns before the operands are reconciled (test "should adopt KubeVirt
configMap into HC CR, drop it and create backup": the KubeVirt CR is not
updated "yet"): under the secondary-CR placeholder the KubeVirt CR whose
managed fields differ from the desired ones is found unchanged after the
reconcile and its counter is still 0, whether or not the reconcile has
something else to write to the HC object. -/
theorem Reconcile_early_return_keeps_drift :
    (sampleCluster [readyHC HyperConvergedSpec.empty [] "1.5.0"] driftedOperands
        [legacyConfigMap fullPayloadText]).getOperandCR "KubeVirt"
        "kubevirt-kubevirt-hyperconverged"
      = some (sampleOperandCR "KubeVirt" "kubevirt-kubevirt-hyperconverged"
          [("evictionStrategy", "None")]) ∧
    (patchOutcome sampleEnv
        (sampleHandler "KubeVirt" "kubevirt-kubevirt-hyperconverged"
          (some "kubevirt.kubevirt.io/jsonpatch"))
        (readyHC HyperConvergedSpec.empty [] "1.5.0")).1 = [] ∧
    (Reconcile sampleEnv false
        (sampleCluster [readyHC HyperConvergedSpec.empty [] "1.5.0"] driftedOperands
          [legacyConfigMap fullPayloadText])
        sampleEnv.SecondaryCRPlaceholder).cluster.getOperandCR "KubeVirt"
        "kubevirt-kubevirt-hyperconverged"
      = some (sampleOperandCR "KubeVirt" "kubevirt-kubevirt-hyperconverged"
          [("evictionStrategy", "None")]) ∧
    (Reconcile sampleEnv false
        (sampleCluster [readyHC HyperConvergedSpec.empty [] "1.5.0"] driftedOperands
          [legacyConfigMap fullPayloadText])
        sampleEnv.SecondaryCRPlaceholder).cluster.getOverwrittenModificationsCount "KubeVirt"
        "kubevirt-kubevirt-hyperconverged" = 0 ∧
    Reconcile sampleEnv true
        (sampleCluster [readyHC HyperConvergedSpec.empty [] "1.5.0"] driftedOperands
          [legacyConfigMap fullPayloadText])
        sampleEnv.SecondaryCRPlaceholder
      = Reconcile sampleEnv false
        (sampleCluster [readyHC HyperConvergedSpec.empty [] "1.5.0"] driftedOperands
          [legacyConfigMap fullPayloadText])
        sampleEnv.SecondaryCRPlaceholder := by
  decide

/-- C15 (amended): in every reconcile of the singleton that reaches the operand
stage, the entry of the reconcile not having modified the HC spec, for every
operand of the registry whose existing CR differs from the desired CR: after
the reconcile the CR carries the desired managed fields, its other fields
being those of before, under both triggers; and the overwritten-modifications
counter of its kind and name is greater by exactly 1 when the request key is
the secondary-CR placeholder, and is the one of before when the request key is
not the placeholder, hence the key of the HC singleton. -/
theorem Reconcile_restores_drift (env : Env) (pendingWrite : Bool) (cl : Cluster)
    (request : Request) (hc : HyperConverged) (h : Handler) (existing : OperandCR)
    (hres : resolveRequest env request = singletonKey env)
    (hget : cl.getHyperConverged (singletonKey env).Name (singletonKey env).Namespace = some hc)
    (hunmod : (prepareUpgrade env (triggerOf env request) cl hc).1 = false)
    (hmem : h ∈ env.registry)
    (hcr : cl.getOperandCR h.Kind h.Name = some existing)
    (hdrift : existing.Spec ≠ (patchOutcome env h hc).1) :
    (Reconcile env pendingWrite cl request).cluster.getOperandCR h.Kind h.Name
      = some { existing with Spec := (patchOutcome env h hc).1 } ∧
    (request = env.SecondaryCRPlaceholder →
      (Reconcile env pendingWrite cl request).cluster.getOverwrittenModificationsCount
          h.Kind h.Name
        = cl.getOverwrittenModificationsCount h.Kind h.Name + 1) ∧
    (request ≠ env.SecondaryCRPlaceholder →
      request = singletonKey env ∧
      (Reconcile env pendingWrite cl request).cluster.getOverwrittenModificationsCount
          h.Kind h.Name
        = cl.getOverwrittenModificationsCount h.Kind h.Name) := by
  obtain ⟨conds, versions, requeue, hrec⟩ :=
    reconcileSingleton_of_unmodified env (triggerOf env request) pendingWrite cl hc hunmod
  obtain ⟨⟨pops, _, pcount, _⟩, _, _, pann, _, _⟩ :=
    prepareUpgrade_frame env (triggerOf env request) cl hc
  have pspec := prepareUpgrade_spec_of_unmodified env (triggerOf env request) cl hc hunmod
  obtain ⟨⟨sops, scount, _, _⟩, _⟩ := operandStage_frame env (triggerOf env request)
    (prepareUpgrade env (triggerOf env request) cl hc).2.1
    (prepareUpgrade env (triggerOf env request) cl hc).2.2
  obtain ⟨wops, _, wcount, _⟩ := writeStatus_frame env
    (operandStage env (triggerOf env request)
      (prepareUpgrade env (triggerOf env request) cl hc).2.1
      (prepareUpgrade env (triggerOf env request) cl hc).2.2).1.Instance
    (operandStage env (triggerOf env request)
      (prepareUpgrade env (triggerOf env request) cl hc).2.1
      (prepareUpgrade env (triggerOf env request) cl hc).2.2).2 conds versions requeue
  have hout : patchOutcome env h (prepareUpgrade env (triggerOf env request) cl hc).2.1.Instance
      = patchOutcome env h hc := patchOutcome_congr env h hc _ pspec pann
  have hcr2 : (prepareUpgrade env (triggerOf env request) cl hc).2.2.getOperandCR h.Kind h.Name
      = some existing := by
    unfold Cluster.getOperandCR at hcr ⊢
    rw [pops]
    exact hcr
  have hcount2 : (prepareUpgrade env (triggerOf env request) cl hc
      ).2.2.getOverwrittenModificationsCount h.Kind h.Name
      = cl.getOverwrittenModificationsCount h.Kind h.Name := by
    unfold Cluster.getOverwrittenModificationsCount
    rw [pcount]
  obtain ⟨f1, f2⟩ := foldl_reconcileOperand_drift env (triggerOf env request)
    (prepareUpgrade env (triggerOf env request) cl hc).2.1.Instance h existing env.registry
    (registryOf_pairwise env.Operands) hmem
    (prepareUpgrade env (triggerOf env request) cl hc).2.2 hcr2 (by rw [hout]; exact hdrift)
  rw [hcount2] at f2
  rw [hout] at f1
  have hfinalcr : (Reconcile env pendingWrite cl request).cluster.getOperandCR h.Kind h.Name
      = some { existing with Spec := (patchOutcome env h hc).1 } := by
    rw [Reconcile_of_singleton env pendingWrite cl request hc hres hget, hrec]
    unfold Cluster.getOperandCR at f1 ⊢
    rw [wops, sops]
    exact f1
  have hfinalcount :
      (Reconcile env pendingWrite cl request).cluster.getOverwrittenModificationsCount
          h.Kind h.Name
        = cl.getOverwrittenModificationsCount h.Kind h.Name
          + (if triggerOf env request = .Secondary then 1 else 0) := by
    rw [Reconcile_of_singleton env pendingWrite cl request hc hres hget, hrec, ← f2]
    unfold Cluster.getOverwrittenModificationsCount
    rw [wcount, scount]
    rfl
  refine ⟨hfinalcr, fun hreq => ?_, fun hreq => ⟨?_, ?_⟩⟩
  · have ht : triggerOf env request = .Secondary := by
      unfold triggerOf; rw [if_pos hreq]
    rw [hfinalcount, ht, if_pos rfl]
  · unfold resolveRequest at hres
    rw [if_neg hreq] at hres
    exact hres
  · have ht : triggerOf env request = .Primary := by
      unfold triggerOf; rw [if_neg hreq]
    rw [hfinalcount, ht]
    rfl

/-- C15 (amended), at the values of the test "should increment counter when
out-of-band change overwritten": the HC as it is created and a KubeVirt CR
whose managed fields were changed; under the secondary-CR placeholder the CR
is restored and the counter goes from 0 to 1. -/
theorem Reconcile_restores_drift_witness :
    (Reconcile sampleEnv false
        (sampleCluster [freshHC]
          [sampleOperandCR "KubeVirt" "kubevirt-kubevirt-hyperconverged"
            [("evictionStrategy", "None")]] [])
        sampleEnv.SecondaryCRPlaceholder).cluster.getOperandCR "KubeVirt"
        "kubevirt-kubevirt-hyperconverged"
      = some (sampleOperandCR "KubeVirt" "kubevirt-kubevirt-hyperconverged" []) ∧
    (Reconcile sampleEnv false
        (sampleCluster [freshHC]
          [sampleOperandCR "KubeVirt" "kubevirt-kubevirt-hyperconverged"
            [("evictionStrategy", "None")]] [])
        sampleEnv.SecondaryCRPlaceholder).cluster.getOverwrittenModificationsCount "KubeVirt"
        "kubevirt-kubevirt-hyperconverged" = 0 + 1 :=
  have hh := Reconcile_restores_drift sampleEnv false
    (sampleCluster [freshHC]
      [sampleOperandCR "KubeVirt" "kubevirt-kubevirt-hyperconverged"
        [("evictionStrategy", "None")]] [])
    sampleEnv.SecondaryCRPlaceholder freshHC
    (sampleHandler "KubeVirt" "kubevirt-kubevirt-hyperconverged"
      (some "kubevirt.kubevirt.io/jsonpatch"))
    (sampleOperandCR "KubeVirt" "kubevirt-kubevirt-hyperconverged" [("evictionStrategy", "None")])
    (by decide) (by decide) (by decide)
    (by simp [Env.registry, registryOf, sampleEnv, sampleRegistry]) (by decide) (by decide)
  ⟨hh.1, hh.2.1 rfl⟩

/-- C10: a reconcile with the own version absent does not always keep it
absent while the gate is closed. The initializing reconcile of an HC without
conditions (tests "should create all managed resources" and "Should update HCO
Version Id in the CR on init") writes the target version although Available is
False with reason Init and the operand CRs, just created, have not observed
their target version, whether or not the reconcile has something else to write
to the HC object. -/
theorem Reconcile_init_writes_version :
    getVersion freshHC.Status.Versions sampleEnv.OwnVersionName = Option.none ∧
    inUpgradeMode freshHC.Status.Versions sampleEnv.OwnVersionName sampleEnv.OwnVersion
      = true ∧
    ((Reconcile sampleEnv false (sampleCluster [freshHC] [] [])
        (singletonKey sampleEnv)).cluster.getHyperConverged "kubevirt-hyperconverged"
        "kubevirt-hyperconverged").map
        (fun hc => getVersion hc.Status.Versions sampleEnv.OwnVersionName)
      = some (some "1.6.0") ∧
    ((Reconcile sampleEnv false (sampleCluster [freshHC] [] [])
        (singletonKey sampleEnv)).cluster.getHyperConverged "kubevirt-hyperconverged"
        "kubevirt-hyperconverged").map
        (fun hc => (hc.Status.Conditions.filter (fun c => c.CondType = "Available")).map
          (fun c => (c.Status, c.Reason)))
      = some [(.ConditionFalse, "Init")] ∧
    ((Reconcile sampleEnv false (sampleCluster [freshHC] [] [])
        (singletonKey sampleEnv)).cluster.getOperandCR "KubeVirt"
        "kubevirt-kubevirt-hyperconverged").map (fun cr => cr.ObservedVersion)
      = some "" ∧
    (sampleHandler "KubeVirt" "kubevirt-kubevirt-hyperconverged"
      (some "kubevirt.kubevirt.io/jsonpatch")).TargetVersion = "1.6.3" ∧
    Reconcile sampleEnv true (sampleCluster [freshHC] [] []) (singletonKey sampleEnv)
      = Reconcile sampleEnv false (sampleCluster [freshHC] [] []) (singletonKey sampleEnv) := by
  decide

/-- C10 (amended): in every reconcile of an HC singleton that carries
conditions and is in upgrade mode, the version map of HC status is after the
reconcile either the one of before or the one of before with the own version
set to the target; the own version is the target after the reconcile only if,
after the reconcile, every operand of the registry has a CR whose observed
version is the target version of the operand and the conditions aggregated
from the operands are Available=True, Progressing=False and Degraded=False;
otherwise the version map is the one of before, the own version keeping its
value or staying absent. -/
theorem Reconcile_upgrade_gated (env : Env) (pendingWrite : Bool) (cl : Cluster)
    (request : Request) (hc : HyperConverged)
    (hres : resolveRequest env request = singletonKey env)
    (hget : cl.getHyperConverged (singletonKey env).Name (singletonKey env).Namespace = some hc)
    (hinit : hc.Status.Conditions ≠ [])
    (hmode : inUpgradeMode hc.Status.Versions env.OwnVersionName env.OwnVersion = true) :
    ∃ hc1, (Reconcile env pendingWrite cl request).cluster.getHyperConverged
        (singletonKey env).Name (singletonKey env).Namespace = some hc1 ∧
      (hc1.Status.Versions = hc.Status.Versions ∨
        hc1.Status.Versions
          = updateVersion hc.Status.Versions env.OwnVersionName env.OwnVersion) ∧
      (getVersion hc1.Status.Versions env.OwnVersionName = some env.OwnVersion →
        (∀ h ∈ env.registry,
          ((Reconcile env pendingWrite cl request).cluster.getOperandCR h.Kind h.Name).map
            (fun cr => cr.ObservedVersion) = some h.TargetVersion) ∧
        (aggregate env.Names true Option.none
          (operandViews env (Reconcile env pendingWrite cl request).cluster)).Available.Status
          = .ConditionTrue ∧
        (aggregate env.Names true Option.none
          (operandViews env (Reconcile env pendingWrite cl request).cluster)).Progressing.Status
          = .ConditionFalse ∧
        (aggregate env.Names true Option.none
          (operandViews env (Reconcile env pendingWrite cl request).cluster)).Degraded.Status
          = .ConditionFalse) ∧
      (¬ ((∀ h ∈ env.registry,
          ((Reconcile env pendingWrite cl request).cluster.getOperandCR h.Kind h.Name).map
            (fun cr => cr.ObservedVersion) = some h.TargetVersion) ∧
        (aggregate env.Names true Option.none
          (operandViews env (Reconcile env pendingWrite cl request).cluster)).Available.Status
          = .ConditionTrue ∧
        (aggregate env.Names true Option.none
          (operandViews env (Reconcile env pendingWrite cl request).cluster)).Progressing.Status
          = .ConditionFalse ∧
        (aggregate env.Names true Option.none
          (operandViews env (Reconcile env pendingWrite cl request).cluster)).Degraded.Status
          = .ConditionFalse) →
        hc1.Status.Versions = hc.Status.Versions) := by
  obtain ⟨hn, hs⟩ := getHyperConverged_some cl _ _ hc hget
  have hold := getVersion_ne_of_inUpgradeMode _ _ _ hmode
  obtain ⟨⟨pops, phcs, _, _⟩, p1, p2, _, pver, _⟩ :=
    prepareUpgrade_frame env (triggerOf env request) cl hc
  rw [Reconcile_of_singleton env pendingWrite cl request hc hres hget]
  cases hmod : (prepareUpgrade env (triggerOf env request) cl hc).1 with
  | true =>
    rw [reconcileSingleton_of_modified env (triggerOf env request) pendingWrite cl hc hmod]
    have hget1 : (prepareUpgrade env (triggerOf env request) cl hc).2.2.getHyperConverged
        (singletonKey env).Name (singletonKey env).Namespace = some hc := by
      unfold Cluster.getHyperConverged at hget ⊢
      rw [phcs]
      exact hget
    refine ⟨_, writeStatus_getHyperConverged env _ _ _ _ true _ _ hc hget1
      (p1.trans hn) (p2.trans hs), Or.inl pver, fun hv => ?_, fun _ => pver⟩
    exact absurd (show getVersion hc.Status.Versions env.OwnVersionName = some env.OwnVersion by
      rw [← pver]; exact hv) hold
  | false =>
    rw [reconcileSingleton_of_complete env (triggerOf env request) pendingWrite cl hc hmod hinit]
    obtain ⟨⟨sops, _, shcs, _⟩, s1, s2, _, _, sver⟩ := operandStage_frame env
      (triggerOf env request) (prepareUpgrade env (triggerOf env request) cl hc).2.1
      (prepareUpgrade env (triggerOf env request) cl hc).2.2
    have hver := sver.trans pver
    have hget1 : (operandStage env (triggerOf env request)
        (prepareUpgrade env (triggerOf env request) cl hc).2.1
        (prepareUpgrade env (triggerOf env request) cl hc).2.2).2.getHyperConverged
        (singletonKey env).Name (singletonKey env).Namespace = some hc := by
      unfold Cluster.getHyperConverged at hget ⊢
      rw [shcs, phcs]
      exact hget
    have hfound := fun conds versions requeue => writeStatus_getHyperConverged env
      (operandStage env (triggerOf env request)
        (prepareUpgrade env (triggerOf env request) cl hc).2.1
        (prepareUpgrade env (triggerOf env request) cl hc).2.2).1.Instance
      (operandStage env (triggerOf env request)
        (prepareUpgrade env (triggerOf env request) cl hc).2.1
        (prepareUpgrade env (triggerOf env request) cl hc).2.2).2
      conds versions requeue _ _ hc hget1 ((s1.trans p1).trans hn) ((s2.trans p2).trans hs)
    have hwops := fun conds versions requeue => (writeStatus_frame env
      (operandStage env (triggerOf env request)
        (prepareUpgrade env (triggerOf env request) cl hc).2.1
        (prepareUpgrade env (triggerOf env request) cl hc).2.2).1.Instance
      (operandStage env (triggerOf env request)
        (prepareUpgrade env (triggerOf env request) cl hc).2.1
        (prepareUpgrade env (triggerOf env request) cl hc).2.2).2
      conds versions requeue).1
    have hmode2 : inUpgradeMode
        (operandStage env (triggerOf env request)
          (prepareUpgrade env (triggerOf env request) cl hc).2.1
          (prepareUpgrade env (triggerOf env request) cl hc).2.2).1.Instance.Status.Versions
        env.OwnVersionName env.OwnVersion = true := by rw [hver]; exact hmode
    have hsome := (foldl_reconcileOperand_isSome env (triggerOf env request)
      (prepareUpgrade env (triggerOf env request) cl hc).2.1.Instance env.registry
      (prepareUpgrade env (triggerOf env request) cl hc).2.2).2
    cases hgate : (upgradeDone env.Names Option.none
        (operandViews env (operandStage env (triggerOf env request)
          (prepareUpgrade env (triggerOf env request) cl hc).2.1
          (prepareUpgrade env (triggerOf env request) cl hc).2.2).2) && !pendingWrite) with
    | false =>
      have hstep : upgradeStep env.Names env.OwnVersionName env.OwnVersion Option.none
          (operandViews env (operandStage env (triggerOf env request)
            (prepareUpgrade env (triggerOf env request) cl hc).2.1
            (prepareUpgrade env (triggerOf env request) cl hc).2.2).2) pendingWrite
          (operandStage env (triggerOf env request)
            (prepareUpgrade env (triggerOf env request) cl hc).2.1
            (prepareUpgrade env (triggerOf env request) cl hc).2.2).1.Instance.Status.Versions
          = hc.Status.Versions := by
        unfold upgradeStep
        rw [if_pos hmode2, hgate]
        exact hver
      rw [hstep]
      refine ⟨_, hfound _ _ _, Or.inl rfl, fun hv => absurd hv hold, fun _ => rfl⟩
    | true =>
      have hstep : upgradeStep env.Names env.OwnVersionName env.OwnVersion Option.none
          (operandViews env (operandStage env (triggerOf env request)
            (prepareUpgrade env (triggerOf env request) cl hc).2.1
            (prepareUpgrade env (triggerOf env request) cl hc).2.2).2) pendingWrite
          (operandStage env (triggerOf env request)
            (prepareUpgrade env (triggerOf env request) cl hc).2.1
            (prepareUpgrade env (triggerOf env request) cl hc).2.2).1.Instance.Status.Versions
          = updateVersion hc.Status.Versions env.OwnVersionName env.OwnVersion := by
        unfold upgradeStep
        rw [if_pos hmode2, hgate, if_pos rfl, hver]
      rw [hstep]
      have hdone := (upgradeDone_iff env.Names Option.none _).1
        (Bool.and_eq_true_iff.1 hgate).1
      have hviews := operandViews_congr env _ _ (hwops
        (upgradeProgress env
          (inUpgradeMode (updateVersion hc.Status.Versions env.OwnVersionName env.OwnVersion)
            env.OwnVersionName env.OwnVersion)
          (aggregate env.Names
            (inUpgradeMode (updateVersion hc.Status.Versions env.OwnVersionName env.OwnVersion)
              env.OwnVersionName env.OwnVersion)
            Option.none
            (operandViews env (operandStage env (triggerOf env request)
              (prepareUpgrade env (triggerOf env request) cl hc).2.1
              (prepareUpgrade env (triggerOf env request) cl hc).2.2).2)).toList)
        (updateVersion hc.Status.Versions env.OwnVersionName env.OwnVersion) pendingWrite)
      have hG : (∀ h ∈ env.registry,
          ((writeStatus env
            (operandStage env (triggerOf env request)
              (prepareUpgrade env (triggerOf env request) cl hc).2.1
              (prepareUpgrade env (triggerOf env request) cl hc).2.2).1.Instance
            (operandStage env (triggerOf env request)
              (prepareUpgrade env (triggerOf env request) cl hc).2.1
              (prepareUpgrade env (triggerOf env request) cl hc).2.2).2
            (upgradeProgress env
              (inUpgradeMode
                (updateVersion hc.Status.Versions env.OwnVersionName env.OwnVersion)
                env.OwnVersionName env.OwnVersion)
              (aggregate env.Names
                (inUpgradeMode
                  (updateVersion hc.Status.Versions env.OwnVersionName env.OwnVersion)
                  env.OwnVersionName env.OwnVersion)
                Option.none
                (operandViews env (operandStage env (triggerOf env request)
                  (prepareUpgrade env (triggerOf env request) cl hc).2.1
                  (prepareUpgrade env (triggerOf env request) cl hc).2.2).2)).toList)
            (updateVersion hc.Status.Versions env.OwnVersionName env.OwnVersion)
            pendingWrite).cluster.getOperandCR h.Kind h.Name).map
            (fun cr => cr.ObservedVersion) = some h.TargetVersion) := by
        intro h hmem
        have hex := hsome h hmem
        have hcreq : ∀ c : Cluster, c.Operands
            = (reconcileOperands env (triggerOf env request)
                (prepareUpgrade env (triggerOf env request) cl hc).2.1.Instance
                (prepareUpgrade env (triggerOf env request) cl hc).2.2).Operands →
            c.getOperandCR h.Kind h.Name
              = (List.foldl (reconcileOperand env (triggerOf env request)
                  (prepareUpgrade env (triggerOf env request) cl hc).2.1.Instance)
                  (prepareUpgrade env (triggerOf env request) cl hc).2.2
                  env.registry).getOperandCR h.Kind h.Name := by
          intro c hc2
          unfold Cluster.getOperandCR
          rw [hc2]
          rfl
        rw [hcreq _ ((hwops _ _ _).trans sops)]
        cases hcr : (List.foldl (reconcileOperand env (triggerOf env request)
            (prepareUpgrade env (triggerOf env request) cl hc).2.1.Instance)
            (prepareUpgrade env (triggerOf env request) cl hc).2.2
            env.registry).getOperandCR h.Kind h.Name with
        | none => rw [hcr] at hex; exact absurd hex (by decide)
        | some cr =>
          have hview : operandView (operandStage env (triggerOf env request)
              (prepareUpgrade env (triggerOf env request) cl hc).2.1
              (prepareUpgrade env (triggerOf env request) cl hc).2.2).2 h
              = some { Name := h.Kind, ObservedVersion := cr.ObservedVersion,
                       TargetVersion := h.TargetVersion, Conditions := cr.Conditions } := by
            unfold operandView
            rw [hcreq _ sops, hcr]
            rfl
          have hin : ∀ o, operandView (operandStage env (triggerOf env request)
              (prepareUpgrade env (triggerOf env request) cl hc).2.1
              (prepareUpgrade env (triggerOf env request) cl hc).2.2).2 h = some o →
              o ∈ operandViews env (operandStage env (triggerOf env request)
                (prepareUpgrade env (triggerOf env request) cl hc).2.1
                (prepareUpgrade env (triggerOf env request) cl hc).2.2).2 := by
            intro o ho
            unfold operandViews
            exact List.mem_filterMap.2 ⟨h, hmem, ho⟩
          have := hdone.1 _ (hin _ hview)
          simp only [Option.map_some']
          exact congrArg some this
      rw [hviews]
      refine ⟨_, hfound _ _ _, Or.inr rfl, fun _ => ⟨hG, hdone.2⟩,
        fun hnot => absurd ⟨hG, hdone.2⟩ hnot⟩

/-- C10 (amended), at the sample cluster of the test "don't complete upgrade if
a component version is not match to the component's version env ver": every
operand is healthy, the KubeVirt CR is at 1.6.2 while 1.6.3 is expected, and
the own version stays 1.5.0. -/
theorem Reconcile_upgrade_gated_witness :
    ∃ hc1, (Reconcile sampleEnv false
        (sampleCluster [readyHC HyperConvergedSpec.empty [] "1.5.0"] laggingOperands [])
        (singletonKey sampleEnv)).cluster.getHyperConverged
        (singletonKey sampleEnv).Name (singletonKey sampleEnv).Namespace = some hc1 ∧
      hc1.Status.Versions = [("operator", "1.5.0")] :=
  (Reconcile_upgrade_gated sampleEnv false
    (sampleCluster [readyHC HyperConvergedSpec.empty [] "1.5.0"] laggingOperands [])
    (singletonKey sampleEnv) (readyHC HyperConvergedSpec.empty [] "1.5.0")
    (by decide) (by decide) (by decide) (by decide)).elim
    (fun hc1 hh => ⟨hc1, hh.1, hh.2.2.2 (by decide)⟩)

/-- C17, at the legacy ConfigMap of the tests and an HC spec without
live-migration tuning: the five values are adopted. -/
theorem migrateBeforeUpgrade_adopts_per_field_witness :
    (migrateBeforeUpgrade sampleEnv
        (sampleRequest (sampleHC HyperConvergedSpec.empty [] "1.5.0"))
        (sampleCluster [] [] [legacyConfigMap fullPayloadText])).req.Instance.Spec.LiveMigrationConfig
      = { ParallelMigrationsPerCluster := some 5, ParallelOutboundMigrationsPerNode := some 2,
          BandwidthPerMigration := some "128Mi", CompletionTimeoutPerGiB := some 800,
          ProgressTimeout := some 150 } :=
  ((migrateBeforeUpgrade_adopts_per_field sampleEnv
      (sampleRequest (sampleHC HyperConvergedSpec.empty [] "1.5.0"))
      (sampleCluster [] [] [legacyConfigMap fullPayloadText])
      LiveMigrationConfigurations.empty LiveMigrationConfigurations.empty).2.2.2.2.2.1
    (legacyConfigMap fullPayloadText) fullPayloadText
    { Config := { ParallelMigrationsPerCluster := some 5,
                  ParallelOutboundMigrationsPerNode := some 2,
                  BandwidthPerMigration := some "128Mi",
                  CompletionTimeoutPerGiB := some 800, ProgressTimeout := some 150 },
      UnknownKeys := [] }
    (by decide) (by decide) (by decide)).trans (by decide)

/-- C18 (amended), at the legacy ConfigMap of the tests and an HC spec without
live-migration tuning: the first run adopts, the next run returns
`modified = false` and removes the legacy ConfigMap. -/
theorem migrateBeforeUpgrade_rerun_witness :
    (migrateAgain sampleEnv (sampleRequest (sampleHC HyperConvergedSpec.empty [] "1.5.0"))
        (sampleCluster [] [] [legacyConfigMap fullPayloadText])).modified = false ∧
    (migrateAgain sampleEnv (sampleRequest (sampleHC HyperConvergedSpec.empty [] "1.5.0"))
        (sampleCluster [] [] [legacyConfigMap fullPayloadText])).cluster.getConfigMap kvCmName
      "kubevirt-hyperconverged" = none :=
  have h := (migrateBeforeUpgrade_rerun sampleEnv
    (sampleRequest (sampleHC HyperConvergedSpec.empty [] "1.5.0"))
    (sampleCluster [] [] [legacyConfigMap fullPayloadText])).2
    (legacyConfigMap fullPayloadText) (by decide) (by decide)
  ⟨h.2.2.1, h.2.2.2.2.2.1⟩

/-! ## Theorems: `applyDataImportSchedule`, frame, fixed point and invariants -/

/-- A call on a request whose status schedule is not empty leaves the request as it is. -/
theorem applyDataImportSchedule_snd_of_ne_empty (v : Nat) (p : Process) (req : HcoRequest)
    (hh : req.Instance.Status.DataImportSchedule ≠ "") :
    (applyDataImportSchedule v p req).2 = req := by
  by_cases he : req.Instance.Status.DataImportSchedule = p.dataImportSchedule
  · rw [applyDataImportSchedule_of_same v p req hh he]
  · rw [applyDataImportSchedule_of_differ v p req hh he]

/-- After a call on a request whose status schedule is not empty, the process
variable holds that schedule. -/
theorem applyDataImportSchedule_fst_of_ne_empty (v : Nat) (p : Process) (req : HcoRequest)
    (hh : req.Instance.Status.DataImportSchedule ≠ "") :
    (applyDataImportSchedule v p req).1.dataImportSchedule
      = req.Instance.Status.DataImportSchedule := by
  by_cases he : req.Instance.Status.DataImportSchedule = p.dataImportSchedule
  · rw [applyDataImportSchedule_of_same v p req hh he]
    exact he.symm
  · rw [applyDataImportSchedule_of_differ v p req hh he]

/-- After a call the status schedule of the request is not empty. -/
theorem applyDataImportSchedule_status_ne_empty (v : Nat) (p : Process) (req : HcoRequest) :
    (applyDataImportSchedule v p req).2.Instance.Status.DataImportSchedule ≠ "" := by
  by_cases hh : req.Instance.Status.DataImportSchedule = ""
  · by_cases hs : p.dataImportSchedule = ""
    · rw [applyDataImportSchedule_of_both_empty v p req hh hs]
      exact generateSchedule_ne_empty v
    · rw [applyDataImportSchedule_of_empty_status v p req hh hs]
      exact hs
  · rw [applyDataImportSchedule_snd_of_ne_empty v p req hh]
    exact hh

/-- A run that starts from a non-empty process variable ends with a non-empty one. -/
theorem runCalls_process_ne_empty (calls : List (Nat × HcoRequest)) :
    ∀ p : Process, p.dataImportSchedule ≠ "" →
      (runCalls p calls).1.dataImportSchedule ≠ "" := by
  induction calls with
  | nil => intro p hs; exact hs
  | cons c rest ih =>
    intro p _
    obtain ⟨v, req⟩ := c
    simp only [runCalls]
    exact ih _ (applyDataImportSchedule_process_ne_empty v p req)

/-- C21: `applyDataImportSchedule` never overwrites a persisted schedule: when
`req.Instance.Status.DataImportSchedule` is non-empty before the call, equal to
the process variable or not, well-formed or not, it has the same value after
the call. -/
theorem applyDataImportSchedule_keeps_persisted (v : Nat) (p : Process) (req : HcoRequest)
    (hh : req.Instance.Status.DataImportSchedule ≠ "") :
    (applyDataImportSchedule v p req).2.Instance.Status.DataImportSchedule
      = req.Instance.Status.DataImportSchedule := by
  rw [applyDataImportSchedule_snd_of_ne_empty v p req hh]

/-- C21, at a persisted text that is no schedule and a process that holds
another schedule: the persisted text stays. -/
theorem applyDataImportSchedule_keeps_persisted_witness :
    (applyDataImportSchedule 7 { dataImportSchedule := "3 */12 * * *", generateCalls := 1 }
        (requestWith "every day" false)).2.Instance.Status.DataImportSchedule = "every day" :=
  applyDataImportSchedule_keeps_persisted 7
    { dataImportSchedule := "3 */12 * * *", generateCalls := 1 }
    (requestWith "every day" false) (by decide)

/-- C22: whichever schedule was persisted first wins: two processes that hold
arbitrary values of `dataImportSchedule`, with arbitrary draws of the random
source, each call `applyDataImportSchedule` on a request that carries the same
non-empty HC status schedule `h`; afterwards both process variables equal `h`,
and both requests still carry `h`. -/
theorem applyDataImportSchedule_first_persisted_wins (v1 v2 : Nat) (p1 p2 : Process)
    (req1 req2 : HcoRequest) (h : String) (hh : h ≠ "")
    (h1 : req1.Instance.Status.DataImportSchedule = h)
    (h2 : req2.Instance.Status.DataImportSchedule = h) :
    (applyDataImportSchedule v1 p1 req1).1.dataImportSchedule = h ∧
    (applyDataImportSchedule v2 p2 req2).1.dataImportSchedule = h ∧
    (applyDataImportSchedule v1 p1 req1).2.Instance.Status.DataImportSchedule = h ∧
    (applyDataImportSchedule v2 p2 req2).2.Instance.Status.DataImportSchedule = h := by
  have hh1 : req1.Instance.Status.DataImportSchedule ≠ "" := h1 ▸ hh
  have hh2 : req2.Instance.Status.DataImportSchedule ≠ "" := h2 ▸ hh
  refine ⟨?_, ?_, ?_, ?_⟩
  · rw [applyDataImportSchedule_fst_of_ne_empty v1 p1 req1 hh1, h1]
  · rw [applyDataImportSchedule_fst_of_ne_empty v2 p2 req2 hh2, h2]
  · rw [applyDataImportSchedule_snd_of_ne_empty v1 p1 req1 hh1, h1]
  · rw [applyDataImportSchedule_snd_of_ne_empty v2 p2 req2 hh2, h2]

/-- C22, at a fresh process and a process that had generated another
schedule, both meeting the persisted schedule `42 */12 * * *`. -/
theorem applyDataImportSchedule_first_persisted_wins_witness :
    (applyDataImportSchedule 7 Process.fresh
        (requestWith "42 */12 * * *" false)).1.dataImportSchedule = "42 */12 * * *" ∧
    (applyDataImportSchedule 11 { dataImportSchedule := "3 */12 * * *", generateCalls := 1 }
        (requestWith "42 */12 * * *" true)).1.dataImportSchedule = "42 */12 * * *" :=
  have h := applyDataImportSchedule_first_persisted_wins 7 11 Process.fresh
    { dataImportSchedule := "3 */12 * * *", generateCalls := 1 }
    (requestWith "42 */12 * * *" false) (requestWith "42 */12 * * *" true) "42 */12 * * *"
    (by decide) rfl rfl
  ⟨h.1, h.2.1⟩

/-- C23: `applyDataImportSchedule` sets `req.StatusDirty` to true when the HC
status schedule was empty before the call; when it was non-empty,
`req.StatusDirty` keeps its prior value, so the flag changes only in a call
that met an empty status schedule; and the call never changes `StatusDirty`
from true to false. -/
theorem applyDataImportSchedule_statusDirty (v : Nat) (p : Process) (req : HcoRequest) :
    (req.Instance.Status.DataImportSchedule = "" →
      (applyDataImportSchedule v p req).2.StatusDirty = true) ∧
    (req.Instance.Status.DataImportSchedule ≠ "" →
      (applyDataImportSchedule v p req).2.StatusDirty = req.StatusDirty) ∧
    ((applyDataImportSchedule v p req).2.StatusDirty ≠ req.StatusDirty →
      req.Instance.Status.DataImportSchedule = "") ∧
    (req.StatusDirty = true → (applyDataImportSchedule v p req).2.StatusDirty = true) := by
  have hempty : req.Instance.Status.DataImportSchedule = "" →
      (applyDataImportSchedule v p req).2.StatusDirty = true := by
    intro hh
    by_cases hs : p.dataImportSchedule = ""
    · rw [applyDataImportSchedule_of_both_empty v p req hh hs]
    · rw [applyDataImportSchedule_of_empty_status v p req hh hs]
  have hkeep : req.Instance.Status.DataImportSchedule ≠ "" →
      (applyDataImportSchedule v p req).2.StatusDirty = req.StatusDirty := by
    intro hh
    rw [applyDataImportSchedule_snd_of_ne_empty v p req hh]
  refine ⟨hempty, hkeep, fun hne => ?_, fun hd => ?_⟩
  · by_contra hh
    exact hne (hkeep hh)
  · by_cases hh : req.Instance.Status.DataImportSchedule = ""
    · exact hempty hh
    · rw [hkeep hh, hd]

/-- C24: fixed point: when the HC status schedule is non-empty and equal to the
process variable, the call changes nothing at all: the process state (the
variable and the count of generations) and the whole request are the same
after the call as before. -/
theorem applyDataImportSchedule_fixed_point (v : Nat) (p : Process) (req : HcoRequest)
    (hh : req.Instance.Status.DataImportSchedule ≠ "")
    (he : req.Instance.Status.DataImportSchedule = p.dataImportSchedule) :
    (applyDataImportSchedule v p req).1 = p ∧ (applyDataImportSchedule v p req).2 = req := by
  rw [applyDataImportSchedule_of_same v p req hh he]
  exact ⟨rfl, rfl⟩

/-- C24, at a process and a request that both hold `42 */12 * * *`. -/
theorem applyDataImportSchedule_fixed_point_witness :
    (applyDataImportSchedule 7 { dataImportSchedule := "42 */12 * * *", generateCalls := 1 }
        (requestWith "42 */12 * * *" false)).1
      = { dataImportSchedule := "42 */12 * * *", generateCalls := 1 } ∧
    (applyDataImportSchedule 7 { dataImportSchedule := "42 */12 * * *", generateCalls := 1 }
        (requestWith "42 */12 * * *" false)).2 = requestWith "42 */12 * * *" false :=
  applyDataImportSchedule_fixed_point 7
    { dataImportSchedule := "42 */12 * * *", generateCalls := 1 }
    (requestWith "42 */12 * * *" false) (by decide) (by decide)

/-- C25: `applyDataImportSchedule` is idempotent: from every process state and
request, and for every draw of the random source in either call, a second call
on the state that the first call produced changes nothing: the process
variable, the HC status schedule and `req.StatusDirty` stay, and
`generateSchedule` is not invoked. -/
theorem applyDataImportSchedule_idempotent (v1 v2 : Nat) (p : Process) (req : HcoRequest) :
    applyDataImportSchedule v2 (applyDataImportSchedule v1 p req).1
        (applyDataImportSchedule v1 p req).2
      = applyDataImportSchedule v1 p req ∧
    (applyDataImportSchedule v2 (applyDataImportSchedule v1 p req).1
        (applyDataImportSchedule v1 p req).2).1.generateCalls
      = (applyDataImportSchedule v1 p req).1.generateCalls := by
  have hsame : (applyDataImportSchedule v1 p req).2.Instance.Status.DataImportSchedule
      = (applyDataImportSchedule v1 p req).1.dataImportSchedule := by
    by_cases hh : req.Instance.Status.DataImportSchedule = ""
    · by_cases hs : p.dataImportSchedule = ""
      · rw [applyDataImportSchedule_of_both_empty v1 p req hh hs]
        rfl
      · rw [applyDataImportSchedule_of_empty_status v1 p req hh hs]
        rfl
    · rw [applyDataImportSchedule_snd_of_ne_empty v1 p req hh,
        applyDataImportSchedule_fst_of_ne_empty v1 p req hh]
  have hfix := applyDataImportSchedule_of_same v2 (applyDataImportSchedule v1 p req).1
    (applyDataImportSchedule v1 p req).2 (applyDataImportSchedule_status_ne_empty v1 p req) hsame
  exact ⟨hfix, by rw [hfix]⟩

/-- C26: frame: of the whole request, `applyDataImportSchedule` modifies only
`req.Instance.Status.DataImportSchedule` and `req.StatusDirty`: once these two
are put back, the request is the one before the call; so the HC spec, the
metadata, the status conditions, versions, related objects and observed
generation, and every other flag of the request are unchanged. -/
theorem applyDataImportSchedule_frame (v : Nat) (p : Process) (req : HcoRequest) :
    { (applyDataImportSchedule v p req).2.setDataImportSchedule
          req.Instance.Status.DataImportSchedule with StatusDirty := req.StatusDirty } = req ∧
    (applyDataImportSchedule v p req).2.Instance.Spec = req.Instance.Spec ∧
    (applyDataImportSchedule v p req).2.Instance.Name = req.Instance.Name ∧
    (applyDataImportSchedule v p req).2.Instance.Namespace = req.Instance.Namespace ∧
    (applyDataImportSchedule v p req).2.Instance.Annotations = req.Instance.Annotations ∧
    (applyDataImportSchedule v p req).2.Instance.Labels = req.Instance.Labels ∧
    (applyDataImportSchedule v p req).2.Instance.Finalizers = req.Instance.Finalizers ∧
    (applyDataImportSchedule v p req).2.Instance.Status.Conditions
      = req.Instance.Status.Conditions ∧
    (applyDataImportSchedule v p req).2.Instance.Status.Versions
      = req.Instance.Status.Versions ∧
    (applyDataImportSchedule v p req).2.Instance.Status.RelatedObjects
      = req.Instance.Status.RelatedObjects ∧
    (applyDataImportSchedule v p req).2.Instance.Status.ObservedGeneration
      = req.Instance.Status.ObservedGeneration ∧
    (applyDataImportSchedule v p req).2.Name = req.Name ∧
    (applyDataImportSchedule v p req).2.Namespace = req.Namespace ∧
    (applyDataImportSchedule v p req).2.UpgradeMode = req.UpgradeMode ∧
    (applyDataImportSchedule v p req).2.ComponentUpgradeInProgress
      = req.ComponentUpgradeInProgress ∧
    (applyDataImportSchedule v p req).2.Dirty = req.Dirty ∧
    (applyDataImportSchedule v p req).2.HCOTriggered = req.HCOTriggered ∧
    (applyDataImportSchedule v p req).2.Upgradeable = req.Upgradeable := by
  by_cases hh : req.Instance.Status.DataImportSchedule = ""
  · by_cases hs : p.dataImportSchedule = ""
    · rw [applyDataImportSchedule_of_both_empty v p req hh hs]
      simp [HcoRequest.setDataImportSchedule]
    · rw [applyDataImportSchedule_of_empty_status v p req hh hs]
      simp [HcoRequest.setDataImportSchedule]
  · rw [applyDataImportSchedule_snd_of_ne_empty v p req hh]
    simp [HcoRequest.setDataImportSchedule]

/-- C27: non-emptiness invariant: after every call of `applyDataImportSchedule`
both the process variable and `req.Instance.Status.DataImportSchedule` are
non-empty; a non-empty process variable is non-empty after any sequence of
later calls; and `generateSchedule` never returns the empty string. -/
theorem applyDataImportSchedule_non_empty (v : Nat) (p : Process) (req : HcoRequest) :
    (applyDataImportSchedule v p req).1.dataImportSchedule ≠ "" ∧
    (applyDataImportSchedule v p req).2.Instance.Status.DataImportSchedule ≠ "" ∧
    (∀ calls : List (Nat × HcoRequest),
      (runCalls (applyDataImportSchedule v p req).1 calls).1.dataImportSchedule ≠ "") ∧
    (p.dataImportSchedule ≠ "" →
      ∀ calls : List (Nat × HcoRequest), (runCalls p calls).1.dataImportSchedule ≠ "") ∧
    (∀ w : Nat, generateSchedule w ≠ "") :=
  ⟨applyDataImportSchedule_process_ne_empty v p req,
    applyDataImportSchedule_status_ne_empty v p req,
    fun calls => runCalls_process_ne_empty calls _
      (applyDataImportSchedule_process_ne_empty v p req),
    fun hs calls => runCalls_process_ne_empty calls p hs,
    generateSchedule_ne_empty⟩

/-- C28: well-formedness is preserved: if before a call each of the process
variable and the HC status schedule is empty or matches
`^(\d|[1-5]\d) \*/12 \* \* \*$`, then after the call both match that
expression; in particular a fresh process that meets an HC with an empty
status schedule leaves a status schedule that matches it. -/
theorem applyDataImportSchedule_preserves_well_formed (v : Nat) (p : Process)
    (req : HcoRequest)
    (hh : req.Instance.Status.DataImportSchedule = "" ∨
      schedulePattern.fullMatch req.Instance.Status.DataImportSchedule = true)
    (hs : p.dataImportSchedule = "" ∨ schedulePattern.fullMatch p.dataImportSchedule = true) :
    schedulePattern.fullMatch (applyDataImportSchedule v p req).1.dataImportSchedule = true ∧
    schedulePattern.fullMatch
      (applyDataImportSchedule v p req).2.Instance.Status.DataImportSchedule = true ∧
    (∀ (w : Nat) (fresh : HcoRequest), fresh.Instance.Status.DataImportSchedule = "" →
      schedulePattern.fullMatch
        (applyDataImportSchedule w Process.fresh fresh).2.Instance.Status.DataImportSchedule
        = true) := by
  refine ⟨?_, ?_, fun w fresh hf => ?_⟩
  · by_cases he : req.Instance.Status.DataImportSchedule = ""
    · by_cases hp : p.dataImportSchedule = ""
      · rw [applyDataImportSchedule_of_both_empty v p req he hp]
        exact generateSchedule_fullMatch v
      · rw [applyDataImportSchedule_of_empty_status v p req he hp]
        exact hs.resolve_left hp
    · rw [applyDataImportSchedule_fst_of_ne_empty v p req he]
      exact hh.resolve_left he
  · by_cases he : req.Instance.Status.DataImportSchedule = ""
    · by_cases hp : p.dataImportSchedule = ""
      · rw [applyDataImportSchedule_of_both_empty v p req he hp]
        exact generateSchedule_fullMatch v
      · rw [applyDataImportSchedule_of_empty_status v p req he hp]
        exact hs.resolve_left hp
    · rw [applyDataImportSchedule_snd_of_ne_empty v p req he]
      exact hh.resolve_left he
  · rw [applyDataImportSchedule_of_both_empty w Process.fresh fresh hf rfl]
    exact generateSchedule_fullMatch w

/-- C28, at a process that holds `3 */12 * * *` and meets the persisted
schedule `42 */12 * * *`: both match afterwards. -/
theorem applyDataImportSchedule_preserves_well_formed_witness :
    schedulePattern.fullMatch
      (applyDataImportSchedule 7 { dataImportSchedule := "3 */12 * * *", generateCalls := 1 }
        (requestWith "42 */12 * * *" false)).1.dataImportSchedule = true ∧
    schedulePattern.fullMatch
      (applyDataImportSchedule 7 { dataImportSchedule := "3 */12 * * *", generateCalls := 1 }
        (requestWith "42 */12 * * *" false)).2.Instance.Status.DataImportSchedule = true :=
  have h := applyDataImportSchedule_preserves_well_formed 7
    { dataImportSchedule := "3 */12 * * *", generateCalls := 1 }
    (requestWith "42 */12 * * *" false) (Or.inr (by decide)) (Or.inr (by decide))
  ⟨h.1, h.2.1⟩

end Hyperconverged
